import Mathlib

/-!
# Order-checkout saga: a shallow embedding of `deeelis/mipt-exam`

The development embeds

* `internal/model` (orders, payments, reservations; products and discounts),
* `internal/service` (the in-memory Order, Billing, Inventory and Discount services),
* `internal/saga/orchestrator.go` (the saga orchestrator),

as pure state-passing functions, and proves properties of the orchestrator.

Modelling conventions.

* Go `float64` is an abstract carrier `F` with the operations the program uses
  (`Float64Ops`). No algebraic law is assumed, so every theorem stated for an
  arbitrary `F` holds for IEEE-754 doubles as well as for exact rationals.
* Go `int` is a 64-bit two's-complement integer: values are `Int`s and every
  addition or subtraction is followed by `wrapInt`.
* A Go `map[string]*T` is an association list with unique-key update
  (`mapSet`), first-match lookup (`mapGet`) and `mapDelete`. Iteration
  (`range`) visits the entries in list order; Go leaves the order unspecified.
* `uuid.New()` draws the next value of an oracle stream (`UuidSource`).
* Timestamps (`time.Now()`, `CreatedAt`, `UpdatedAt`) and `time.Sleep` have no
  influence on control flow and are not represented.
* Mutexes are not represented: every method runs atomically.
-/

namespace Saga

/-! ## Numbers -/

/-- The `float64` operations used by the program. -/
class Float64Ops (F : Type) where
  /-- The zero value `0.0`. -/
  zero : F
  /-- The conversion `float64(n)` of an integer, also used for integral literals such as `100.0`. -/
  ofInt : Int → F
  /-- The sum `a + b`. -/
  add : F → F → F
  /-- The difference `a - b`. -/
  sub : F → F → F
  /-- The product `a * b`. -/
  mul : F → F → F
  /-- The quotient `a / b`. -/
  div : F → F → F
  /-- The comparison `a < b`. -/
  lt : F → F → Bool

/-- Exact rational arithmetic is one interpretation of the `float64` operations. -/
instance : Float64Ops ℚ where
  zero := 0
  ofInt := fun n => (n : ℚ)
  add := fun a b => a + b
  sub := fun a b => a - b
  mul := fun a b => a * b
  div := fun a b => a / b
  lt := fun a b => decide (a < b)

/-- Reduction of an integer to the range of a 64-bit signed `int`. -/
def wrapInt (x : Int) : Int := (x + 9223372036854775808) % 18446744073709551616 - 9223372036854775808

/-- The values a 64-bit signed `int` can hold. -/
def InIntRange (x : Int) : Prop := -9223372036854775808 ≤ x ∧ x < 9223372036854775808

instance (x : Int) : Decidable (InIntRange x) := by
  unfold InIntRange; exact inferInstance

/-! ## Maps keyed by strings -/

/-- Lookup `m[k]`: the value of the first entry with key `k`. -/
def mapGet {V : Type} : List (String × V) → String → Option V
  | [], _ => none
  | (k', v) :: rest, k => if k' = k then some v else mapGet rest k

/-- Assignment `m[k] = v`: replaces the entry with key `k`, or adds one. -/
def mapSet {V : Type} : List (String × V) → String → V → List (String × V)
  | [], k, v => [(k, v)]
  | (k', v') :: rest, k, v => if k' = k then (k, v) :: rest else (k', v') :: mapSet rest k v

/-- Removal `delete(m, k)`. -/
def mapDelete {V : Type} (m : List (String × V)) (k : String) : List (String × V) :=
  m.filter (fun e => decide (e.1 ≠ k))

/-! ## Identifiers -/

/-- The source of `uuid.New().String()` values: a stream and a cursor. -/
structure UuidSource where
  /-- The stream of values. -/
  gen : Nat → String
  /-- The index of the next value to be drawn. -/
  next : Nat

/-- The call `uuid.New().String()`. -/
def UuidSource.New (u : UuidSource) : String × UuidSource :=
  (u.gen u.next, { u with next := u.next + 1 })

/-! ## `internal/model` -/

/-- The `model.OrderStatus` constants. -/
inductive OrderStatus where
  | Pending | Confirmed | Failed | Cancelled
  deriving DecidableEq, Repr

/-- The struct `model.OrderItem`. -/
structure OrderItem (F : Type) where
  ProductID : String
  Quantity : Int
  Price : F
  deriving DecidableEq, Repr

/-- The struct `model.Order` (without `CreatedAt`). -/
structure Order (F : Type) where
  ID : String
  UserID : String
  Items : List (OrderItem F)
  Status : OrderStatus
  Total : F
  deriving DecidableEq, Repr

/-- The `model.ReservationStatus` constants. -/
inductive ReservationStatus where
  | Reserved | Released | Failed
  deriving DecidableEq, Repr

/-- The struct `model.InventoryReservation`. -/
structure InventoryReservation where
  ID : String
  OrderID : String
  ProductID : String
  Quantity : Int
  Status : ReservationStatus
  deriving DecidableEq, Repr

/-- The `model.PaymentStatus` constants. -/
inductive PaymentStatus where
  | Pending | Completed | Failed | Refunded
  deriving DecidableEq, Repr

/-- The struct `model.Payment` (without `CreatedAt`). -/
structure Payment (F : Type) where
  ID : String
  OrderID : String
  UserID : String
  Amount : F
  Status : PaymentStatus
  deriving DecidableEq, Repr

/-- Modelled from the spec: the declaration of `model.Product` is not among the
sources; the fields are those that `inventory_service.go` reads and writes. -/
structure Product (F : Type) where
  ID : String
  Price : F
  Stock : Int
  deriving DecidableEq, Repr

/-- Modelled from the spec: the declaration of `model.Discount` is not among the
sources; the fields are those that `discount_service.go` writes. -/
structure Discount (F : Type) where
  ID : String
  UserID : String
  OrderID : String
  Amount : F
  Percentage : F
  deriving DecidableEq, Repr

/-- The errors built with `fmt.Errorf`, one constructor per format string, with
the format arguments as fields. -/
inductive SagaError (F : Type) where
  /-- The message "inventory reservation failed: insufficient stock". -/
  | inventoryFailed
  /-- The message "product not found: %s". -/
  | productNotFound (productID : String)
  /-- The message "insufficient stock for product %s: requested %d, available %d". -/
  | insufficientStock (productID : String) (requested available : Int)
  /-- The message "payment processing failed: insufficient funds". -/
  | paymentFailed
  /-- The message "insufficient funds: balance %.2f, required %.2f". -/
  | insufficientFunds (balance required : F)
  /-- The message "order not found: %s". -/
  | orderNotFound (orderID : String)
  /-- The message "discount not found: %s". -/
  | discountNotFound (discountID : String)
  /-- The message "payment not found: %s". -/
  | paymentNotFound (paymentID : String)
  /-- The message "payment not found for order: %s". -/
  | paymentNotFoundForOrder (orderID : String)
  /-- The message "saga execution not found: %s". -/
  | sagaNotFound (sagaID : String)
  /-- The message "saga did not complete within timeout: status=%s". -/
  | sagaTimeout (status : String)
  deriving DecidableEq, Repr

/-- A Go result pair `(value, error)`: the error of a result, `nil` on success. -/
def errOf {ε α : Type} : Except ε α → Option ε
  | .error e => some e
  | .ok _ => none

/-! ## `internal/service/order_service.go` -/

/-- The struct `service.OrderService`. -/
structure OrderService (F : Type) where
  orders : List (String × Order F)

/-- The constructor `NewOrderService`. -/
def NewOrderService {F : Type} : OrderService F := { orders := [] }

/-- The loop `for _, item := range items { order.Total += item.Price * float64(item.Quantity) }`,
started from the zero value of `Total`. -/
def orderTotal {F : Type} [Float64Ops F] (items : List (OrderItem F)) : F :=
  items.foldl (fun total item =>
    Float64Ops.add total (Float64Ops.mul item.Price (Float64Ops.ofInt item.Quantity))) Float64Ops.zero

/-- The method `OrderService.CreateOrder`. -/
def OrderService.CreateOrder {F : Type} [Float64Ops F] (s : OrderService F) (u : UuidSource)
    (userID : String) (items : List (OrderItem F)) :
    Except (SagaError F) (Order F) × OrderService F × UuidSource :=
  let (id, u) := u.New
  let order : Order F :=
    { ID := id, UserID := userID, Items := items, Status := OrderStatus.Pending,
      Total := orderTotal items }
  (.ok order, { s with orders := mapSet s.orders order.ID order }, u)

/-- The common body of `ConfirmOrder`, `CancelOrder` and `FailOrder`: look the
order up and assign its status. -/
def OrderService.setStatus {F : Type} (s : OrderService F) (orderID : String)
    (status : OrderStatus) : Option (SagaError F) × OrderService F :=
  match mapGet s.orders orderID with
  | none => (some (SagaError.orderNotFound orderID), s)
  | some order => (none, { s with orders := mapSet s.orders orderID { order with Status := status } })

/-- The method `OrderService.ConfirmOrder`. -/
def OrderService.ConfirmOrder {F : Type} (s : OrderService F) (orderID : String) :
    Option (SagaError F) × OrderService F :=
  s.setStatus orderID OrderStatus.Confirmed

/-- The method `OrderService.CancelOrder`. -/
def OrderService.CancelOrder {F : Type} (s : OrderService F) (orderID : String) :
    Option (SagaError F) × OrderService F :=
  s.setStatus orderID OrderStatus.Cancelled

/-- The method `OrderService.FailOrder`. -/
def OrderService.FailOrder {F : Type} (s : OrderService F) (orderID : String) :
    Option (SagaError F) × OrderService F :=
  s.setStatus orderID OrderStatus.Failed

/-- The method `OrderService.GetOrder`. -/
def OrderService.GetOrder {F : Type} (s : OrderService F) (orderID : String) :
    Except (SagaError F) (Order F) :=
  match mapGet s.orders orderID with
  | none => .error (SagaError.orderNotFound orderID)
  | some order => .ok order

/-! ## `internal/service/inventory_service.go` -/

/-- The struct `service.InventoryService`. -/
structure InventoryService (F : Type) where
  products : List (String × Product F)
  reservations : List (String × InventoryReservation)
  shouldFail : Bool

/-- The constructor `NewInventoryService`. -/
def NewInventoryService {F : Type} : InventoryService F :=
  { products := [], reservations := [], shouldFail := false }

/-- The method `InventoryService.SetShouldFail`. -/
def InventoryService.SetShouldFail {F : Type} (s : InventoryService F) (shouldFail : Bool) :
    InventoryService F :=
  { s with shouldFail := shouldFail }

/-- The loop of `ReserveItems` over the remaining items. `acc` is the slice
`reservations` built so far. An error return leaves the stock decrements and the
reservation records of the items already processed in place. -/
def reserveLoop {F : Type} (orderID : String) :
    List (OrderItem F) → InventoryService F → UuidSource → List InventoryReservation →
    Except (SagaError F) (List InventoryReservation) × InventoryService F × UuidSource
  | [], s, u, acc => (.ok acc, s, u)
  | item :: rest, s, u, acc =>
    match mapGet s.products item.ProductID with
    | none => (.error (SagaError.productNotFound item.ProductID), s, u)
    | some product =>
      if product.Stock < item.Quantity then
        (.error (SagaError.insufficientStock item.ProductID item.Quantity product.Stock), s, u)
      else
        let products := mapSet s.products item.ProductID
          { product with Stock := wrapInt (product.Stock - item.Quantity) }
        let (id, u) := u.New
        let reservation : InventoryReservation :=
          { ID := id, OrderID := orderID, ProductID := item.ProductID,
            Quantity := item.Quantity, Status := ReservationStatus.Reserved }
        reserveLoop orderID rest
          { s with products := products,
                   reservations := mapSet s.reservations reservation.ID reservation }
          u (acc ++ [reservation])

/-- The method `InventoryService.ReserveItems`. -/
def InventoryService.ReserveItems {F : Type} (s : InventoryService F) (u : UuidSource)
    (orderID : String) (items : List (OrderItem F)) :
    Except (SagaError F) (List InventoryReservation) × InventoryService F × UuidSource :=
  if s.shouldFail then
    (.error SagaError.inventoryFailed, s, u)
  else
    reserveLoop orderID items s u []

/-- The loop of `ReleaseItems` over the remaining entries of `s.reservations`:
returns the products and the visited entries after the loop. -/
def releaseLoop {F : Type} (orderID : String) :
    List (String × InventoryReservation) → List (String × Product F) →
    List (String × Product F) × List (String × InventoryReservation)
  | [], products => (products, [])
  | (k, reservation) :: rest, products =>
    if reservation.OrderID = orderID ∧ reservation.Status = ReservationStatus.Reserved then
      let products :=
        match mapGet products reservation.ProductID with
        | some product =>
          mapSet products reservation.ProductID
            { product with Stock := wrapInt (product.Stock + reservation.Quantity) }
        | none => products
      let (products, rest) := releaseLoop orderID rest products
      (products, (k, { reservation with Status := ReservationStatus.Released }) :: rest)
    else
      let (products, rest) := releaseLoop orderID rest products
      (products, (k, reservation) :: rest)

/-- The method `InventoryService.ReleaseItems`. -/
def InventoryService.ReleaseItems {F : Type} (s : InventoryService F) (orderID : String) :
    Option (SagaError F) × InventoryService F :=
  let (products, reservations) := releaseLoop orderID s.reservations s.products
  (none, { s with products := products, reservations := reservations })

/-- The method `InventoryService.SetStock`. -/
def InventoryService.SetStock {F : Type} [Float64Ops F] (s : InventoryService F)
    (productID : String) (stock : Int) : InventoryService F :=
  match mapGet s.products productID with
  | none =>
    let product : Product F := { ID := productID, Price := Float64Ops.zero, Stock := stock }
    { s with products := mapSet s.products productID product }
  | some product =>
    { s with products := mapSet s.products productID { product with Stock := stock } }

/-- The method `InventoryService.GetStock`. -/
def InventoryService.GetStock {F : Type} (s : InventoryService F) (productID : String) : Int :=
  match mapGet s.products productID with
  | none => 0
  | some product => product.Stock

/-- The method `InventoryService.GetProduct`. -/
def InventoryService.GetProduct {F : Type} (s : InventoryService F) (productID : String) :
    Except (SagaError F) (Product F) :=
  match mapGet s.products productID with
  | none => .error (SagaError.productNotFound productID)
  | some product => .ok product

/-! ## `internal/service/discount_service.go` -/

/-- The struct `service.DiscountService`. -/
structure DiscountService (F : Type) where
  discounts : List (String × Discount F)
  userDiscounts : List (String × F)

/-- The constructor `NewDiscountService`, with its two seeded percentages. -/
def NewDiscountService {F : Type} [Float64Ops F] : DiscountService F :=
  { discounts := [],
    userDiscounts := mapSet (mapSet [] "user1" (Float64Ops.ofInt 10)) "user2" (Float64Ops.ofInt 15) }

/-- The method `DiscountService.SetUserDiscount`. -/
def DiscountService.SetUserDiscount {F : Type} (s : DiscountService F) (userID : String)
    (percentage : F) : DiscountService F :=
  { s with userDiscounts := mapSet s.userDiscounts userID percentage }

/-- The method `DiscountService.ApplyDiscount`. The result `none` is the pair
`(nil, nil)`: no discount and no error. -/
def DiscountService.ApplyDiscount {F : Type} [Float64Ops F] (s : DiscountService F)
    (u : UuidSource) (orderID userID : String) (totalAmount : F) :
    Except (SagaError F) (Option (Discount F)) × DiscountService F × UuidSource :=
  match mapGet s.userDiscounts userID with
  | none => (.ok none, s, u)
  | some discountPercentage =>
    let discountAmount :=
      Float64Ops.div (Float64Ops.mul totalAmount discountPercentage) (Float64Ops.ofInt 100)
    let (id, u) := u.New
    let discount : Discount F :=
      { ID := id, UserID := userID, OrderID := orderID, Amount := discountAmount,
        Percentage := discountPercentage }
    (.ok (some discount), { s with discounts := mapSet s.discounts discount.ID discount }, u)

/-- The method `DiscountService.RemoveDiscount`. -/
def DiscountService.RemoveDiscount {F : Type} (s : DiscountService F) (discountID : String) :
    Option (SagaError F) × DiscountService F :=
  match mapGet s.discounts discountID with
  | none => (some (SagaError.discountNotFound discountID), s)
  | some _ => (none, { s with discounts := mapDelete s.discounts discountID })

/-- The method `DiscountService.GetDiscount`. -/
def DiscountService.GetDiscount {F : Type} (s : DiscountService F) (discountID : String) :
    Except (SagaError F) (Discount F) :=
  match mapGet s.discounts discountID with
  | none => .error (SagaError.discountNotFound discountID)
  | some discount => .ok discount

/-! ## `internal/service/billing_service.go` -/

/-- The struct `service.BillingService`. -/
structure BillingService (F : Type) where
  payments : List (String × Payment F)
  userBalances : List (String × F)
  shouldFail : Bool

/-- The constructor `NewBillingService`. -/
def NewBillingService {F : Type} : BillingService F :=
  { payments := [], userBalances := [], shouldFail := false }

/-- The method `BillingService.SetShouldFail`. -/
def BillingService.SetShouldFail {F : Type} (s : BillingService F) (shouldFail : Bool) :
    BillingService F :=
  { s with shouldFail := shouldFail }

/-- The method `BillingService.SetUserBalance`. -/
def BillingService.SetUserBalance {F : Type} (s : BillingService F) (userID : String)
    (balance : F) : BillingService F :=
  { s with userBalances := mapSet s.userBalances userID balance }

/-- The method `BillingService.GetUserBalance`: the zero value for an unknown user. -/
def BillingService.GetUserBalance {F : Type} [Float64Ops F] (s : BillingService F)
    (userID : String) : F :=
  (mapGet s.userBalances userID).getD Float64Ops.zero

/-- The method `BillingService.ProcessPayment`. -/
def BillingService.ProcessPayment {F : Type} [Float64Ops F] (s : BillingService F)
    (u : UuidSource) (orderID userID : String) (amount : F) :
    Except (SagaError F) (Payment F) × BillingService F × UuidSource :=
  if s.shouldFail then
    (.error SagaError.paymentFailed, s, u)
  else
    let balance := (mapGet s.userBalances userID).getD Float64Ops.zero
    if Float64Ops.lt balance amount then
      (.error (SagaError.insufficientFunds balance amount), s, u)
    else
      let userBalances := mapSet s.userBalances userID (Float64Ops.sub balance amount)
      let (id, u) := u.New
      let payment : Payment F :=
        { ID := id, OrderID := orderID, UserID := userID, Amount := amount,
          Status := PaymentStatus.Completed }
      (.ok payment,
        { s with userBalances := userBalances, payments := mapSet s.payments payment.ID payment }, u)

/-- The method `BillingService.RefundPayment`. -/
def BillingService.RefundPayment {F : Type} (s : BillingService F) (paymentID : String) :
    Option (SagaError F) × BillingService F :=
  match mapGet s.payments paymentID with
  | none => (some (SagaError.paymentNotFound paymentID), s)
  | some payment =>
    let payments := mapSet s.payments paymentID { payment with Status := PaymentStatus.Refunded }
    (none, { s with payments := payments })

/-- The search of `RefundPaymentByOrderID`: the first entry, in the order in
which the entries are visited, whose payment belongs to the order and is
`Completed`. The list given is the order of the visit; Go leaves the order of a
`range` over a map unspecified. -/
def findCompletedPayment {F : Type} (orderID : String) :
    List (String × Payment F) → Option (String × Payment F)
  | [] => none
  | (k, payment) :: rest =>
    if payment.OrderID = orderID ∧ payment.Status = PaymentStatus.Completed then some (k, payment)
    else findCompletedPayment orderID rest

/-- The method `BillingService.RefundPaymentByOrderID`, visiting the payment map
in list order, which is one of the orders Go may choose; the method with the
order of the visit as a parameter is `RefundPaymentByOrderIDIn`. -/
def BillingService.RefundPaymentByOrderID {F : Type} [Float64Ops F] (s : BillingService F)
    (orderID : String) : Option (SagaError F) × BillingService F :=
  match findCompletedPayment orderID s.payments with
  | some (k, payment) =>
    let payments := mapSet s.payments k { payment with Status := PaymentStatus.Refunded }
    let balance := (mapGet s.userBalances payment.UserID).getD Float64Ops.zero
    let userBalances := mapSet s.userBalances payment.UserID (Float64Ops.add balance payment.Amount)
    (none, { s with payments := payments, userBalances := userBalances })
  | none => (some (SagaError.paymentNotFoundForOrder orderID), s)

/-- The method `BillingService.GetPayment`. -/
def BillingService.GetPayment {F : Type} (s : BillingService F) (paymentID : String) :
    Except (SagaError F) (Payment F) :=
  match mapGet s.payments paymentID with
  | none => .error (SagaError.paymentNotFound paymentID)
  | some payment => .ok payment

/-! ## `internal/saga/orchestrator.go` -/

/-- The `SagaStatus` constants. -/
inductive SagaStatus where
  | InProgress | Completed | Failed | Compensated
  deriving DecidableEq, Repr

/-- The `StepStatus` constants. -/
inductive StepStatus where
  | Pending | Completed | Failed
  deriving DecidableEq, Repr

/-- The values stored in `SagaStep.Result` (an `interface{}`): nothing, or the
result of one of the four forward calls that return a value. The Go field holds
the pointer returned by the service; the model holds the value the pointer had
when the step completed. -/
inductive StepResult (F : Type) where
  | nil
  | order (order : Order F)
  | reservations (reservations : List InventoryReservation)
  | discount (discount : Option (Discount F))
  | payment (payment : Payment F)
  deriving DecidableEq, Repr

/-- The struct `SagaStep`. -/
structure SagaStep (F : Type) where
  Name : String
  Status : StepStatus
  Error : Option (SagaError F)
  Result : StepResult F
  deriving DecidableEq, Repr

/-- The struct `CompensationAction`. The closure `func() error` acts on the state
`σ` reachable through the services it captured. -/
structure CompensationAction (F σ : Type) where
  Name : String
  Action : σ → Option (SagaError F) × σ

/-- The struct `SagaExecution` (without `CreatedAt` and `UpdatedAt`). -/
structure SagaExecution (F σ : Type) where
  ID : String
  OrderID : String
  UserID : String
  Status : SagaStatus
  Steps : List (SagaStep F)
  Compensations : List (CompensationAction F σ)

/-- The struct `SagaResult`. -/
structure SagaResult (F σ : Type) where
  Success : Bool
  Error : Option (SagaError F)
  Execution : SagaExecution F σ

/-- The nine service methods the orchestrator calls through its four service
pointers, as transitions of the state `σ` behind those pointers. A method
returning `(value, error)` yields `Except`; a method returning `error` yields
`Option`. -/
structure Collaborators (F σ : Type) where
  CreateOrder : String → List (OrderItem F) → σ → Except (SagaError F) (Order F) × σ
  ConfirmOrder : String → σ → Option (SagaError F) × σ
  CancelOrder : String → σ → Option (SagaError F) × σ
  ReserveItems : String → List (OrderItem F) → σ →
    Except (SagaError F) (List InventoryReservation) × σ
  ReleaseItems : String → σ → Option (SagaError F) × σ
  ApplyDiscount : String → String → F → σ → Except (SagaError F) (Option (Discount F)) × σ
  RemoveDiscount : String → σ → Option (SagaError F) × σ
  ProcessPayment : String → String → F → σ → Except (SagaError F) (Payment F) × σ
  RefundPaymentByOrderID : String → σ → Option (SagaError F) × σ

/-- The state of the orchestrator: the state behind its four service pointers,
the registry `sagas`, and the lines `compensate` has printed to standard output
(the name of the compensation and its error, for the format
"Compensation failed for %s: %v\n"). The registry holds pointers in Go; the
model stores the value the pointed execution has at each `updateExecution`, and
`ExecuteOrderSaga` stores the final value on return. -/
structure SagaOrchestrator (F σ : Type) where
  services : σ
  sagas : List (String × SagaExecution F σ)
  stdout : List (String × SagaError F)

/-- The constructor `NewSagaOrchestrator`. -/
def NewSagaOrchestrator {F σ : Type} (services : σ) : SagaOrchestrator F σ :=
  { services := services, sagas := [], stdout := [] }

/-- The method `SagaOrchestrator.updateExecution`. -/
def SagaOrchestrator.updateExecution {F σ : Type} (o : SagaOrchestrator F σ)
    (execution : SagaExecution F σ) : SagaOrchestrator F σ :=
  { o with sagas := mapSet o.sagas execution.ID execution }

/-- The loop of `compensate`: `k` is `i + 1` for the loop variable `i`, which
runs from `len(execution.Compensations) - 1` down to `0`. The state is the
service state and the standard output. -/
def compensateLoop {F σ : Type} (compensations : List (CompensationAction F σ)) :
    Nat → σ × List (String × SagaError F) → σ × List (String × SagaError F)
  | 0, st => st
  | i + 1, (s, out) =>
    match compensations[i]? with
    | none => (s, out)
    | some compensation =>
      match compensation.Action s with
      | (some err, s) => compensateLoop compensations i (s, out ++ [(compensation.Name, err)])
      | (none, s) => compensateLoop compensations i (s, out)

/-- The method `SagaOrchestrator.compensate`. -/
def SagaOrchestrator.compensate {F σ : Type} (o : SagaOrchestrator F σ)
    (execution : SagaExecution F σ) : SagaOrchestrator F σ × SagaExecution F σ :=
  let execution := { execution with Status := SagaStatus.Compensated }
  let (s, out) := compensateLoop execution.Compensations execution.Compensations.length
    (o.services, o.stdout)
  ({ o with services := s, stdout := out }, execution)

/-- A step record as declared at the start of each step: `Pending`, no error, no result. -/
def newStep {F : Type} (name : String) : SagaStep F :=
  { Name := name, Status := StepStatus.Pending, Error := none, Result := StepResult.nil }

/-- The failure branch shared by the five steps: mark the step `Failed` with the
error, append it, set the status `Failed`, and store the execution. -/
def failStep {F σ : Type} (o : SagaOrchestrator F σ) (execution : SagaExecution F σ)
    (step : SagaStep F) (err : SagaError F) : SagaOrchestrator F σ × SagaExecution F σ :=
  let step := { step with Status := StepStatus.Failed, Error := some err }
  let execution := { execution with Steps := execution.Steps ++ [step] }
  let execution := { execution with Status := SagaStatus.Failed }
  (o.updateExecution execution, execution)

/-- The success branch shared by the five steps: mark the step `Completed` with
its result, append it, and store the execution. -/
def completeStep {F σ : Type} (o : SagaOrchestrator F σ) (execution : SagaExecution F σ)
    (step : SagaStep F) (result : StepResult F) : SagaOrchestrator F σ × SagaExecution F σ :=
  let step := { step with Status := StepStatus.Completed, Result := result }
  let execution := { execution with Steps := execution.Steps ++ [step] }
  (o.updateExecution execution, execution)

/-- The method `SagaOrchestrator.executeSaga`, over the collaborators `c`.
Returns the orchestrator state, the execution and the error. The flag `async`
only selects `time.Sleep` calls. -/
def SagaOrchestrator.executeSaga {F σ : Type} [Float64Ops F] (c : Collaborators F σ)
    (o : SagaOrchestrator F σ) (execution : SagaExecution F σ) (userID : String)
    (items : List (OrderItem F)) (async : Bool) :
    SagaOrchestrator F σ × SagaExecution F σ × Option (SagaError F) :=
  let step1 : SagaStep F := newStep "create_order"
  let o := o.updateExecution execution
  match c.CreateOrder userID items o.services with
  | (.error err, s) =>
    let (o, execution) := failStep { o with services := s } execution step1 err
    (o, execution, some err)
  | (.ok order, s) =>
    let execution := { execution with OrderID := order.ID }
    let (o, execution) := completeStep { o with services := s } execution step1 (.order order)
    let execution := { execution with Compensations := execution.Compensations ++
      [{ Name := "cancel_order", Action := fun s => c.CancelOrder order.ID s }] }
    let step2 : SagaStep F := newStep "reserve_inventory"
    let o := o.updateExecution execution
    match c.ReserveItems order.ID items o.services with
    | (.error err, s) =>
      let (o, execution) := failStep { o with services := s } execution step2 err
      let (o, execution) := o.compensate execution
      (o, execution, some err)
    | (.ok reservations, s) =>
      let (o, execution) :=
        completeStep { o with services := s } execution step2 (.reservations reservations)
      let execution := { execution with Compensations := execution.Compensations ++
        [{ Name := "release_inventory", Action := fun s => c.ReleaseItems order.ID s }] }
      let step3 : SagaStep F := newStep "apply_discount"
      let o := o.updateExecution execution
      match c.ApplyDiscount order.ID userID order.Total o.services with
      | (.error err, s) =>
        let (o, execution) := failStep { o with services := s } execution step3 err
        let (o, execution) := o.compensate execution
        (o, execution, some err)
      | (.ok discount, s) =>
        let (o, execution) :=
          completeStep { o with services := s } execution step3 (.discount discount)
        let finalAmount : F :=
          match discount with
          | some d => Float64Ops.sub order.Total d.Amount
          | none => order.Total
        let execution :=
          match discount with
          | some d => { execution with Compensations := execution.Compensations ++
              [{ Name := "remove_discount", Action := fun s => c.RemoveDiscount d.ID s }] }
          | none => execution
        let step4 : SagaStep F := newStep "process_payment"
        let o := o.updateExecution execution
        match c.ProcessPayment order.ID userID finalAmount o.services with
        | (.error err, s) =>
          let (o, execution) := failStep { o with services := s } execution step4 err
          let (o, execution) := o.compensate execution
          (o, execution, some err)
        | (.ok payment, s) =>
          let (o, execution) :=
            completeStep { o with services := s } execution step4 (.payment payment)
          let execution := { execution with Compensations := execution.Compensations ++
            [{ Name := "refund_payment",
               Action := fun s => c.RefundPaymentByOrderID order.ID s }] }
          let step5 : SagaStep F := newStep "confirm_order"
          let o := o.updateExecution execution
          match c.ConfirmOrder order.ID o.services with
          | (some err, s) =>
            let (o, execution) := failStep { o with services := s } execution step5 err
            let (o, execution) := o.compensate execution
            (o, execution, some err)
          | (none, s) =>
            let (o, execution) := completeStep { o with services := s } execution step5 .nil
            let execution := { execution with Status := SagaStatus.Completed }
            let o := o.updateExecution execution
            (o, execution, none)

/-- The method `SagaOrchestrator.ExecuteOrderSaga`, over the collaborators `c`.
The last `updateExecution` stands for the aliasing of the registry entry and
the returned execution, which are one object in Go. -/
def SagaOrchestrator.ExecuteOrderSaga {F σ : Type} [Float64Ops F] (c : Collaborators F σ)
    (o : SagaOrchestrator F σ) (sagaID orderID userID : String) (items : List (OrderItem F)) :
    SagaOrchestrator F σ × SagaResult F σ :=
  let execution : SagaExecution F σ :=
    { ID := sagaID, OrderID := orderID, UserID := userID, Status := SagaStatus.InProgress,
      Steps := [], Compensations := [] }
  let o := { o with sagas := mapSet o.sagas sagaID execution }
  let (o, execution, err) := o.executeSaga c execution userID items false
  let result : SagaResult F σ :=
    { Success := err.isNone && decide (execution.Status = SagaStatus.Completed),
      Error := err, Execution := execution }
  (o.updateExecution execution, result)

/-! ## The repository's collaborators -/

/-- The state behind the four service pointers of the orchestrator, and the
identifier source the services draw from. -/
structure Services (F : Type) where
  orderService : OrderService F
  billingService : BillingService F
  inventoryService : InventoryService F
  discountService : DiscountService F
  uuid : UuidSource

/-- The methods of the repository's four services, as collaborators of the orchestrator. -/
def repoCollaborators {F : Type} [Float64Ops F] : Collaborators F (Services F) where
  CreateOrder := fun userID items w =>
    let (r, s, u) := w.orderService.CreateOrder w.uuid userID items
    (r, { w with orderService := s, uuid := u })
  ConfirmOrder := fun orderID w =>
    let (e, s) := w.orderService.ConfirmOrder orderID
    (e, { w with orderService := s })
  CancelOrder := fun orderID w =>
    let (e, s) := w.orderService.CancelOrder orderID
    (e, { w with orderService := s })
  ReserveItems := fun orderID items w =>
    let (r, s, u) := w.inventoryService.ReserveItems w.uuid orderID items
    (r, { w with inventoryService := s, uuid := u })
  ReleaseItems := fun orderID w =>
    let (e, s) := w.inventoryService.ReleaseItems orderID
    (e, { w with inventoryService := s })
  ApplyDiscount := fun orderID userID totalAmount w =>
    let (r, s, u) := w.discountService.ApplyDiscount w.uuid orderID userID totalAmount
    (r, { w with discountService := s, uuid := u })
  RemoveDiscount := fun discountID w =>
    let (e, s) := w.discountService.RemoveDiscount discountID
    (e, { w with discountService := s })
  ProcessPayment := fun orderID userID amount w =>
    let (r, s, u) := w.billingService.ProcessPayment w.uuid orderID userID amount
    (r, { w with billingService := s, uuid := u })
  RefundPaymentByOrderID := fun orderID w =>
    let (e, s) := w.billingService.RefundPaymentByOrderID orderID
    (e, { w with billingService := s })

/-- The method `SagaOrchestrator.GetOrder`. -/
def SagaOrchestrator.GetOrder {F : Type} (o : SagaOrchestrator F (Services F))
    (orderID : String) : Except (SagaError F) (Order F) :=
  o.services.orderService.GetOrder orderID

/-- The method `SagaOrchestrator.GetSagaExecution`. -/
def SagaOrchestrator.GetSagaExecution {F σ : Type} (o : SagaOrchestrator F σ)
    (sagaID : String) : Except (SagaError F) (SagaExecution F σ) :=
  match mapGet o.sagas sagaID with
  | none => .error (SagaError.sagaNotFound sagaID)
  | some execution => .ok execution

/-! ## Observation of collaborator calls -/

/-- A collaborator method call with its arguments. -/
inductive Call (F : Type) where
  | CreateOrder (userID : String) (items : List (OrderItem F))
  | ConfirmOrder (orderID : String)
  | CancelOrder (orderID : String)
  | ReserveItems (orderID : String) (items : List (OrderItem F))
  | ReleaseItems (orderID : String)
  | ApplyDiscount (orderID userID : String) (totalAmount : F)
  | RemoveDiscount (discountID : String)
  | ProcessPayment (orderID userID : String) (amount : F)
  | RefundPaymentByOrderID (orderID : String)
  deriving DecidableEq, Repr

/-- A call together with the error it returned (`none` for `nil`). -/
structure CallRecord (F : Type) where
  call : Call F
  err : Option (SagaError F)
  deriving DecidableEq, Repr

/-- The collaborators `c` with every call recorded: the state is paired with the
list of calls made so far, oldest first. The first component evolves exactly as
under `c`. -/
def traced {F σ : Type} (c : Collaborators F σ) : Collaborators F (σ × List (CallRecord F)) where
  CreateOrder := fun userID items st =>
    let (r, s) := c.CreateOrder userID items st.1
    (r, (s, st.2 ++ [{ call := Call.CreateOrder userID items, err := errOf r }]))
  ConfirmOrder := fun orderID st =>
    let (e, s) := c.ConfirmOrder orderID st.1
    (e, (s, st.2 ++ [{ call := Call.ConfirmOrder orderID, err := e }]))
  CancelOrder := fun orderID st =>
    let (e, s) := c.CancelOrder orderID st.1
    (e, (s, st.2 ++ [{ call := Call.CancelOrder orderID, err := e }]))
  ReserveItems := fun orderID items st =>
    let (r, s) := c.ReserveItems orderID items st.1
    (r, (s, st.2 ++ [{ call := Call.ReserveItems orderID items, err := errOf r }]))
  ReleaseItems := fun orderID st =>
    let (e, s) := c.ReleaseItems orderID st.1
    (e, (s, st.2 ++ [{ call := Call.ReleaseItems orderID, err := e }]))
  ApplyDiscount := fun orderID userID totalAmount st =>
    let (r, s) := c.ApplyDiscount orderID userID totalAmount st.1
    (r, (s, st.2 ++ [{ call := Call.ApplyDiscount orderID userID totalAmount, err := errOf r }]))
  RemoveDiscount := fun discountID st =>
    let (e, s) := c.RemoveDiscount discountID st.1
    (e, (s, st.2 ++ [{ call := Call.RemoveDiscount discountID, err := e }]))
  ProcessPayment := fun orderID userID amount st =>
    let (r, s) := c.ProcessPayment orderID userID amount st.1
    (r, (s, st.2 ++ [{ call := Call.ProcessPayment orderID userID amount, err := errOf r }]))
  RefundPaymentByOrderID := fun orderID st =>
    let (e, s) := c.RefundPaymentByOrderID orderID st.1
    (e, (s, st.2 ++ [{ call := Call.RefundPaymentByOrderID orderID, err := e }]))

/-! ## Description of the runs of `ExecuteOrderSaga` -/

section RunDescription
variable {F σ : Type}

/-- The record of a completed step. -/
def doneStep (name : String) (result : StepResult F) : SagaStep F :=
  { Name := name, Status := StepStatus.Completed, Error := none, Result := result }

/-- The record of a failed step. -/
def failedStep (name : String) (err : SagaError F) : SagaStep F :=
  { Name := name, Status := StepStatus.Failed, Error := some err, Result := StepResult.nil }

/-- The compensation registered after `create_order`. -/
def cancelOrderAction (c : Collaborators F σ) (orderID : String) : CompensationAction F σ :=
  { Name := "cancel_order", Action := fun s => c.CancelOrder orderID s }

/-- The compensation registered after `reserve_inventory`. -/
def releaseInventoryAction (c : Collaborators F σ) (orderID : String) : CompensationAction F σ :=
  { Name := "release_inventory", Action := fun s => c.ReleaseItems orderID s }

/-- The compensation registered after `apply_discount` returned the discount `discountID`. -/
def removeDiscountAction (c : Collaborators F σ) (discountID : String) : CompensationAction F σ :=
  { Name := "remove_discount", Action := fun s => c.RemoveDiscount discountID s }

/-- The compensation registered after `process_payment`. -/
def refundPaymentAction (c : Collaborators F σ) (orderID : String) : CompensationAction F σ :=
  { Name := "refund_payment", Action := fun s => c.RefundPaymentByOrderID orderID s }

/-- The compensations registered once `apply_discount` has completed. -/
def compensationsAfterDiscount (c : Collaborators F σ) (orderID : String) :
    Option (Discount F) → List (CompensationAction F σ)
  | some d => [cancelOrderAction c orderID, releaseInventoryAction c orderID,
      removeDiscountAction c d.ID]
  | none => [cancelOrderAction c orderID, releaseInventoryAction c orderID]

/-- The amount `finalAmount` passed to `ProcessPayment`. -/
def finalAmount [Float64Ops F] (order : Order F) : Option (Discount F) → F
  | some d => Float64Ops.sub order.Total d.Amount
  | none => order.Total

/-- The result of a run that failed: the steps recorded, the compensations
registered, the final status and the error. -/
def failedResult (sagaID orderID userID : String) (status : SagaStatus)
    (steps : List (SagaStep F)) (compensations : List (CompensationAction F σ))
    (err : SagaError F) : SagaResult F σ :=
  { Success := false, Error := some err,
    Execution := { ID := sagaID, OrderID := orderID, UserID := userID, Status := status,
                   Steps := steps, Compensations := compensations } }

/-- The rollback: `compensate` run on the registered compensations from the
service state `s` and the standard output `out`. -/
def rollback (compensations : List (CompensationAction F σ)) (s : σ)
    (out : List (String × SagaError F)) : σ × List (String × SagaError F) :=
  compensateLoop compensations compensations.length (s, out)

/-- The six ways a call `ExecuteOrderSaga(sagaID, orderID, userID, items)` can
run from the service state `s0` and standard output `out0`: a failure at one of
the five steps or success. Each case gives the results of the forward calls made,
the final service state and standard output `fin`, and the result `r`. -/
inductive Run [Float64Ops F] (c : Collaborators F σ) (s0 : σ) (out0 : List (String × SagaError F))
    (sagaID orderID userID : String) (items : List (OrderItem F))
    (fin : σ × List (String × SagaError F)) (r : SagaResult F σ) : Prop where
  | failCreate (err : SagaError F) (s1 : σ)
      (h1 : c.CreateOrder userID items s0 = (.error err, s1))
      (hfin : fin = (s1, out0))
      (hr : r = failedResult sagaID orderID userID SagaStatus.Failed
        [failedStep "create_order" err] [] err)
  | failReserve (order : Order F) (s1 : σ) (err : SagaError F) (s2 : σ)
      (h1 : c.CreateOrder userID items s0 = (.ok order, s1))
      (h2 : c.ReserveItems order.ID items s1 = (.error err, s2))
      (hfin : fin = rollback [cancelOrderAction c order.ID] s2 out0)
      (hr : r = failedResult sagaID order.ID userID SagaStatus.Compensated
        [doneStep "create_order" (.order order), failedStep "reserve_inventory" err]
        [cancelOrderAction c order.ID] err)
  | failDiscount (order : Order F) (s1 : σ) (reservations : List InventoryReservation) (s2 : σ)
      (err : SagaError F) (s3 : σ)
      (h1 : c.CreateOrder userID items s0 = (.ok order, s1))
      (h2 : c.ReserveItems order.ID items s1 = (.ok reservations, s2))
      (h3 : c.ApplyDiscount order.ID userID order.Total s2 = (.error err, s3))
      (hfin : fin = rollback [cancelOrderAction c order.ID, releaseInventoryAction c order.ID]
        s3 out0)
      (hr : r = failedResult sagaID order.ID userID SagaStatus.Compensated
        [doneStep "create_order" (.order order),
          doneStep "reserve_inventory" (.reservations reservations),
          failedStep "apply_discount" err]
        [cancelOrderAction c order.ID, releaseInventoryAction c order.ID] err)
  | failPayment (order : Order F) (s1 : σ) (reservations : List InventoryReservation) (s2 : σ)
      (discount : Option (Discount F)) (s3 : σ) (err : SagaError F) (s4 : σ)
      (h1 : c.CreateOrder userID items s0 = (.ok order, s1))
      (h2 : c.ReserveItems order.ID items s1 = (.ok reservations, s2))
      (h3 : c.ApplyDiscount order.ID userID order.Total s2 = (.ok discount, s3))
      (h4 : c.ProcessPayment order.ID userID (finalAmount order discount) s3 = (.error err, s4))
      (hfin : fin = rollback (compensationsAfterDiscount c order.ID discount) s4 out0)
      (hr : r = failedResult sagaID order.ID userID SagaStatus.Compensated
        [doneStep "create_order" (.order order),
          doneStep "reserve_inventory" (.reservations reservations),
          doneStep "apply_discount" (.discount discount),
          failedStep "process_payment" err]
        (compensationsAfterDiscount c order.ID discount) err)
  | failConfirm (order : Order F) (s1 : σ) (reservations : List InventoryReservation) (s2 : σ)
      (discount : Option (Discount F)) (s3 : σ) (payment : Payment F) (s4 : σ)
      (err : SagaError F) (s5 : σ)
      (h1 : c.CreateOrder userID items s0 = (.ok order, s1))
      (h2 : c.ReserveItems order.ID items s1 = (.ok reservations, s2))
      (h3 : c.ApplyDiscount order.ID userID order.Total s2 = (.ok discount, s3))
      (h4 : c.ProcessPayment order.ID userID (finalAmount order discount) s3 = (.ok payment, s4))
      (h5 : c.ConfirmOrder order.ID s4 = (some err, s5))
      (hfin : fin = rollback
        (compensationsAfterDiscount c order.ID discount ++ [refundPaymentAction c order.ID])
        s5 out0)
      (hr : r = failedResult sagaID order.ID userID SagaStatus.Compensated
        [doneStep "create_order" (.order order),
          doneStep "reserve_inventory" (.reservations reservations),
          doneStep "apply_discount" (.discount discount),
          doneStep "process_payment" (.payment payment),
          failedStep "confirm_order" err]
        (compensationsAfterDiscount c order.ID discount ++ [refundPaymentAction c order.ID]) err)
  | success (order : Order F) (s1 : σ) (reservations : List InventoryReservation) (s2 : σ)
      (discount : Option (Discount F)) (s3 : σ) (payment : Payment F) (s4 s5 : σ)
      (h1 : c.CreateOrder userID items s0 = (.ok order, s1))
      (h2 : c.ReserveItems order.ID items s1 = (.ok reservations, s2))
      (h3 : c.ApplyDiscount order.ID userID order.Total s2 = (.ok discount, s3))
      (h4 : c.ProcessPayment order.ID userID (finalAmount order discount) s3 = (.ok payment, s4))
      (h5 : c.ConfirmOrder order.ID s4 = (none, s5))
      (hfin : fin = (s5, out0))
      (hr : r =
        { Success := true, Error := none,
          Execution :=
            { ID := sagaID, OrderID := order.ID, UserID := userID,
              Status := SagaStatus.Completed,
              Steps := [doneStep "create_order" (.order order),
                doneStep "reserve_inventory" (.reservations reservations),
                doneStep "apply_discount" (.discount discount),
                doneStep "process_payment" (.payment payment),
                doneStep "confirm_order" .nil],
              Compensations :=
                compensationsAfterDiscount c order.ID discount ++
                  [refundPaymentAction c order.ID] } })

end RunDescription

/-! ## Auxiliary notions used in the statements -/

section Auxiliary
variable {F σ : Type}

/-- The calls recorded after the records `before`, in the order they were made. -/
def callsSince (before after : List (CallRecord F)) : List (Call F) :=
  (after.drop before.length).map (fun record => record.call)

/-- The call records added after the records `before`. -/
def recordsSince (before after : List (CallRecord F)) : List (CallRecord F) :=
  after.drop before.length

/-- The name of the service method of a call. -/
def Call.method : Call F → String
  | .CreateOrder _ _ => "CreateOrder"
  | .ConfirmOrder _ => "ConfirmOrder"
  | .CancelOrder _ => "CancelOrder"
  | .ReserveItems _ _ => "ReserveItems"
  | .ReleaseItems _ => "ReleaseItems"
  | .ApplyDiscount _ _ _ => "ApplyDiscount"
  | .RemoveDiscount _ => "RemoveDiscount"
  | .ProcessPayment _ _ _ => "ProcessPayment"
  | .RefundPaymentByOrderID _ => "RefundPaymentByOrderID"

/-- The service methods of the five forward steps, in pipeline order. -/
def forwardMethods : List String :=
  ["CreateOrder", "ReserveItems", "ApplyDiscount", "ProcessPayment", "ConfirmOrder"]

/-- The service method a compensation of the given name calls. -/
def compensationMethod (name : String) : String :=
  if name = "cancel_order" then "CancelOrder"
  else if name = "release_inventory" then "ReleaseItems"
  else if name = "remove_discount" then "RemoveDiscount"
  else if name = "refund_payment" then "RefundPaymentByOrderID"
  else ""

/-- The name of the step that failed: the name of the last step record when its
status is `Failed`. -/
def failingStep (execution : SagaExecution F σ) : Option String :=
  match execution.Steps.getLast? with
  | some step => if step.Status = StepStatus.Failed then some step.Name else none
  | none => none

/-- The effect of invoking one compensation action from the service state and
standard output `st`: the action runs, and its error, if any, is printed. -/
def invoke (st : σ × List (String × SagaError F)) (compensation : CompensationAction F σ) :
    σ × List (String × SagaError F) :=
  match compensation.Action st.1 with
  | (some err, s) => (s, st.2 ++ [(compensation.Name, err)])
  | (none, s) => (s, st.2)

/-- Probe actions over a log of indices: the action for the `j`-th element of
`results` appends `i + j` to the log and returns that element. -/
def probeActions (i : Nat) : List (Option (SagaError F)) → List (CompensationAction F (List Nat))
  | [] => []
  | r :: rest => { Name := "probe", Action := fun log => (r, log ++ [i]) } :: probeActions (i + 1) rest

/-- The stock of a product in a product map, `0` when there is none (`GetStock`). -/
def stockOf (products : List (String × Product F)) (productID : String) : Int :=
  match mapGet products productID with
  | none => 0
  | some product => product.Stock

/-- The total quantity held by the `Reserved` reservations of an order for a product. -/
def reservedQty (orderID productID : String) : List (String × InventoryReservation) → Int
  | [] => 0
  | (_, r) :: rest =>
    (if r.OrderID = orderID ∧ r.Status = ReservationStatus.Reserved ∧ r.ProductID = productID
      then r.Quantity else 0) + reservedQty orderID productID rest

/-- Freshness of the identifiers still to be drawn: they are pairwise distinct,
and none is the key or the order of a stored reservation. -/
def UuidFresh (w : Services F) : Prop :=
  (∀ i j, w.uuid.next ≤ i → w.uuid.next ≤ j → w.uuid.gen i = w.uuid.gen j → i = j) ∧
  (∀ i, w.uuid.next ≤ i → ∀ e ∈ w.inventoryService.reservations,
    e.1 ≠ w.uuid.gen i ∧ e.2.OrderID ≠ w.uuid.gen i)

/-- Every stock of the inventory is a value of a 64-bit `int`. -/
def StocksInRange (s : InventoryService F) : Prop :=
  ∀ e ∈ s.products, InIntRange e.2.Stock

end Auxiliary

/-! ## Concrete inputs -/

section Examples

/-- An identifier stream with pairwise distinct values: the `n`-th identifier
consists of `n + 1` letters `u`. -/
def exampleUuid : UuidSource :=
  { gen := fun n => String.mk (List.replicate (n + 1) 'u'), next := 0 }

/-- The services of `createTestOrchestrator` in `orchestrator_test.go`: user1
has balance 10000 and a discount of 10 percent, product1 and product2 have
stock 100. -/
def testServices : Services ℚ :=
  { orderService := NewOrderService,
    billingService := NewBillingService.SetUserBalance "user1" 10000,
    inventoryService := (NewInventoryService.SetStock "product1" 100).SetStock "product2" 100,
    discountService := NewDiscountService.SetUserDiscount "user1" 10,
    uuid := exampleUuid }

/-- The items of `TestSagaOrchestrator_SuccessfulOrder`. -/
def testItems : List (OrderItem ℚ) :=
  [{ ProductID := "product1", Quantity := 2, Price := 100 },
   { ProductID := "product2", Quantity := 1, Price := 200 }]

end Examples

/-! ## Expected values, stated as in the specification -/

section Expected

/-- The amount the specification says a successful saga charges: the total
`Σ price × quantity` minus the discount amount `total × percentage / 100` when
the user has a configured percentage, and the full total when the user has none. -/
def expectedCharge {F : Type} [Float64Ops F] (userDiscounts : List (String × F))
    (userID : String) (items : List (OrderItem F)) : F :=
  match mapGet userDiscounts userID with
  | some percentage =>
    Float64Ops.sub (orderTotal items)
      (Float64Ops.div (Float64Ops.mul (orderTotal items) percentage) (Float64Ops.ofInt 100))
  | none => orderTotal items

/-- An order of two items: the first is in stock, the second asks for more than
the stock of its product. -/
def partialItems : List (OrderItem ℚ) :=
  [{ ProductID := "product1", Quantity := 2, Price := 100 },
   { ProductID := "product2", Quantity := 1000, Price := 200 }]

/-- The services of the scenario "balance 50, payment amount 100": user3 has
balance 50 and no discount, product1 has stock 100. -/
def poorUserServices : Services ℚ :=
  { orderService := NewOrderService,
    billingService := NewBillingService.SetUserBalance "user3" 50,
    inventoryService := NewInventoryService.SetStock "product1" 100,
    discountService := NewDiscountService,
    uuid := exampleUuid }

/-- One unit of product1 at price 100. -/
def oneItem : List (OrderItem ℚ) :=
  [{ ProductID := "product1", Quantity := 1, Price := 100 }]

/-- The services of `TestSagaOrchestrator_CompensationOrder`: as `testServices`
with one product, and billing configured to fail. -/
def failingBillingServices : Services ℚ :=
  { orderService := NewOrderService,
    billingService := (NewBillingService.SetUserBalance "user1" 10000).SetShouldFail true,
    inventoryService := NewInventoryService.SetStock "product1" 100,
    discountService := NewDiscountService.SetUserDiscount "user1" 10,
    uuid := exampleUuid }

end Expected

/-! ## Further concrete inputs -/

section MoreExamples

/-- The repository's collaborators with an Order service whose `CreateOrder`
rejects every order. -/
def rejectingCollaborators : Collaborators ℚ (Services ℚ) :=
  { repoCollaborators with
    CreateOrder := fun _ _ w => (.error (SagaError.orderNotFound "rejected"), w) }

/-- The discount that `failingBillingServices` grants user1 on `oneItem`: the
third identifier drawn, 10 percent of 100. -/
def exampleDiscount : Discount ℚ :=
  { ID := "uuu", UserID := "user1", OrderID := "u", Amount := 10, Percentage := 10 }

end MoreExamples

/-! ## Invariants of the inventory -/

section InventoryInvariants

/-- Every stored reservation of the order is `Reserved` and is for a product
that exists. -/
def ReservationsLive {F : Type} (orderID : String) (products : List (String × Product F))
    (reservations : List (String × InventoryReservation)) : Prop :=
  ∀ e ∈ reservations, e.2.OrderID = orderID →
    e.2.Status = ReservationStatus.Reserved ∧ (mapGet products e.2.ProductID).isSome = true

end InventoryInvariants

/-! ## Relating the recorded run to the run -/

section RecordedRun

/-- A compensation of recording collaborators corresponds to a compensation of
the collaborators: same name, same result, same effect on the service state. -/
def SameAction {F σ : Type} (a : CompensationAction F σ)
    (a' : CompensationAction F (σ × List (CallRecord F))) : Prop :=
  a'.Name = a.Name ∧
    ∀ st, (a'.Action st).1 = (a.Action st.1).1 ∧ (a'.Action st).2.1 = (a.Action st.1).2

/-- The fields of an execution that do not depend on the type of the service state. -/
def SagaExecution.summary {F σ : Type} (execution : SagaExecution F σ) :
    String × String × String × SagaStatus × List (SagaStep F) × List String :=
  (execution.ID, execution.OrderID, execution.UserID, execution.Status, execution.Steps,
    execution.Compensations.map (fun compensation => compensation.Name))

end RecordedRun

/-! ## Expected steps and compensations, stated as in the specification -/

section ExpectedRecords

/-- The names of the five steps, in pipeline order. -/
def stepNames : List String :=
  ["create_order", "reserve_inventory", "apply_discount", "process_payment", "confirm_order"]

/-- The step of the given name has a `Completed` record among the steps. -/
def stepCompleted {F : Type} (steps : List (SagaStep F)) (name : String) : Bool :=
  steps.any (fun step => decide (step.Name = name ∧ step.Status = StepStatus.Completed))

/-- The step apply_discount has a `Completed` record whose result is a non-null discount. -/
def discountGranted {F : Type} (steps : List (SagaStep F)) : Bool :=
  steps.any (fun step =>
    decide (step.Name = "apply_discount" ∧ step.Status = StepStatus.Completed) &&
      match step.Result with
      | StepResult.discount (some _) => true
      | _ => false)

/-- The names of the compensations the specification expects for the recorded steps. -/
def expectedCompensations {F : Type} (steps : List (SagaStep F)) : List String :=
  (if stepCompleted steps "create_order" then ["cancel_order"] else []) ++
  (if stepCompleted steps "reserve_inventory" then ["release_inventory"] else []) ++
  (if discountGranted steps then ["remove_discount"] else []) ++
  (if stepCompleted steps "process_payment" then ["refund_payment"] else [])

end ExpectedRecords

/-! ## `WaitForSagaCompletion` -/

section Wait
variable {F σ : Type}

/-- The string a `SagaStatus` constant stands for. -/
def SagaStatus.value : SagaStatus → String
  | SagaStatus.InProgress => "in_progress"
  | SagaStatus.Completed => "completed"
  | SagaStatus.Failed => "failed"
  | SagaStatus.Compensated => "compensated"

/-- The loop of `WaitForSagaCompletion` and the statements after it. `clock i`
is the value of the `i`-th call of `time.Now()`, in nanoseconds; waiting for the
ticker moves to the next reading. The registry does not change while the
caller waits (no other goroutine is modelled). The result is `none` when the
fuel, the number of evaluations of the loop condition allowed, runs out; it is
otherwise the returned pair `(execution, error)`. -/
def waitLoop (o : SagaOrchestrator F σ) (clock : Nat → Int) (deadline : Int) (sagaID : String) :
    Nat → Nat → Option (Option (SagaExecution F σ) × Option (SagaError F))
  | 0, _ => none
  | fuel + 1, i =>
    if clock i < deadline then
      match o.GetSagaExecution sagaID with
      | .error err => some (none, some err)
      | .ok execution =>
        if execution.Status = SagaStatus.Completed ∨ execution.Status = SagaStatus.Failed ∨
            execution.Status = SagaStatus.Compensated then
          some (some execution, none)
        else
          waitLoop o clock deadline sagaID fuel (i + 1)
    else
      match o.GetSagaExecution sagaID with
      | .error err => some (none, some err)
      | .ok execution =>
        some (some execution, some (SagaError.sagaTimeout execution.Status.value))

/-- The method `SagaOrchestrator.WaitForSagaCompletion`; `timeout` is in
nanoseconds. The deadline is the first clock reading plus the timeout. -/
def SagaOrchestrator.WaitForSagaCompletion (o : SagaOrchestrator F σ) (clock : Nat → Int)
    (sagaID : String) (timeout : Int) (fuel : Nat) :
    Option (Option (SagaExecution F σ) × Option (SagaError F)) :=
  let deadline := clock 0 + timeout
  waitLoop o clock deadline sagaID fuel 1

end Wait

/-! ## Sagas run one after another -/

section Serial
variable {F σ : Type}

/-- The arguments of one call of `ExecuteOrderSaga`. -/
structure SagaRequest (F : Type) where
  sagaID : String
  orderID : String
  userID : String
  items : List (OrderItem F)

/-- The calls of `ExecuteOrderSaga` for the requests, one after another, on the
same orchestrator: the final state and the results, in the order of the requests. -/
def SagaOrchestrator.runSagas [Float64Ops F] (c : Collaborators F σ) :
    SagaOrchestrator F σ → List (SagaRequest F) → SagaOrchestrator F σ × List (SagaResult F σ)
  | o, [] => (o, [])
  | o, request :: rest =>
    let (o, result) :=
      o.ExecuteOrderSaga c request.sagaID request.orderID request.userID request.items
    let (o, results) := o.runSagas c rest
    (o, result :: results)

/-- The result of the most recent of the requests made with the given saga ID. -/
def lastResultFor (sagaID : String) :
    List (SagaRequest F) → List (SagaResult F σ) → Option (SagaResult F σ)
  | request :: requests, result :: results =>
    match lastResultFor sagaID requests results with
    | some later => some later
    | none => if request.sagaID = sagaID then some result else none
  | _, _ => none

end Serial

/-! ## Concrete inputs for the registry queries -/

section WaitExamples

/-- The request of `TestSagaOrchestrator_SuccessfulOrder`. -/
def testRequest : SagaRequest ℚ :=
  { sagaID := "saga-1", orderID := "order-1", userID := "user1", items := testItems }

/-- A clock that does not advance: every reading of the time is 0. -/
def frozenClock : Nat → Int := fun _ => 0

end WaitExamples

/-! ## The execution as seen during a run -/

section Observed
variable {F σ : Type}

/-- A moment of a call of `ExecuteOrderSaga` at which the execution is looked at. -/
inductive Moment where
  /-- The new execution has just been stored in the registry by `ExecuteOrderSaga`. -/
  | registered
  /-- The step has been declared and the execution stored: the collaborator
  operation of the step is about to be called. -/
  | call (step : String)
  /-- The operation of the step has returned and its branch has appended the
  record of the step (and, on failure, set the status `Failed`) and stored the
  execution. -/
  | recorded (step : String)
  /-- The method `compensate` has returned. -/
  | compensated
  /-- The status `Completed` has been set and the execution stored. -/
  | completed
  deriving DecidableEq, Repr

/-- The method `SagaOrchestrator.executeSaga` with the execution looked at on the
way: the same statements in the same order, and besides the results of
`executeSaga` the list of the moments passed with the value the execution
object has at each. The registry entry is a pointer to that object, so this is
also what a reader of the registry sees at that moment. -/
def SagaOrchestrator.executeSagaObserved [Float64Ops F] (c : Collaborators F σ)
    (o : SagaOrchestrator F σ) (execution : SagaExecution F σ) (userID : String)
    (items : List (OrderItem F)) (async : Bool) :
    (SagaOrchestrator F σ × SagaExecution F σ × Option (SagaError F)) ×
      List (Moment × SagaExecution F σ) :=
  let step1 : SagaStep F := newStep "create_order"
  let o := o.updateExecution execution
  let seen := [(Moment.call "create_order", execution)]
  match c.CreateOrder userID items o.services with
  | (.error err, s) =>
    let (o, execution) := failStep { o with services := s } execution step1 err
    ((o, execution, some err), seen ++ [(Moment.recorded "create_order", execution)])
  | (.ok order, s) =>
    let execution := { execution with OrderID := order.ID }
    let (o, execution) := completeStep { o with services := s } execution step1 (.order order)
    let seen := seen ++ [(Moment.recorded "create_order", execution)]
    let execution := { execution with Compensations := execution.Compensations ++
      [{ Name := "cancel_order", Action := fun s => c.CancelOrder order.ID s }] }
    let step2 : SagaStep F := newStep "reserve_inventory"
    let o := o.updateExecution execution
    let seen := seen ++ [(Moment.call "reserve_inventory", execution)]
    match c.ReserveItems order.ID items o.services with
    | (.error err, s) =>
      let (o, execution) := failStep { o with services := s } execution step2 err
      let seen := seen ++ [(Moment.recorded "reserve_inventory", execution)]
      let (o, execution) := o.compensate execution
      ((o, execution, some err), seen ++ [(Moment.compensated, execution)])
    | (.ok reservations, s) =>
      let (o, execution) :=
        completeStep { o with services := s } execution step2 (.reservations reservations)
      let seen := seen ++ [(Moment.recorded "reserve_inventory", execution)]
      let execution := { execution with Compensations := execution.Compensations ++
        [{ Name := "release_inventory", Action := fun s => c.ReleaseItems order.ID s }] }
      let step3 : SagaStep F := newStep "apply_discount"
      let o := o.updateExecution execution
      let seen := seen ++ [(Moment.call "apply_discount", execution)]
      match c.ApplyDiscount order.ID userID order.Total o.services with
      | (.error err, s) =>
        let (o, execution) := failStep { o with services := s } execution step3 err
        let seen := seen ++ [(Moment.recorded "apply_discount", execution)]
        let (o, execution) := o.compensate execution
        ((o, execution, some err), seen ++ [(Moment.compensated, execution)])
      | (.ok discount, s) =>
        let (o, execution) :=
          completeStep { o with services := s } execution step3 (.discount discount)
        let seen := seen ++ [(Moment.recorded "apply_discount", execution)]
        let finalAmount : F :=
          match discount with
          | some d => Float64Ops.sub order.Total d.Amount
          | none => order.Total
        let execution :=
          match discount with
          | some d => { execution with Compensations := execution.Compensations ++
              [{ Name := "remove_discount", Action := fun s => c.RemoveDiscount d.ID s }] }
          | none => execution
        let step4 : SagaStep F := newStep "process_payment"
        let o := o.updateExecution execution
        let seen := seen ++ [(Moment.call "process_payment", execution)]
        match c.ProcessPayment order.ID userID finalAmount o.services with
        | (.error err, s) =>
          let (o, execution) := failStep { o with services := s } execution step4 err
          let seen := seen ++ [(Moment.recorded "process_payment", execution)]
          let (o, execution) := o.compensate execution
          ((o, execution, some err), seen ++ [(Moment.compensated, execution)])
        | (.ok payment, s) =>
          let (o, execution) :=
            completeStep { o with services := s } execution step4 (.payment payment)
          let seen := seen ++ [(Moment.recorded "process_payment", execution)]
          let execution := { execution with Compensations := execution.Compensations ++
            [{ Name := "refund_payment",
               Action := fun s => c.RefundPaymentByOrderID order.ID s }] }
          let step5 : SagaStep F := newStep "confirm_order"
          let o := o.updateExecution execution
          let seen := seen ++ [(Moment.call "confirm_order", execution)]
          match c.ConfirmOrder order.ID o.services with
          | (some err, s) =>
            let (o, execution) := failStep { o with services := s } execution step5 err
            let seen := seen ++ [(Moment.recorded "confirm_order", execution)]
            let (o, execution) := o.compensate execution
            ((o, execution, some err), seen ++ [(Moment.compensated, execution)])
          | (none, s) =>
            let (o, execution) := completeStep { o with services := s } execution step5 .nil
            let seen := seen ++ [(Moment.recorded "confirm_order", execution)]
            let execution := { execution with Status := SagaStatus.Completed }
            let o := o.updateExecution execution
            ((o, execution, none), seen ++ [(Moment.completed, execution)])

/-- The method `SagaOrchestrator.ExecuteOrderSaga` with the execution looked at
on the way, from the moment it is registered. -/
def SagaOrchestrator.ExecuteOrderSagaObserved [Float64Ops F] (c : Collaborators F σ)
    (o : SagaOrchestrator F σ) (sagaID orderID userID : String) (items : List (OrderItem F)) :
    (SagaOrchestrator F σ × SagaResult F σ) × List (Moment × SagaExecution F σ) :=
  let execution : SagaExecution F σ :=
    { ID := sagaID, OrderID := orderID, UserID := userID, Status := SagaStatus.InProgress,
      Steps := [], Compensations := [] }
  let o := { o with sagas := mapSet o.sagas sagaID execution }
  let seen := [(Moment.registered, execution)]
  let ((o, execution, err), seenLater) := o.executeSagaObserved c execution userID items false
  let result : SagaResult F σ :=
    { Success := err.isNone && decide (execution.Status = SagaStatus.Completed),
      Error := err, Execution := execution }
  ((o.updateExecution execution, result), seen ++ seenLater)

/-- What is looked at in an execution: its order ID, its status and its steps. -/
structure Observation (F : Type) where
  moment : Moment
  orderID : String
  status : SagaStatus
  steps : List (SagaStep F)
  deriving DecidableEq, Repr

/-- The observation of an execution at a moment. -/
def observe (seen : Moment × SagaExecution F σ) : Observation F :=
  { moment := seen.1, orderID := seen.2.OrderID, status := seen.2.Status, steps := seen.2.Steps }

/-- The observations made during a call of `ExecuteOrderSaga`, in order. -/
def SagaOrchestrator.observations [Float64Ops F] (c : Collaborators F σ)
    (o : SagaOrchestrator F σ) (sagaID orderID userID : String) (items : List (OrderItem F)) :
    List (Observation F) :=
  (o.ExecuteOrderSagaObserved c sagaID orderID userID items).2.map observe

/-- The property `p` of the step about to be called, at a moment that is a call. -/
def whenCall (moment : Moment) (p : String → Prop) : Prop :=
  match moment with
  | Moment.call step => p step
  | _ => True

instance (moment : Moment) (p : String → Prop) [∀ step, Decidable (p step)] :
    Decidable (whenCall moment p) :=
  match moment with
  | Moment.call step => inferInstanceAs (Decidable (p step))
  | Moment.registered => isTrue trivial
  | Moment.recorded _ => isTrue trivial
  | Moment.compensated => isTrue trivial
  | Moment.completed => isTrue trivial

/-- The relation `r` holds between every element of the list and the next one. -/
def Stepwise {α : Type} (r : α → α → Prop) : List α → Prop
  | [] => True
  | [_] => True
  | a :: b :: rest => r a b ∧ Stepwise r (b :: rest)

/-- The relation `Stepwise r` is decided element by element. -/
def decideStepwise {α : Type} (r : α → α → Prop) [DecidableRel r] :
    (l : List α) → Decidable (Stepwise r l)
  | [] => isTrue trivial
  | [_] => isTrue trivial
  | a :: b :: rest =>
    match (inferInstance : Decidable (r a b)), decideStepwise r (b :: rest) with
    | isTrue h, isTrue t => isTrue ⟨h, t⟩
    | isFalse h, _ => isFalse (fun both => h both.1)
    | _, isFalse t => isFalse (fun both => t both.2)

instance {α : Type} (r : α → α → Prop) [DecidableRel r] (l : List α) :
    Decidable (Stepwise r l) :=
  decideStepwise r l

/-- The ID of the order the Order collaborator creates when `CreateOrder` is
called on the services of the orchestrator, if it creates one. -/
def createdBy [Float64Ops F] (c : Collaborators F σ) (o : SagaOrchestrator F σ)
    (userID : String) (items : List (OrderItem F)) : Option String :=
  match (c.CreateOrder userID items o.services).1 with
  | .ok order => some order.ID
  | .error _ => none

/-- The status history the specification describes: it starts at `InProgress`,
and a value other than `InProgress` is never followed by a different value. -/
def TerminalStatusKept (statuses : List SagaStatus) : Prop :=
  statuses.head? = some SagaStatus.InProgress ∧
    Stepwise (fun a b => a ≠ SagaStatus.InProgress → b = a) statuses

instance (statuses : List SagaStatus) : Decidable (TerminalStatusKept statuses) :=
  inferInstanceAs (Decidable (_ ∧ _))

/-- The status history of the code: it starts at `InProgress`, and the only
assignments that change the value are `InProgress` to `Completed`, `InProgress`
to `Failed`, and `Failed` to `Compensated`. -/
def StatusTransitionsOfCode (statuses : List SagaStatus) : Prop :=
  statuses.head? = some SagaStatus.InProgress ∧
    Stepwise (fun a b => b = a ∨
      (a = SagaStatus.InProgress ∧ (b = SagaStatus.Completed ∨ b = SagaStatus.Failed)) ∨
      (a = SagaStatus.Failed ∧ b = SagaStatus.Compensated)) statuses

/-- The order ID at every moment: the ID `created` once the steps hold a
`Completed` record of create_order, and `initial` until then. -/
def OrderIDFollowsCreation (initial : String) (created : Option String)
    (observations : List (Observation F)) : Prop :=
  ∀ seen ∈ observations,
    if stepCompleted seen.steps "create_order" = true then some seen.orderID = created
    else seen.orderID = initial

instance (initial : String) (created : Option String) (observations : List (Observation F)) :
    Decidable (OrderIDFollowsCreation initial created observations) :=
  inferInstanceAs (Decidable (∀ seen ∈ observations, _))

/-- The step records the specification describes: at the call of a step the
last record is the `Pending` record of that step, and at the next moment, when
the step is recorded, the number of records is the same and the last record is
that of the step, `Completed` or `Failed`. -/
def PendingRecordAtCall (observations : List (Observation F)) : Prop :=
  (∀ seen ∈ observations, whenCall seen.moment (fun step =>
      seen.steps.getLast?.map (fun record => (record.Name, record.Status)) =
        some (step, StepStatus.Pending))) ∧
    Stepwise (fun seen next => whenCall seen.moment (fun step =>
      next.moment = Moment.recorded step ∧
        next.steps.length = seen.steps.length ∧
        (next.steps.getLast?.map (fun record => (record.Name, record.Status)) =
            some (step, StepStatus.Completed) ∨
          next.steps.getLast?.map (fun record => (record.Name, record.Status)) =
            some (step, StepStatus.Failed)))) observations

instance (observations : List (Observation F)) :
    Decidable (PendingRecordAtCall observations) :=
  inferInstanceAs (Decidable (_ ∧ _))

/-- The step records of the code: at the call of a step the records are those
of the earlier steps, all `Completed`, with none for the step itself; at the
next moment, when the step is recorded, one record has been appended, that of
the step, `Completed` or `Failed`; and no record is ever `Pending`. -/
def RecordAppendedAfterCall (observations : List (Observation F)) : Prop :=
  (∀ seen ∈ observations, whenCall seen.moment (fun step =>
      seen.steps.map (fun record => record.Name) =
          stepNames.takeWhile (fun name => decide (name ≠ step)) ∧
        ∀ record ∈ seen.steps, record.Status = StepStatus.Completed)) ∧
    Stepwise (fun seen next => whenCall seen.moment (fun step =>
      next.moment = Moment.recorded step ∧
        ∃ record, next.steps = seen.steps ++ [record] ∧ record.Name = step ∧
          (record.Status = StepStatus.Completed ∨ record.Status = StepStatus.Failed)))
      observations ∧
    ∀ seen ∈ observations, ∀ record ∈ seen.steps, record.Status ≠ StepStatus.Pending

end Observed

/-! ## Sagas for one unit of one product -/

section UnitOrders
variable {F : Type}

/-- Every payment of the requests is covered when the requests pay in turn: the
balance of the user of the first request is not less than the expected charge
of the request, and after that balance has been debited the same holds of the
remaining requests. -/
def Funded [Float64Ops F] (userDiscounts : List (String × F)) :
    List (String × F) → List (SagaRequest F) → Prop
  | _, [] => True
  | balances, request :: rest =>
    Float64Ops.lt ((mapGet balances request.userID).getD Float64Ops.zero)
        (expectedCharge userDiscounts request.userID request.items) = false ∧
      Funded userDiscounts
        (mapSet balances request.userID
          (Float64Ops.sub ((mapGet balances request.userID).getD Float64Ops.zero)
            (expectedCharge userDiscounts request.userID request.items)))
        rest

/-- The property `Funded` is decided request by request. -/
def decideFunded [Float64Ops F] (userDiscounts : List (String × F)) :
    (balances : List (String × F)) → (requests : List (SagaRequest F)) →
      Decidable (Funded userDiscounts balances requests)
  | _, [] => isTrue trivial
  | balances, request :: rest =>
    match (inferInstance : Decidable
        (Float64Ops.lt ((mapGet balances request.userID).getD Float64Ops.zero)
          (expectedCharge userDiscounts request.userID request.items) = false)),
      decideFunded userDiscounts
        (mapSet balances request.userID
          (Float64Ops.sub ((mapGet balances request.userID).getD Float64Ops.zero)
            (expectedCharge userDiscounts request.userID request.items)))
        rest with
    | isTrue h, isTrue t => isTrue ⟨h, t⟩
    | isFalse h, _ => isFalse (fun both => h both.1)
    | _, isFalse t => isFalse (fun both => t both.2)

instance [Float64Ops F] (userDiscounts balances : List (String × F))
    (requests : List (SagaRequest F)) : Decidable (Funded userDiscounts balances requests) :=
  decideFunded userDiscounts balances requests

/-- The services of `createTestOrchestrator` with 2 units of product1 in stock:
user1 has balance 10000 and a discount of 10 percent. -/
def lowStockServices : Services ℚ :=
  { orderService := NewOrderService,
    billingService := NewBillingService.SetUserBalance "user1" 10000,
    inventoryService := NewInventoryService.SetStock "product1" 2,
    discountService := NewDiscountService.SetUserDiscount "user1" 10,
    uuid := exampleUuid }

/-- Three of the requests of `TestConcurrentOrders`: user1 orders one unit of
product1 at price 100. -/
def unitRequests : List (SagaRequest ℚ) :=
  [{ sagaID := "saga-0", orderID := "order-0", userID := "user1", items := oneItem },
   { sagaID := "saga-1", orderID := "order-1", userID := "user1", items := oneItem },
   { sagaID := "saga-2", orderID := "order-2", userID := "user1", items := oneItem }]

end UnitOrders

/-! ## The contracts of the inventory and billing methods, stated as in the specification -/

section Contracts
variable {F : Type}

/-- Equality of Go result pairs is decidable when equality of errors and of
values is. -/
instance {ε α : Type} [DecidableEq ε] [DecidableEq α] : DecidableEq (Except ε α)
  | .ok a, .ok b =>
    if h : a = b then isTrue (congrArg Except.ok h) else isFalse (fun e => h (Except.ok.inj e))
  | .error a, .error b =>
    if h : a = b then isTrue (congrArg Except.error h)
    else isFalse (fun e => h (Except.error.inj e))
  | .ok _, .error _ => isFalse (fun e => Except.noConfusion e)
  | .error _, .ok _ => isFalse (fun e => Except.noConfusion e)

/-- The stock of a product after the items have been processed: the stock
reduced, in `int` arithmetic, by the quantity of each item for the product, in
item order. -/
def reducedStock (stock : Int) (productID : String) (items : List (OrderItem F)) : Int :=
  items.foldl (fun stock item =>
    if item.ProductID = productID then wrapInt (stock - item.Quantity) else stock) stock

/-- The sum of the quantities the items request for a product. -/
def requestedQty (productID : String) : List (OrderItem F) → Int
  | [] => 0
  | item :: rest =>
    (if item.ProductID = productID then item.Quantity else 0) + requestedQty productID rest

/-- The conditions under which the specification says `ReserveItems` returns an
error: the service is configured to fail, or some item names an unknown
product, or the quantity of some item exceeds the stock of its product at the
time the item is processed, that is the stock reduced by the earlier items. -/
def ReserveRejected (s : InventoryService F) (items : List (OrderItem F)) : Prop :=
  s.shouldFail = true ∨
    (∃ item ∈ items, mapGet s.products item.ProductID = none) ∨
    ∃ i item, items[i]? = some item ∧
      reducedStock (s.GetStock item.ProductID) item.ProductID (items.take i) < item.Quantity

/-- The order has a `Reserved` reservation. -/
def HasReserved (orderID : String) (reservations : List (String × InventoryReservation)) :
    Prop :=
  ∃ e ∈ reservations, e.2.OrderID = orderID ∧ e.2.Status = ReservationStatus.Reserved

/-- Every `Reserved` reservation of the order is for a product that exists. -/
def ReservedHaveProduct (orderID : String) (products : List (String × Product F))
    (reservations : List (String × InventoryReservation)) : Prop :=
  ∀ e ∈ reservations, e.2.OrderID = orderID → e.2.Status = ReservationStatus.Reserved →
    (mapGet products e.2.ProductID).isSome = true

/-- The reservations that do not belong to the order, with their keys, in map order. -/
def otherReservations (orderID : String) (reservations : List (String × InventoryReservation)) :
    List (String × InventoryReservation) :=
  reservations.filter (fun e => decide (e.2.OrderID ≠ orderID))

/-- The number of `Completed` payments of the order. -/
def completedCount (orderID : String) (payments : List (String × Payment F)) : Nat :=
  (payments.filter
    (fun e => decide (e.2.OrderID = orderID ∧ e.2.Status = PaymentStatus.Completed))).length

/-- The method `BillingService.RefundPaymentByOrderID` when the `range` over the
payment map visits the entries in the order `visit`. Go leaves the order of a
`range` over a map unspecified, and it may differ from one call to the next:
`visit` stands for any permutation of the entries of the map. -/
def BillingService.RefundPaymentByOrderIDIn [Float64Ops F] (s : BillingService F)
    (visit : List (String × Payment F)) (orderID : String) :
    Option (SagaError F) × BillingService F :=
  match findCompletedPayment orderID visit with
  | some (k, payment) =>
    let payments := mapSet s.payments k { payment with Status := PaymentStatus.Refunded }
    let balance := (mapGet s.userBalances payment.UserID).getD Float64Ops.zero
    let userBalances := mapSet s.userBalances payment.UserID (Float64Ops.add balance payment.Amount)
    (none, { s with payments := payments, userBalances := userBalances })
  | none => (some (SagaError.paymentNotFoundForOrder orderID), s)

/-- The statement of the specification on a second refund, whatever the order
in which the payment map is visited: after a call of `RefundPaymentByOrderID`
that refunded a payment of the order, a second call for the same order returns
an error and leaves every balance as it is. -/
def NoSecondRefund [Float64Ops F] (s : BillingService F) (orderID : String) : Prop :=
  ∀ first, first.Perm s.payments →
    (s.RefundPaymentByOrderIDIn first orderID).1 = none →
    ∀ second, second.Perm (s.RefundPaymentByOrderIDIn first orderID).2.payments →
      ((s.RefundPaymentByOrderIDIn first orderID).2.RefundPaymentByOrderIDIn second
          orderID).1.isSome = true ∧
        ((s.RefundPaymentByOrderIDIn first orderID).2.RefundPaymentByOrderIDIn second
          orderID).2.userBalances =
          (s.RefundPaymentByOrderIDIn first orderID).2.userBalances

/-- Two calls of `RefundPaymentByOrderID` for the order, each visiting the
payment map in list order or, when its flag is set, in the reverse order: the
error of the first call, the balance of the user after it, the error of the
second call and the balance of the user after it. -/
def refundTwice [Float64Ops F] (s : BillingService F) (orderID userID : String)
    (reverseFirst reverseSecond : Bool) :
    Option (SagaError F) × F × Option (SagaError F) × F :=
  let first := s.RefundPaymentByOrderIDIn
    (if reverseFirst then s.payments.reverse else s.payments) orderID
  let second := first.2.RefundPaymentByOrderIDIn
    (if reverseSecond then first.2.payments.reverse else first.2.payments) orderID
  (first.1, first.2.GetUserBalance userID, second.1, second.2.GetUserBalance userID)

/-- Two units and three units of product1, as two items. -/
def repeatedItems : List (OrderItem ℚ) :=
  [{ ProductID := "product1", Quantity := 2, Price := 100 },
   { ProductID := "product1", Quantity := 3, Price := 100 }]

/-- The billing service of `TestBillingService_ProcessPayment`: user1 has balance 1000. -/
def testBilling : BillingService ℚ :=
  NewBillingService.SetUserBalance "user1" 1000

/-- The billing service after one payment of 100 by user1 for "order-1". -/
def onePaymentBilling : BillingService ℚ :=
  (testBilling.ProcessPayment exampleUuid "order-1" "user1" 100).2.1

/-- The billing service after two payments by user1 for the same order
"order-1", of 100 and of 50. -/
def twoPaymentsBilling : BillingService ℚ :=
  (onePaymentBilling.ProcessPayment
    (testBilling.ProcessPayment exampleUuid "order-1" "user1" 100).2.2
    "order-1" "user1" 50).2.1

end Contracts

/-! ## The calls of a run with the repository's services -/

section RunShapes
variable {F : Type}

/-- The calls recorded after the records `before`: for each, the name of the
service method and whether it returned an error. -/
def callShape (before after : List (CallRecord F)) : List (String × Bool) :=
  (recordsSince before after).map (fun record => (record.call.method, record.err.isSome))

/-- The calls of a run in which every step succeeds. -/
def shapeCompleted : List (String × Bool) :=
  [("CreateOrder", false), ("ReserveItems", false), ("ApplyDiscount", false),
   ("ProcessPayment", false), ("ConfirmOrder", false)]

/-- The calls of a run in which `ReserveItems` returns an error. -/
def shapeReserveFailed : List (String × Bool) :=
  [("CreateOrder", false), ("ReserveItems", true), ("CancelOrder", false)]

/-- The calls of a run in which `ProcessPayment` returns an error, after a
discount was granted or not. -/
def shapePaymentFailed (discounted : Bool) : List (String × Bool) :=
  [("CreateOrder", false), ("ReserveItems", false), ("ApplyDiscount", false),
   ("ProcessPayment", true)] ++
  (if discounted then [("RemoveDiscount", false)] else []) ++
  [("ReleaseItems", false), ("CancelOrder", false)]

/-- The names of the service methods that the compensations call. -/
def compensationMethods : List String :=
  ["CancelOrder", "ReleaseItems", "RemoveDiscount", "RefundPaymentByOrderID"]

end RunShapes

/-! ## Stock and reserved quantity -/

section StockInvariants
variable {F : Type}

/-- The sum of the quantities of the reservations of a product that have status
`Reserved`, over all orders. -/
def reservedTotal (productID : String) : List (String × InventoryReservation) → Int
  | [] => 0
  | (_, r) :: rest =>
    (if r.Status = ReservationStatus.Reserved ∧ r.ProductID = productID then r.Quantity else 0) +
      reservedTotal productID rest

/-- The conserved quantity of a product: its stock plus the quantity reserved. -/
def InventoryService.total (s : InventoryService F) (productID : String) : Int :=
  s.GetStock productID + reservedTotal productID s.reservations

/-- An inventory as calls with non-negative quantities leave it: no stock is
negative, no `Reserved` reservation has a negative quantity, and for every
product the stock plus the reserved quantity is a value of `int`. An inventory
with no reservation and stocks that are non-negative `int` values is one. -/
def SoundInventory (s : InventoryService F) : Prop :=
  (∀ e ∈ s.reservations, e.2.Status = ReservationStatus.Reserved → 0 ≤ e.2.Quantity) ∧
    ∀ productID, 0 ≤ s.GetStock productID ∧ InIntRange (s.total productID)

/-- A call of one of the two methods of the inventory that change stocks. -/
inductive InventoryCall (F : Type) where
  | ReserveItems (orderID : String) (items : List (OrderItem F))
  | ReleaseItems (orderID : String)

/-- The items of a call: those of `ReserveItems`, none for `ReleaseItems`. -/
def InventoryCall.items : InventoryCall F → List (OrderItem F)
  | .ReserveItems _ items => items
  | .ReleaseItems _ => []

/-- The calls made one after another on the inventory, whatever each returns:
the inventory and the identifier source after the last. -/
def runCalls : InventoryService F → UuidSource → List (InventoryCall F) →
    InventoryService F × UuidSource
  | s, u, [] => (s, u)
  | s, u, .ReserveItems orderID items :: rest =>
    runCalls (s.ReserveItems u orderID items).2.1 (s.ReserveItems u orderID items).2.2 rest
  | s, u, .ReleaseItems orderID :: rest =>
    runCalls (s.ReleaseItems orderID).2 u rest

/-- A sequence of calls on the inventory of the tests: two reservations, the
second of which stops at its second item, and the releases of both orders. -/
def exampleCalls : List (InventoryCall ℚ) :=
  [.ReserveItems "order-1" repeatedItems, .ReserveItems "order-2" partialItems,
   .ReleaseItems "order-1", .ReleaseItems "order-2"]

/-- The condition of the specification on the starting inventory: no product
has a negative stock. -/
def StocksNonNegative (s : InventoryService F) : Prop :=
  ∀ e ∈ s.products, 0 ≤ e.2.Stock

instance (s : InventoryService F) : Decidable (StocksNonNegative s) :=
  inferInstanceAs (Decidable (∀ e ∈ s.products, 0 ≤ e.2.Stock))

/-- An inventory in which the stock of "p" is 8 and order "o1" holds a
`Reserved` reservation of quantity -3 for "p": the inventory after
`SetStock("p", 5)` and `ReserveItems("o1", [{p, -3}])`. -/
def negativeReservationInventory : InventoryService ℚ :=
  (((NewInventoryService : InventoryService ℚ).SetStock "p" 5).ReserveItems exampleUuid "o1"
    [{ ProductID := "p", Quantity := -3, Price := 1 }]).2.1

/-- The identifier source after the calls that make `negativeReservationInventory`. -/
def negativeReservationUuid : UuidSource :=
  (((NewInventoryService : InventoryService ℚ).SetStock "p" 5).ReserveItems exampleUuid "o1"
    [{ ProductID := "p", Quantity := -3, Price := 1 }]).2.2

/-- The calls `ReserveItems("o2", [{p, 8}])` and `ReleaseItems("o1")`. -/
def sellOutCalls : List (InventoryCall ℚ) :=
  [.ReserveItems "o2" [{ ProductID := "p", Quantity := 8, Price := 1 }], .ReleaseItems "o1"]

end StockInvariants

/-! ## The status history of a run -/

section StatusHistory

/-- The steps a run attempts, from the step that fails (none when every step
succeeds): the steps before the failing one, and the failing one. -/
def attemptedSteps (failing : Option String) : List String :=
  match failing with
  | none => stepNames
  | some name => stepNames.takeWhile (fun step => decide (step ≠ name)) ++ [name]

/-- The status at every moment of a run, from the step that fails (none when
every step succeeds): `InProgress` when the execution is registered, at the
call of every step and when a step that succeeded is recorded; `Failed` when
the failing step is recorded; then `Compensated` after `compensate`, which
runs when the failing step is not create_order, so that `Failed` is the last
value only when create_order fails; and `Completed` after confirm_order has
been recorded, when no step fails. -/
def statusHistory (failing : Option String) : List (Moment × SagaStatus) :=
  (Moment.registered, SagaStatus.InProgress) ::
    ((attemptedSteps failing).flatMap (fun step =>
      [(Moment.call step, SagaStatus.InProgress),
       (Moment.recorded step,
         if failing = some step then SagaStatus.Failed else SagaStatus.InProgress)]) ++
    (match failing with
     | none => [(Moment.completed, SagaStatus.Completed)]
     | some name =>
       if name = "create_order" then [] else [(Moment.compensated, SagaStatus.Compensated)]))

/-- A value `Completed` or `Compensated` is never followed by another value:
it occurs only as the last value. -/
def FinalStatusKept (statuses : List SagaStatus) : Prop :=
  Stepwise (fun a _ => a ≠ SagaStatus.Completed ∧ a ≠ SagaStatus.Compensated) statuses

end StatusHistory

/-! # Theorems -/

section Basic
variable {F σ : Type}

@[simp] theorem updateExecution_services (o : SagaOrchestrator F σ) (e : SagaExecution F σ) :
    (o.updateExecution e).services = o.services := rfl

@[simp] theorem updateExecution_stdout (o : SagaOrchestrator F σ) (e : SagaExecution F σ) :
    (o.updateExecution e).stdout = o.stdout := rfl

end Basic

/-! ## Maps -/

section Maps
variable {V : Type}

theorem mapGet_mapSet_self (m : List (String × V)) (k : String) (v : V) :
    mapGet (mapSet m k v) k = some v := by
  induction m with
  | nil => simp [mapSet, mapGet]
  | cons e rest ih =>
    obtain ⟨k', v'⟩ := e
    by_cases h : k' = k <;> simp [mapSet, mapGet, h, ih]

theorem mapGet_mapSet_ne (m : List (String × V)) (k k' : String) (v : V) (h : k' ≠ k) :
    mapGet (mapSet m k v) k' = mapGet m k' := by
  induction m with
  | nil => simp [mapSet, mapGet, Ne.symm h]
  | cons e rest ih =>
    obtain ⟨k₀, v₀⟩ := e
    by_cases h₀ : k₀ = k
    · subst h₀; simp [mapSet, mapGet, Ne.symm h]
    · by_cases h₁ : k₀ = k'
      · subst h₁; simp [mapSet, mapGet, h₀]
      · simp [mapSet, mapGet, h₀, h₁, ih]

theorem mapGet_mapDelete_self (m : List (String × V)) (k : String) :
    mapGet (mapDelete m k) k = none := by
  induction m with
  | nil => simp [mapDelete, mapGet]
  | cons e rest ih =>
    obtain ⟨k', v'⟩ := e
    by_cases h : k' = k
    · simpa [mapDelete, h] using ih
    · simpa [mapDelete, h, mapGet] using ih

theorem mapSet_fresh (m : List (String × V)) (k : String) (v : V)
    (h : ∀ e ∈ m, e.1 ≠ k) : mapSet m k v = m ++ [(k, v)] := by
  induction m with
  | nil => rfl
  | cons e rest ih =>
    obtain ⟨k', v'⟩ := e
    have hk : k' ≠ k := h (k', v') (List.mem_cons_self _ _)
    have hrest : ∀ e ∈ rest, e.1 ≠ k := fun e he => h e (List.mem_cons_of_mem _ he)
    simp [mapSet, hk, ih hrest]

end Maps

/-! ## The runs of `ExecuteOrderSaga` -/

section Runs
variable {F σ : Type}

/-- Every call of `ExecuteOrderSaga` runs in one of the six ways of `Run`. -/
theorem ExecuteOrderSaga_run [Float64Ops F] (c : Collaborators F σ)
    (o : SagaOrchestrator F σ) (sagaID orderID userID : String) (items : List (OrderItem F)) :
    Run c o.services o.stdout sagaID orderID userID items
      ((o.ExecuteOrderSaga c sagaID orderID userID items).1.services,
        (o.ExecuteOrderSaga c sagaID orderID userID items).1.stdout)
      (o.ExecuteOrderSaga c sagaID orderID userID items).2 := by
  rcases h1 : c.CreateOrder userID items o.services with ⟨err | order, s1⟩
  · exact Run.failCreate err s1 h1
      (by simp [SagaOrchestrator.ExecuteOrderSaga, SagaOrchestrator.executeSaga, h1, failStep])
      (by simp [SagaOrchestrator.ExecuteOrderSaga, SagaOrchestrator.executeSaga, h1, failStep,
            failedResult, failedStep, newStep])
  · rcases h2 : c.ReserveItems order.ID items s1 with ⟨err | reservations, s2⟩
    · exact Run.failReserve order s1 err s2 h1 h2
        (by simp [SagaOrchestrator.ExecuteOrderSaga, SagaOrchestrator.executeSaga, h1, h2,
              failStep, completeStep, SagaOrchestrator.compensate, rollback, cancelOrderAction])
        (by simp [SagaOrchestrator.ExecuteOrderSaga, SagaOrchestrator.executeSaga, h1, h2,
              failStep, completeStep, SagaOrchestrator.compensate, failedResult, failedStep,
              doneStep, newStep, cancelOrderAction])
    · rcases h3 : c.ApplyDiscount order.ID userID order.Total s2 with ⟨err | discount, s3⟩
      · exact Run.failDiscount order s1 reservations s2 err s3 h1 h2 h3
          (by simp [SagaOrchestrator.ExecuteOrderSaga, SagaOrchestrator.executeSaga, h1, h2, h3,
                failStep, completeStep, SagaOrchestrator.compensate, rollback,
                cancelOrderAction, releaseInventoryAction])
          (by simp [SagaOrchestrator.ExecuteOrderSaga, SagaOrchestrator.executeSaga, h1, h2, h3,
                failStep, completeStep, SagaOrchestrator.compensate, failedResult, failedStep,
                doneStep, newStep, cancelOrderAction, releaseInventoryAction])
      · rcases h4 : c.ProcessPayment order.ID userID (finalAmount order discount) s3 with
          ⟨err | payment, s4⟩
        · refine Run.failPayment order s1 reservations s2 discount s3 err s4 h1 h2 h3 h4 ?_ ?_ <;>
          cases discount <;>
          simp only [finalAmount] at h4 <;>
          simp [SagaOrchestrator.ExecuteOrderSaga, SagaOrchestrator.executeSaga, h1, h2, h3, h4,
            failStep, completeStep, SagaOrchestrator.compensate, rollback, failedResult,
            failedStep, doneStep, newStep, cancelOrderAction, releaseInventoryAction,
            removeDiscountAction, compensationsAfterDiscount]
        · rcases h5 : c.ConfirmOrder order.ID s4 with ⟨err | _, s5⟩
          · refine Run.success order s1 reservations s2 discount s3 payment s4 s5
              h1 h2 h3 h4 h5 ?_ ?_ <;>
            cases discount <;>
            simp only [finalAmount] at h4 <;>
            simp [SagaOrchestrator.ExecuteOrderSaga, SagaOrchestrator.executeSaga, h1, h2, h3, h4,
              h5, failStep, completeStep, SagaOrchestrator.compensate, rollback, failedResult,
              failedStep, doneStep, newStep, cancelOrderAction, releaseInventoryAction,
              removeDiscountAction, refundPaymentAction, compensationsAfterDiscount]
          · refine Run.failConfirm order s1 reservations s2 discount s3 payment s4 _ s5
              h1 h2 h3 h4 h5 ?_ ?_ <;>
            cases discount <;>
            simp only [finalAmount] at h4 <;>
            simp [SagaOrchestrator.ExecuteOrderSaga, SagaOrchestrator.executeSaga, h1, h2, h3, h4,
              h5, failStep, completeStep, SagaOrchestrator.compensate, rollback, failedResult,
              failedStep, doneStep, newStep, cancelOrderAction, releaseInventoryAction,
              removeDiscountAction, refundPaymentAction, compensationsAfterDiscount]

/-- The loop of `compensate`, started at index `k`, invokes the first `k`
actions from the last to the first. -/
theorem compensateLoop_take (compensations : List (CompensationAction F σ)) (k : Nat)
    (hk : k ≤ compensations.length) (st : σ × List (String × SagaError F)) :
    compensateLoop compensations k st = (compensations.take k).reverse.foldl invoke st := by
  induction k generalizing st with
  | zero => simp [compensateLoop]
  | succ i ih =>
    obtain ⟨s, out⟩ := st
    have hi : i < compensations.length := hk
    have hget : compensations[i]? = some compensations[i] := List.getElem?_eq_getElem hi
    rw [List.take_succ, hget]
    simp only [Option.toList, List.reverse_append, List.reverse_cons, List.reverse_nil,
      List.nil_append, List.singleton_append, List.foldl_cons]
    rw [compensateLoop, hget]
    simp only [invoke]
    rcases hact : compensations[i].Action s with ⟨_ | err, s'⟩
    · simpa using ih (Nat.le_of_lt hi) (s', out)
    · simpa using ih (Nat.le_of_lt hi) _

/-- The rollback invokes every registered compensation, last registered first. -/
theorem rollback_eq_foldl (compensations : List (CompensationAction F σ)) (s : σ)
    (out : List (String × SagaError F)) :
    rollback compensations s out = compensations.reverse.foldl invoke (s, out) := by
  rw [rollback, compensateLoop_take _ _ (Nat.le_refl _), List.take_length]

/-- The service state after invoking compensations does not depend on the standard output. -/
theorem foldl_invoke_fst (actions : List (CompensationAction F σ))
    (st : σ × List (String × SagaError F)) :
    (actions.foldl invoke st).1 = actions.foldl (fun s a => (a.Action s).2) st.1 := by
  induction actions generalizing st with
  | nil => rfl
  | cons a rest ih =>
    rw [List.foldl_cons, List.foldl_cons, ih]
    congr 1
    simp only [invoke]
    rcases a.Action st.1 with ⟨_ | err, s'⟩ <;> rfl

/-- The service state after a rollback. -/
theorem rollback_fst (compensations : List (CompensationAction F σ)) (s : σ)
    (out : List (String × SagaError F)) :
    (rollback compensations s out).1 =
      compensations.reverse.foldl (fun s a => (a.Action s).2) s := by
  rw [rollback_eq_foldl, foldl_invoke_fst]

end Runs

/-! ## The orchestrator over arbitrary collaborators -/

section Orchestrator
variable {F σ : Type}

/-- The probe actions, invoked last to first, log their indices in decreasing order. -/
theorem probeActions_foldl (results : List (Option (SagaError F))) (i : Nat) (log : List Nat) :
    (probeActions i results).reverse.foldl (fun s a => (a.Action s).2) log =
      log ++ (List.range' i results.length).reverse := by
  induction results generalizing i log with
  | nil => simp [probeActions]
  | cons r rest ih =>
    simp [probeActions, List.foldl_append, ih, List.range'_succ]

/-- The state after `compensate`. -/
theorem compensate_state (o : SagaOrchestrator F σ) (execution : SagaExecution F σ) :
    ((o.compensate execution).1.services, (o.compensate execution).1.stdout) =
      rollback execution.Compensations o.services o.stdout := by
  simp [SagaOrchestrator.compensate, rollback]

/-- C6: for every execution and every list of compensation actions, whatever
each of them returns, `compensate` leaves the execution with status
`Compensated` and its other fields unchanged; the resulting service state and
standard output are those obtained by invoking each action once, from the last
registered to the first, printing a line for each action that fails and going
on to the next; in particular probe actions that log their index and return
arbitrary results leave the log `n-1, n-2, ..., 0`. -/
theorem C6_compensate_invokes_all_in_reverse (o : SagaOrchestrator F σ)
    (execution : SagaExecution F σ) :
    (o.compensate execution).2 = { execution with Status := SagaStatus.Compensated } ∧
    ((o.compensate execution).1.services, (o.compensate execution).1.stdout) =
      execution.Compensations.reverse.foldl invoke (o.services, o.stdout) ∧
    (o.compensate execution).1.services =
      execution.Compensations.reverse.foldl (fun s a => (a.Action s).2) o.services ∧
    ∀ (results : List (Option (SagaError F))) (p : SagaOrchestrator F (List Nat))
      (e : SagaExecution F (List Nat)),
      (p.compensate { e with Compensations := probeActions 0 results }).1.services =
          p.services ++ (List.range results.length).reverse ∧
        (p.compensate { e with Compensations := probeActions 0 results }).2.Status =
          SagaStatus.Compensated := by
  have hstate : ∀ {τ : Type} (q : SagaOrchestrator F τ) (e : SagaExecution F τ),
      (q.compensate e).1.services =
        e.Compensations.reverse.foldl (fun s a => (a.Action s).2) q.services := by
    intro τ q e
    have h := congrArg Prod.fst (compensate_state q e)
    simpa [rollback_fst] using h
  refine ⟨by simp [SagaOrchestrator.compensate], ?_, hstate o execution, ?_⟩
  · rw [compensate_state, rollback_eq_foldl]
  · intro results p e
    refine ⟨?_, by simp [SagaOrchestrator.compensate]⟩
    rw [hstate, probeActions_foldl, List.range_eq_range']

/-- C10: for every input and all collaborators, `ExecuteOrderSaga` returns (the
model is a total function) and the status of the returned execution is
`Completed`, `Failed` or `Compensated`, never `InProgress`. -/
theorem C10_ExecuteOrderSaga_status_terminal [Float64Ops F] (c : Collaborators F σ)
    (o : SagaOrchestrator F σ) (sagaID orderID userID : String) (items : List (OrderItem F)) :
    ((o.ExecuteOrderSaga c sagaID orderID userID items).2.Execution.Status =
        SagaStatus.Completed ∨
      (o.ExecuteOrderSaga c sagaID orderID userID items).2.Execution.Status =
        SagaStatus.Failed ∨
      (o.ExecuteOrderSaga c sagaID orderID userID items).2.Execution.Status =
        SagaStatus.Compensated) ∧
    (o.ExecuteOrderSaga c sagaID orderID userID items).2.Execution.Status ≠
      SagaStatus.InProgress := by
  cases ExecuteOrderSaga_run c o sagaID orderID userID items with
  | failCreate err s1 h1 hfin hr => simp [hr, failedResult]
  | failReserve order s1 err s2 h1 h2 hfin hr => simp [hr, failedResult]
  | failDiscount order s1 reservations s2 err s3 h1 h2 h3 hfin hr => simp [hr, failedResult]
  | failPayment order s1 reservations s2 discount s3 err s4 h1 h2 h3 h4 hfin hr =>
    simp [hr, failedResult]
  | failConfirm order s1 reservations s2 discount s3 payment s4 err s5 h1 h2 h3 h4 h5 hfin hr =>
    simp [hr, failedResult]
  | success order s1 reservations s2 discount s3 payment s4 s5 h1 h2 h3 h4 h5 hfin hr =>
    simp [hr]

end Orchestrator

/-! ## The repository's services -/

section Repo
variable {F : Type}

/-- A successful `ConfirmOrder` leaves the order stored with status `Confirmed`. -/
theorem ConfirmOrder_ok (s s' : OrderService F) (orderID : String)
    (h : s.ConfirmOrder orderID = (none, s')) :
    ∃ order, s'.GetOrder orderID = .ok order ∧ order.Status = OrderStatus.Confirmed := by
  unfold OrderService.ConfirmOrder OrderService.setStatus at h
  split at h
  · simp at h
  · simp only [Prod.mk.injEq, true_and] at h
    subst h
    exact ⟨_, by simp only [OrderService.GetOrder, mapGet_mapSet_self]; rfl, rfl⟩

/-- C1: for every run of `ExecuteOrderSaga` with the repository's services
whose result has `Success = true`, the execution has exactly the five steps
create_order, reserve_inventory, apply_discount, process_payment,
confirm_order, in that order, every step is `Completed`, the execution status is
`Completed`, and the order stored under `Execution.OrderID` is `Confirmed`. -/
theorem C1_successful_saga [Float64Ops F] (o : SagaOrchestrator F (Services F))
    (sagaID orderID userID : String) (items : List (OrderItem F))
    (hsuccess : (o.ExecuteOrderSaga repoCollaborators sagaID orderID userID items).2.Success
      = true) :
    (o.ExecuteOrderSaga repoCollaborators sagaID orderID userID items).2.Execution.Steps.map
        (fun step => step.Name) =
      ["create_order", "reserve_inventory", "apply_discount", "process_payment",
        "confirm_order"] ∧
    (∀ step ∈ (o.ExecuteOrderSaga repoCollaborators sagaID orderID userID items).2.Execution.Steps,
      step.Status = StepStatus.Completed) ∧
    (o.ExecuteOrderSaga repoCollaborators sagaID orderID userID items).2.Execution.Status =
      SagaStatus.Completed ∧
    ∃ order,
      (o.ExecuteOrderSaga repoCollaborators sagaID orderID userID items).1.GetOrder
        (o.ExecuteOrderSaga repoCollaborators sagaID orderID userID items).2.Execution.OrderID =
          .ok order ∧
      order.Status = OrderStatus.Confirmed := by
  cases ExecuteOrderSaga_run repoCollaborators o sagaID orderID userID items with
  | failCreate err s1 h1 hfin hr => simp [hr, failedResult] at hsuccess
  | failReserve order s1 err s2 h1 h2 hfin hr => simp [hr, failedResult] at hsuccess
  | failDiscount order s1 reservations s2 err s3 h1 h2 h3 hfin hr =>
    simp [hr, failedResult] at hsuccess
  | failPayment order s1 reservations s2 discount s3 err s4 h1 h2 h3 h4 hfin hr =>
    simp [hr, failedResult] at hsuccess
  | failConfirm order s1 reservations s2 discount s3 payment s4 err s5 h1 h2 h3 h4 h5 hfin hr =>
    simp [hr, failedResult] at hsuccess
  | success order s1 reservations s2 discount s3 payment s4 s5 h1 h2 h3 h4 h5 hfin hr =>
    have hs : (o.ExecuteOrderSaga repoCollaborators sagaID orderID userID items).1.services = s5 :=
      congrArg Prod.fst hfin
    have h5' : s4.orderService.ConfirmOrder order.ID = (none, s5.orderService) := by
      have ha := congrArg Prod.fst h5
      have hb := congrArg (fun p => p.2.orderService) h5
      simp only [repoCollaborators] at ha hb
      exact Prod.ext ha hb
    refine ⟨by simp [hr, doneStep], by simp [hr, doneStep], by simp [hr], ?_⟩
    simp only [SagaOrchestrator.GetOrder, hs, hr]
    exact ConfirmOrder_ok _ _ _ h5'

/-- C1 holds of an actual run: the order of `TestSagaOrchestrator_SuccessfulOrder` succeeds. -/
theorem C1_successful_saga_witness :
    ((NewSagaOrchestrator testServices).ExecuteOrderSaga repoCollaborators
        "saga-1" "order-1" "user1" testItems).2.Success = true ∧
    ((NewSagaOrchestrator testServices).ExecuteOrderSaga repoCollaborators
        "saga-1" "order-1" "user1" testItems).2.Execution.Steps.map (fun step => step.Name) =
      ["create_order", "reserve_inventory", "apply_discount", "process_payment",
        "confirm_order"] :=
  ⟨by decide!,
    (C1_successful_saga (NewSagaOrchestrator testServices) "saga-1" "order-1" "user1" testItems
      (by decide!)).1⟩

end Repo

/-! ## The repository's collaborators, method by method -/

section RepoMethods
variable {F : Type} [Float64Ops F]

theorem repo_CreateOrder (userID : String) (items : List (OrderItem F)) (w : Services F) :
    repoCollaborators.CreateOrder userID items w =
      (.ok { ID := w.uuid.gen w.uuid.next, UserID := userID, Items := items,
             Status := OrderStatus.Pending, Total := orderTotal items },
        { w with
          orderService :=
            { orders := mapSet w.orderService.orders (w.uuid.gen w.uuid.next)
                { ID := w.uuid.gen w.uuid.next, UserID := userID, Items := items,
                  Status := OrderStatus.Pending, Total := orderTotal items } },
          uuid := { w.uuid with next := w.uuid.next + 1 } }) := rfl

theorem repo_ConfirmOrder (orderID : String) (w : Services F) :
    repoCollaborators.ConfirmOrder orderID w =
      ((w.orderService.ConfirmOrder orderID).1,
        { w with orderService := (w.orderService.ConfirmOrder orderID).2 }) := rfl

theorem repo_CancelOrder (orderID : String) (w : Services F) :
    repoCollaborators.CancelOrder orderID w =
      ((w.orderService.CancelOrder orderID).1,
        { w with orderService := (w.orderService.CancelOrder orderID).2 }) := rfl

theorem repo_ReserveItems (orderID : String) (items : List (OrderItem F)) (w : Services F) :
    repoCollaborators.ReserveItems orderID items w =
      ((w.inventoryService.ReserveItems w.uuid orderID items).1,
        { w with
          inventoryService := (w.inventoryService.ReserveItems w.uuid orderID items).2.1,
          uuid := (w.inventoryService.ReserveItems w.uuid orderID items).2.2 }) := rfl

theorem repo_ReleaseItems (orderID : String) (w : Services F) :
    repoCollaborators.ReleaseItems orderID w =
      (none, { w with inventoryService := (w.inventoryService.ReleaseItems orderID).2 }) := rfl

theorem repo_ApplyDiscount (orderID userID : String) (totalAmount : F) (w : Services F) :
    repoCollaborators.ApplyDiscount orderID userID totalAmount w =
      ((w.discountService.ApplyDiscount w.uuid orderID userID totalAmount).1,
        { w with
          discountService :=
            (w.discountService.ApplyDiscount w.uuid orderID userID totalAmount).2.1,
          uuid := (w.discountService.ApplyDiscount w.uuid orderID userID totalAmount).2.2 }) :=
  rfl

theorem repo_RemoveDiscount (discountID : String) (w : Services F) :
    repoCollaborators.RemoveDiscount discountID w =
      ((w.discountService.RemoveDiscount discountID).1,
        { w with discountService := (w.discountService.RemoveDiscount discountID).2 }) := rfl

theorem repo_ProcessPayment (orderID userID : String) (amount : F) (w : Services F) :
    repoCollaborators.ProcessPayment orderID userID amount w =
      ((w.billingService.ProcessPayment w.uuid orderID userID amount).1,
        { w with
          billingService := (w.billingService.ProcessPayment w.uuid orderID userID amount).2.1,
          uuid := (w.billingService.ProcessPayment w.uuid orderID userID amount).2.2 }) := rfl

theorem repo_RefundPaymentByOrderID (orderID : String) (w : Services F) :
    repoCollaborators.RefundPaymentByOrderID orderID w =
      ((w.billingService.RefundPaymentByOrderID orderID).1,
        { w with billingService := (w.billingService.RefundPaymentByOrderID orderID).2 }) := rfl

end RepoMethods

/-! ## The services, method by method -/

section ServiceFacts
variable {F : Type}

/-- An error of the reservation loop is "product not found" or "insufficient stock". -/
theorem reserveLoop_error (orderID : String) (items : List (OrderItem F))
    (s : InventoryService F) (u : UuidSource) (acc : List InventoryReservation)
    (e : SagaError F) (h : (reserveLoop orderID items s u acc).1 = .error e) :
    (∃ p, e = SagaError.productNotFound p) ∨ ∃ p r a, e = SagaError.insufficientStock p r a := by
  induction items generalizing s u acc with
  | nil => simp [reserveLoop] at h
  | cons item rest ih =>
    rw [reserveLoop] at h
    split at h
    · simp only [Except.error.injEq] at h
      exact Or.inl ⟨_, h.symm⟩
    · split at h
      · simp only [Except.error.injEq] at h
        exact Or.inr ⟨_, _, _, h.symm⟩
      · exact ih _ _ _ h

/-- An error of `ReserveItems` is one of the three inventory errors. -/
theorem ReserveItems_error (s : InventoryService F) (u : UuidSource) (orderID : String)
    (items : List (OrderItem F)) (e : SagaError F)
    (h : (s.ReserveItems u orderID items).1 = .error e) :
    e = SagaError.inventoryFailed ∨ (∃ p, e = SagaError.productNotFound p) ∨
      ∃ p r a, e = SagaError.insufficientStock p r a := by
  unfold InventoryService.ReserveItems at h
  split at h
  · simp only [Except.error.injEq] at h
    exact Or.inl h.symm
  · exact Or.inr (reserveLoop_error _ _ _ _ _ _ h)

/-- The method `ApplyDiscount` never returns an error. -/
theorem ApplyDiscount_no_error [Float64Ops F] (s : DiscountService F) (u : UuidSource)
    (orderID userID : String) (totalAmount : F) (e : SagaError F) :
    (s.ApplyDiscount u orderID userID totalAmount).1 ≠ .error e := by
  unfold DiscountService.ApplyDiscount
  split <;> simp

/-- A rejected payment is one of the two billing errors and changes nothing. -/
theorem ProcessPayment_error [Float64Ops F] (s : BillingService F) (u : UuidSource)
    (orderID userID : String) (amount : F) (e : SagaError F)
    (h : (s.ProcessPayment u orderID userID amount).1 = .error e) :
    (e = SagaError.paymentFailed ∨ ∃ balance, e = SagaError.insufficientFunds balance amount) ∧
      (s.ProcessPayment u orderID userID amount).2 = (s, u) := by
  cases hfail : s.shouldFail
  · cases hlt : Float64Ops.lt ((mapGet s.userBalances userID).getD Float64Ops.zero) amount
    · simp [BillingService.ProcessPayment, hfail, hlt, UuidSource.New] at h
    · simp only [BillingService.ProcessPayment, hfail, hlt, if_true, Bool.false_eq_true,
        if_false, Except.error.injEq] at h ⊢
      exact ⟨Or.inr ⟨_, h.symm⟩, trivial⟩
  · simp only [BillingService.ProcessPayment, hfail, if_true, Except.error.injEq] at h ⊢
    exact ⟨Or.inl h.symm, trivial⟩

/-- An accepted payment: the balance of the user is debited by the amount, and
the payment is recorded with that amount and status `Completed`. -/
theorem ProcessPayment_ok [Float64Ops F] (s : BillingService F) (u : UuidSource)
    (orderID userID : String) (amount : F) (payment : Payment F)
    (h : (s.ProcessPayment u orderID userID amount).1 = .ok payment) :
    payment = { ID := u.gen u.next, OrderID := orderID, UserID := userID, Amount := amount,
                Status := PaymentStatus.Completed } ∧
      (s.ProcessPayment u orderID userID amount).2.1.GetUserBalance userID =
        Float64Ops.sub (s.GetUserBalance userID) amount ∧
      (s.ProcessPayment u orderID userID amount).2.1.GetPayment payment.ID = .ok payment := by
  cases hfail : s.shouldFail
  · cases hlt : Float64Ops.lt ((mapGet s.userBalances userID).getD Float64Ops.zero) amount
    · simp only [BillingService.ProcessPayment, hfail, hlt, UuidSource.New, Bool.false_eq_true,
        if_false, Except.ok.injEq] at h
      subst h
      simp [BillingService.ProcessPayment, hfail, hlt, UuidSource.New,
        BillingService.GetUserBalance, BillingService.GetPayment, mapGet_mapSet_self]
    · simp [BillingService.ProcessPayment, hfail, hlt] at h
  · simp [BillingService.ProcessPayment, hfail] at h

/-- The three compensations registered before `process_payment` leave the
billing service as it is. -/
theorem rollback_afterDiscount_billing [Float64Ops F] (orderID : String) (discount : Option (Discount F))
    (s : Services F) (out : List (String × SagaError F)) :
    (rollback (compensationsAfterDiscount repoCollaborators orderID discount) s out).1.billingService
      = s.billingService := by
  cases discount <;>
    simp [rollback_fst, compensationsAfterDiscount, cancelOrderAction, releaseInventoryAction,
      removeDiscountAction, repo_CancelOrder, repo_ReleaseItems, repo_RemoveDiscount]

end ServiceFacts

/-! ## Payment failure -/

section PaymentFailure
variable {F : Type}

/-- C3: for every run of `ExecuteOrderSaga` with the repository's services in
which Billing rejects the payment (the error of the run is the error of a
billing configured to fail, or the insufficient-funds error), the execution has
the four steps create_order, reserve_inventory, apply_discount,
process_payment, the last of them `Failed`, `Success` is false, the final status
is `Compensated`, and the balance of every user, in particular of the user of
the saga, is what it was before the run. -/
theorem C3_payment_rejected [Float64Ops F] (o : SagaOrchestrator F (Services F))
    (sagaID orderID userID : String) (items : List (OrderItem F))
    (hreject :
      (o.ExecuteOrderSaga repoCollaborators sagaID orderID userID items).2.Error =
          some SagaError.paymentFailed ∨
        ∃ balance required,
          (o.ExecuteOrderSaga repoCollaborators sagaID orderID userID items).2.Error =
            some (SagaError.insufficientFunds balance required)) :
    (o.ExecuteOrderSaga repoCollaborators sagaID orderID userID items).2.Execution.Steps.map
        (fun step => step.Name) =
      ["create_order", "reserve_inventory", "apply_discount", "process_payment"] ∧
    (o.ExecuteOrderSaga repoCollaborators sagaID orderID userID items).2.Execution.Steps.getLast?.map
        (fun step => step.Status) = some StepStatus.Failed ∧
    (o.ExecuteOrderSaga repoCollaborators sagaID orderID userID items).2.Success = false ∧
    (o.ExecuteOrderSaga repoCollaborators sagaID orderID userID items).2.Execution.Status =
      SagaStatus.Compensated ∧
    ∀ user,
      (o.ExecuteOrderSaga repoCollaborators sagaID orderID userID
          items).1.services.billingService.GetUserBalance user =
        o.services.billingService.GetUserBalance user := by
  cases ExecuteOrderSaga_run repoCollaborators o sagaID orderID userID items with
  | failCreate err s1 h1 hfin hr => simp [repo_CreateOrder] at h1
  | failReserve order s1 err s2 h1 h2 hfin hr =>
    exfalso
    have herr := ReserveItems_error _ _ _ _ _ (congrArg Prod.fst h2)
    rw [hr] at hreject
    simp only [failedResult, Option.some.injEq] at hreject
    rcases herr with h | ⟨p, h⟩ | ⟨p, r, a, h⟩ <;> subst h <;> simp at hreject
  | failDiscount order s1 reservations s2 err s3 h1 h2 h3 hfin hr =>
    exact absurd (congrArg Prod.fst h3) (ApplyDiscount_no_error _ _ _ _ _ _)
  | failPayment order s1 reservations s2 discount s3 err s4 h1 h2 h3 h4 hfin hr =>
    refine ⟨by simp [hr, failedResult, doneStep, failedStep],
      by simp [hr, failedResult, failedStep], by simp [hr, failedResult],
      by simp [hr, failedResult], ?_⟩
    intro user
    have hs : (o.ExecuteOrderSaga repoCollaborators sagaID orderID userID items).1.services =
        (rollback (compensationsAfterDiscount repoCollaborators order.ID discount) s4
          o.stdout).1 := congrArg Prod.fst hfin
    have e1 : s1.billingService = o.services.billingService := by
      rw [repo_CreateOrder] at h1
      exact (congrArg (fun p => p.2.billingService) h1).symm
    have e2 : s2.billingService = s1.billingService := by
      rw [repo_ReserveItems] at h2
      exact (congrArg (fun p => p.2.billingService) h2).symm
    have e3 : s3.billingService = s2.billingService := by
      rw [repo_ApplyDiscount] at h3
      exact (congrArg (fun p => p.2.billingService) h3).symm
    have e4 : s4.billingService = s3.billingService := by
      rw [repo_ProcessPayment] at h4
      have hstate := (ProcessPayment_error _ _ _ _ _ _ (congrArg Prod.fst h4)).2
      have := (congrArg (fun p => p.2.billingService) h4).symm
      simpa [hstate] using this
    rw [hs, rollback_afterDiscount_billing, e4, e3, e2, e1]
  | failConfirm order s1 reservations s2 discount s3 payment s4 err s5 h1 h2 h3 h4 h5 hfin hr =>
    exfalso
    rw [hr] at hreject
    rw [repo_ConfirmOrder] at h5
    have herr := congrArg Prod.fst h5
    simp only [OrderService.ConfirmOrder, OrderService.setStatus] at herr
    split at herr
    · simp only [Option.some.injEq] at herr
      subst herr
      simp [failedResult] at hreject
    · simp at herr
  | success order s1 reservations s2 discount s3 payment s4 s5 h1 h2 h3 h4 h5 hfin hr =>
    simp [hr] at hreject

/-- C3 holds of an actual run: with balance 50 and an order of 100 the payment is
rejected for insufficient funds. -/
theorem C3_payment_rejected_witness :
    ((NewSagaOrchestrator poorUserServices).ExecuteOrderSaga repoCollaborators
        "saga-3" "order-3" "user3" oneItem).2.Error =
      some (SagaError.insufficientFunds 50 100) ∧
    ((NewSagaOrchestrator poorUserServices).ExecuteOrderSaga repoCollaborators
        "saga-3" "order-3" "user3" oneItem).2.Execution.Status = SagaStatus.Compensated ∧
    ((NewSagaOrchestrator poorUserServices).ExecuteOrderSaga repoCollaborators
        "saga-3" "order-3" "user3" oneItem).1.services.billingService.GetUserBalance "user3" =
      poorUserServices.billingService.GetUserBalance "user3" :=
  have h := C3_payment_rejected (NewSagaOrchestrator poorUserServices) "saga-3" "order-3"
    "user3" oneItem (Or.inr ⟨50, 100, by decide!⟩)
  ⟨by decide!, h.2.2.2.1, h.2.2.2.2 "user3"⟩

end PaymentFailure

/-! ## The amount charged -/

section Charge
variable {F : Type}

/-- The discount returned by `ApplyDiscount` makes the amount due the expected charge. -/
theorem ApplyDiscount_finalAmount [Float64Ops F] (s : DiscountService F) (u : UuidSource)
    (userID : String) (items : List (OrderItem F)) (order : Order F)
    (hTotal : order.Total = orderTotal items) (discount : Option (Discount F))
    (h : (s.ApplyDiscount u order.ID userID order.Total).1 = .ok discount) :
    finalAmount order discount = expectedCharge s.userDiscounts userID items := by
  unfold DiscountService.ApplyDiscount at h
  unfold expectedCharge
  cases hpct : mapGet s.userDiscounts userID with
  | none =>
    simp only [hpct, Except.ok.injEq] at h
    subst h
    simp [finalAmount, hTotal]
  | some pct =>
    simp only [hpct, UuidSource.New, Except.ok.injEq] at h
    subst h
    simp [finalAmount, hTotal]

/-- C9: for every successful run of `ExecuteOrderSaga` with the repository's
services, the balance of the user is debited by the expected charge, the total
`Σ price × quantity` minus `total × percentage / 100` when the user has a
configured discount percentage and the full total when the user has none, and
the payment returned by process_payment and recorded in the Billing service has
exactly that amount. -/
theorem C9_amount_charged [Float64Ops F] (o : SagaOrchestrator F (Services F))
    (sagaID orderID userID : String) (items : List (OrderItem F))
    (hsuccess : (o.ExecuteOrderSaga repoCollaborators sagaID orderID userID items).2.Success
      = true) :
    (o.ExecuteOrderSaga repoCollaborators sagaID orderID userID
        items).1.services.billingService.GetUserBalance userID =
      Float64Ops.sub (o.services.billingService.GetUserBalance userID)
        (expectedCharge o.services.discountService.userDiscounts userID items) ∧
    ∃ payment,
      (o.ExecuteOrderSaga repoCollaborators sagaID orderID userID items).2.Execution.Steps[3]?.map
          (fun step => step.Result) = some (StepResult.payment payment) ∧
      payment.Amount = expectedCharge o.services.discountService.userDiscounts userID items ∧
      payment.UserID = userID ∧
      payment.Status = PaymentStatus.Completed ∧
      (o.ExecuteOrderSaga repoCollaborators sagaID orderID userID
          items).1.services.billingService.GetPayment payment.ID = .ok payment := by
  cases ExecuteOrderSaga_run repoCollaborators o sagaID orderID userID items with
  | failCreate err s1 h1 hfin hr => simp [hr, failedResult] at hsuccess
  | failReserve order s1 err s2 h1 h2 hfin hr => simp [hr, failedResult] at hsuccess
  | failDiscount order s1 reservations s2 err s3 h1 h2 h3 hfin hr =>
    simp [hr, failedResult] at hsuccess
  | failPayment order s1 reservations s2 discount s3 err s4 h1 h2 h3 h4 hfin hr =>
    simp [hr, failedResult] at hsuccess
  | failConfirm order s1 reservations s2 discount s3 payment s4 err s5 h1 h2 h3 h4 h5 hfin hr =>
    simp [hr, failedResult] at hsuccess
  | success order s1 reservations s2 discount s3 payment s4 s5 h1 h2 h3 h4 h5 hfin hr =>
    have hs : (o.ExecuteOrderSaga repoCollaborators sagaID orderID userID items).1.services = s5 :=
      congrArg Prod.fst hfin
    rw [repo_CreateOrder] at h1
    rw [repo_ReserveItems] at h2
    rw [repo_ApplyDiscount] at h3
    rw [repo_ProcessPayment] at h4
    rw [repo_ConfirmOrder] at h5
    have hTotal : order.Total = orderTotal items := by
      have := congrArg Prod.fst h1
      simp only [Except.ok.injEq] at this
      rw [← this]
    have b1 : s1.billingService = o.services.billingService :=
      (congrArg (fun p => p.2.billingService) h1).symm
    have b2 : s2.billingService = s1.billingService :=
      (congrArg (fun p => p.2.billingService) h2).symm
    have b3 : s3.billingService = s2.billingService :=
      (congrArg (fun p => p.2.billingService) h3).symm
    have b5 : s5.billingService = s4.billingService :=
      (congrArg (fun p => p.2.billingService) h5).symm
    have d1 : s1.discountService = o.services.discountService :=
      (congrArg (fun p => p.2.discountService) h1).symm
    have d2 : s2.discountService = s1.discountService :=
      (congrArg (fun p => p.2.discountService) h2).symm
    have hamount : finalAmount order discount =
        expectedCharge o.services.discountService.userDiscounts userID items := by
      rw [← d1, ← d2]
      exact ApplyDiscount_finalAmount _ _ _ _ _ hTotal _ (congrArg Prod.fst h3)
    obtain ⟨hpay, hbal, hget⟩ := ProcessPayment_ok _ _ _ _ _ _ (congrArg Prod.fst h4)
    have b4 : s4.billingService =
        (s3.billingService.ProcessPayment s3.uuid order.ID userID
          (finalAmount order discount)).2.1 :=
      (congrArg (fun p => p.2.billingService) h4).symm
    rw [hs, b5, b4]
    refine ⟨?_, payment, by simp [hr, doneStep], ?_, ?_, ?_, hget⟩
    · rw [hbal, hamount, b3, b2, b1]
    · rw [hpay, hamount]
    · rw [hpay]
    · rw [hpay]

/-- C9 holds of an actual run: user1 has a discount of 10 percent, the order
totals 400, and the balance goes from 10000 to 9640. -/
theorem C9_amount_charged_witness :
    ((NewSagaOrchestrator testServices).ExecuteOrderSaga repoCollaborators
        "saga-1" "order-1" "user1" testItems).2.Success = true ∧
    ((NewSagaOrchestrator testServices).ExecuteOrderSaga repoCollaborators
        "saga-1" "order-1" "user1" testItems).1.services.billingService.GetUserBalance "user1" =
      Float64Ops.sub (testServices.billingService.GetUserBalance "user1")
        (expectedCharge testServices.discountService.userDiscounts "user1" testItems) ∧
    Float64Ops.sub (testServices.billingService.GetUserBalance "user1")
        (expectedCharge testServices.discountService.userDiscounts "user1" testItems) =
      (9640 : ℚ) :=
  ⟨by decide!,
    (C9_amount_charged (NewSagaOrchestrator testServices) "saga-1" "order-1" "user1" testItems
      (by decide!)).1,
    by decide!⟩

end Charge

/-! ## A reservation that fails part-way -/

section PartialReservation

/-- C2, at a failing input: product1 and product2 have stock 100 and the order
asks for 2 units of product1 and 1000 units of product2. The saga fails at
reserve_inventory with the insufficient-stock error for product2 and is
compensated, and the stock of product1, 100 before the saga, is 98 after it:
the 2 units reserved for the first item are not given back. -/
theorem C2_partial_reservation_not_released :
    ((NewSagaOrchestrator testServices).ExecuteOrderSaga repoCollaborators
        "saga-2" "order-2" "user1" partialItems).2.Error =
      some (SagaError.insufficientStock "product2" 1000 100) ∧
    failingStep ((NewSagaOrchestrator testServices).ExecuteOrderSaga repoCollaborators
        "saga-2" "order-2" "user1" partialItems).2.Execution = some "reserve_inventory" ∧
    ((NewSagaOrchestrator testServices).ExecuteOrderSaga repoCollaborators
        "saga-2" "order-2" "user1" partialItems).2.Execution.Status = SagaStatus.Compensated ∧
    testServices.inventoryService.GetStock "product1" = 100 ∧
    ((NewSagaOrchestrator testServices).ExecuteOrderSaga repoCollaborators
        "saga-2" "order-2" "user1" partialItems).1.services.inventoryService.GetStock "product1"
      = 98 := by
  decide!

end PartialReservation

/-! ## Recorded calls -/

section Traced
variable {F σ : Type}

theorem traced_CreateOrder (c : Collaborators F σ) (userID : String) (items : List (OrderItem F))
    (st : σ × List (CallRecord F)) :
    (traced c).CreateOrder userID items st =
      ((c.CreateOrder userID items st.1).1,
        ((c.CreateOrder userID items st.1).2,
          st.2 ++ [{ call := Call.CreateOrder userID items,
                     err := errOf (c.CreateOrder userID items st.1).1 }])) := rfl

theorem traced_ReserveItems (c : Collaborators F σ) (orderID : String)
    (items : List (OrderItem F)) (st : σ × List (CallRecord F)) :
    (traced c).ReserveItems orderID items st =
      ((c.ReserveItems orderID items st.1).1,
        ((c.ReserveItems orderID items st.1).2,
          st.2 ++ [{ call := Call.ReserveItems orderID items,
                     err := errOf (c.ReserveItems orderID items st.1).1 }])) := rfl

theorem traced_ApplyDiscount (c : Collaborators F σ) (orderID userID : String) (total : F)
    (st : σ × List (CallRecord F)) :
    (traced c).ApplyDiscount orderID userID total st =
      ((c.ApplyDiscount orderID userID total st.1).1,
        ((c.ApplyDiscount orderID userID total st.1).2,
          st.2 ++ [{ call := Call.ApplyDiscount orderID userID total,
                     err := errOf (c.ApplyDiscount orderID userID total st.1).1 }])) := rfl

theorem traced_ProcessPayment (c : Collaborators F σ) (orderID userID : String) (amount : F)
    (st : σ × List (CallRecord F)) :
    (traced c).ProcessPayment orderID userID amount st =
      ((c.ProcessPayment orderID userID amount st.1).1,
        ((c.ProcessPayment orderID userID amount st.1).2,
          st.2 ++ [{ call := Call.ProcessPayment orderID userID amount,
                     err := errOf (c.ProcessPayment orderID userID amount st.1).1 }])) := rfl

theorem traced_ConfirmOrder (c : Collaborators F σ) (orderID : String)
    (st : σ × List (CallRecord F)) :
    (traced c).ConfirmOrder orderID st =
      ((c.ConfirmOrder orderID st.1).1,
        ((c.ConfirmOrder orderID st.1).2,
          st.2 ++ [{ call := Call.ConfirmOrder orderID,
                     err := (c.ConfirmOrder orderID st.1).1 }])) := rfl

theorem traced_CancelOrder (c : Collaborators F σ) (orderID : String)
    (st : σ × List (CallRecord F)) :
    (traced c).CancelOrder orderID st =
      ((c.CancelOrder orderID st.1).1,
        ((c.CancelOrder orderID st.1).2,
          st.2 ++ [{ call := Call.CancelOrder orderID,
                     err := (c.CancelOrder orderID st.1).1 }])) := rfl

theorem traced_ReleaseItems (c : Collaborators F σ) (orderID : String)
    (st : σ × List (CallRecord F)) :
    (traced c).ReleaseItems orderID st =
      ((c.ReleaseItems orderID st.1).1,
        ((c.ReleaseItems orderID st.1).2,
          st.2 ++ [{ call := Call.ReleaseItems orderID,
                     err := (c.ReleaseItems orderID st.1).1 }])) := rfl

theorem traced_RemoveDiscount (c : Collaborators F σ) (discountID : String)
    (st : σ × List (CallRecord F)) :
    (traced c).RemoveDiscount discountID st =
      ((c.RemoveDiscount discountID st.1).1,
        ((c.RemoveDiscount discountID st.1).2,
          st.2 ++ [{ call := Call.RemoveDiscount discountID,
                     err := (c.RemoveDiscount discountID st.1).1 }])) := rfl

theorem traced_RefundPaymentByOrderID (c : Collaborators F σ) (orderID : String)
    (st : σ × List (CallRecord F)) :
    (traced c).RefundPaymentByOrderID orderID st =
      ((c.RefundPaymentByOrderID orderID st.1).1,
        ((c.RefundPaymentByOrderID orderID st.1).2,
          st.2 ++ [{ call := Call.RefundPaymentByOrderID orderID,
                     err := (c.RefundPaymentByOrderID orderID st.1).1 }])) := rfl

/-- The records of the forward calls: what a call that returned `(r, s1)` added to the log. -/
theorem traced_CreateOrder_log (c : Collaborators F σ) (userID : String)
    (items : List (OrderItem F)) (st s1 : σ × List (CallRecord F))
    (r : Except (SagaError F) (Order F)) (h : (traced c).CreateOrder userID items st = (r, s1)) :
    s1.2 = st.2 ++ [{ call := Call.CreateOrder userID items, err := errOf r }] := by
  rw [traced_CreateOrder] at h
  obtain ⟨rfl, rfl⟩ := Prod.mk.inj h
  rfl

theorem traced_ReserveItems_log (c : Collaborators F σ) (orderID : String)
    (items : List (OrderItem F)) (st s1 : σ × List (CallRecord F))
    (r : Except (SagaError F) (List InventoryReservation))
    (h : (traced c).ReserveItems orderID items st = (r, s1)) :
    s1.2 = st.2 ++ [{ call := Call.ReserveItems orderID items, err := errOf r }] := by
  rw [traced_ReserveItems] at h
  obtain ⟨rfl, rfl⟩ := Prod.mk.inj h
  rfl

theorem traced_ApplyDiscount_log (c : Collaborators F σ) (orderID userID : String) (total : F)
    (st s1 : σ × List (CallRecord F)) (r : Except (SagaError F) (Option (Discount F)))
    (h : (traced c).ApplyDiscount orderID userID total st = (r, s1)) :
    s1.2 = st.2 ++ [{ call := Call.ApplyDiscount orderID userID total, err := errOf r }] := by
  rw [traced_ApplyDiscount] at h
  obtain ⟨rfl, rfl⟩ := Prod.mk.inj h
  rfl

theorem traced_ProcessPayment_log (c : Collaborators F σ) (orderID userID : String) (amount : F)
    (st s1 : σ × List (CallRecord F)) (r : Except (SagaError F) (Payment F))
    (h : (traced c).ProcessPayment orderID userID amount st = (r, s1)) :
    s1.2 = st.2 ++ [{ call := Call.ProcessPayment orderID userID amount, err := errOf r }] := by
  rw [traced_ProcessPayment] at h
  obtain ⟨rfl, rfl⟩ := Prod.mk.inj h
  rfl

theorem traced_ConfirmOrder_log (c : Collaborators F σ) (orderID : String)
    (st s1 : σ × List (CallRecord F)) (r : Option (SagaError F))
    (h : (traced c).ConfirmOrder orderID st = (r, s1)) :
    s1.2 = st.2 ++ [{ call := Call.ConfirmOrder orderID, err := r }] := by
  rw [traced_ConfirmOrder] at h
  obtain ⟨rfl, rfl⟩ := Prod.mk.inj h
  rfl

end Traced

/-! ## Order of the compensations -/

section CompensationOrder
variable {F σ : Type}

/-- C5: for every saga that fails at process_payment after apply_discount
returned the discount `d`, whatever the collaborators, the registered
compensations are named cancel_order, release_inventory, remove_discount in
that order, and the calls made during the run are the four forward calls
followed by `RemoveDiscount` of that discount, `ReleaseItems` of the order and
`CancelOrder` of the order, in that order. -/
theorem C5_compensation_order [Float64Ops F] (c : Collaborators F σ)
    (o : SagaOrchestrator F (σ × List (CallRecord F))) (sagaID orderID userID : String)
    (items : List (OrderItem F)) (d : Discount F)
    (hfail : failingStep (o.ExecuteOrderSaga (traced c) sagaID orderID userID items).2.Execution
      = some "process_payment")
    (hdiscount :
      (o.ExecuteOrderSaga (traced c) sagaID orderID userID items).2.Execution.Steps[2]?.map
        (fun step => step.Result) = some (StepResult.discount (some d))) :
    (o.ExecuteOrderSaga (traced c) sagaID orderID userID items).2.Execution.Compensations.map
        (fun compensation => compensation.Name) =
      ["cancel_order", "release_inventory", "remove_discount"] ∧
    ∃ total amount,
      callsSince o.services.2
          (o.ExecuteOrderSaga (traced c) sagaID orderID userID items).1.services.2 =
        [Call.CreateOrder userID items,
         Call.ReserveItems
           (o.ExecuteOrderSaga (traced c) sagaID orderID userID items).2.Execution.OrderID items,
         Call.ApplyDiscount
           (o.ExecuteOrderSaga (traced c) sagaID orderID userID items).2.Execution.OrderID
           userID total,
         Call.ProcessPayment
           (o.ExecuteOrderSaga (traced c) sagaID orderID userID items).2.Execution.OrderID
           userID amount,
         Call.RemoveDiscount d.ID,
         Call.ReleaseItems
           (o.ExecuteOrderSaga (traced c) sagaID orderID userID items).2.Execution.OrderID,
         Call.CancelOrder
           (o.ExecuteOrderSaga (traced c) sagaID orderID userID items).2.Execution.OrderID] := by
  cases ExecuteOrderSaga_run (traced c) o sagaID orderID userID items with
  | failCreate err s1 h1 hfin hr =>
    simp [hr, failedResult, failingStep, failedStep] at hfail
  | failReserve order s1 err s2 h1 h2 hfin hr =>
    simp [hr, failedResult, failingStep, failedStep] at hfail
  | failDiscount order s1 reservations s2 err s3 h1 h2 h3 hfin hr =>
    simp [hr, failedResult, failingStep, failedStep] at hfail
  | failPayment order s1 reservations s2 discount s3 err s4 h1 h2 h3 h4 hfin hr =>
    have hd : discount = some d := by
      simpa [hr, failedResult, doneStep] using hdiscount
    subst hd
    have hs : (o.ExecuteOrderSaga (traced c) sagaID orderID userID items).1.services =
        (rollback (compensationsAfterDiscount (traced c) order.ID (some d)) s4 o.stdout).1 :=
      congrArg Prod.fst hfin
    have l1 := traced_CreateOrder_log _ _ _ _ _ _ h1
    have l2 := traced_ReserveItems_log _ _ _ _ _ _ h2
    have l3 := traced_ApplyDiscount_log _ _ _ _ _ _ _ h3
    have l4 := traced_ProcessPayment_log _ _ _ _ _ _ _ h4
    refine ⟨by simp [hr, failedResult, compensationsAfterDiscount, cancelOrderAction,
      releaseInventoryAction, removeDiscountAction], order.Total,
      finalAmount order (some d), ?_⟩
    rw [hs]
    simp [hr, failedResult, rollback_fst, compensationsAfterDiscount, cancelOrderAction,
      releaseInventoryAction, removeDiscountAction, traced_CancelOrder, traced_ReleaseItems,
      traced_RemoveDiscount, l1, l2, l3, l4, callsSince, errOf]
  | failConfirm order s1 reservations s2 discount s3 payment s4 err s5 h1 h2 h3 h4 h5 hfin hr =>
    simp [hr, failedResult, failingStep, failedStep] at hfail
  | success order s1 reservations s2 discount s3 payment s4 s5 h1 h2 h3 h4 h5 hfin hr =>
    simp [hr, failingStep, doneStep] at hfail

/-- C5 holds of an actual run: the run of `TestSagaOrchestrator_CompensationOrder`,
with a billing configured to fail and a discount for user1. -/
theorem C5_compensation_order_witness :
    failingStep ((NewSagaOrchestrator (failingBillingServices, [])).ExecuteOrderSaga
        (traced repoCollaborators) "saga-6" "order-6" "user1" oneItem).2.Execution =
      some "process_payment" ∧
    ((NewSagaOrchestrator (failingBillingServices, [])).ExecuteOrderSaga
        (traced repoCollaborators) "saga-6" "order-6" "user1"
        oneItem).2.Execution.Compensations.map (fun compensation => compensation.Name) =
      ["cancel_order", "release_inventory", "remove_discount"] :=
  ⟨by decide!,
    (C5_compensation_order repoCollaborators (NewSagaOrchestrator (failingBillingServices, []))
      "saga-6" "order-6" "user1" oneItem exampleDiscount (by decide!) (by decide!)).1⟩

end CompensationOrder

/-! ## Failure: `Failed` or `Compensated` -/

section FailureStatus
variable {F σ : Type}

/-- C7: for every run of `ExecuteOrderSaga` in which a step fails, whatever the
collaborators: if the failing step is create_order, the final status is
`Failed`, no compensation is registered and the only call made is `CreateOrder`;
if it is any later step, the final status is `Compensated`, at least one
compensation is registered, and the calls made are the forward calls up to the
failing step followed by the calls of the registered compensations, each once,
last registered first. -/
theorem C7_failed_or_compensated [Float64Ops F] (c : Collaborators F σ)
    (o : SagaOrchestrator F (σ × List (CallRecord F))) (sagaID orderID userID : String)
    (items : List (OrderItem F)) (name : String)
    (hfail : failingStep (o.ExecuteOrderSaga (traced c) sagaID orderID userID items).2.Execution
      = some name) :
    if name = "create_order" then
      (o.ExecuteOrderSaga (traced c) sagaID orderID userID items).2.Execution.Status =
          SagaStatus.Failed ∧
        (o.ExecuteOrderSaga (traced c) sagaID orderID userID items).2.Execution.Compensations.length
          = 0 ∧
        (callsSince o.services.2
            (o.ExecuteOrderSaga (traced c) sagaID orderID userID items).1.services.2).map
          Call.method = ["CreateOrder"]
    else
      (o.ExecuteOrderSaga (traced c) sagaID orderID userID items).2.Execution.Status =
          SagaStatus.Compensated ∧
        0 < (o.ExecuteOrderSaga (traced c) sagaID orderID userID
          items).2.Execution.Compensations.length ∧
        (callsSince o.services.2
            (o.ExecuteOrderSaga (traced c) sagaID orderID userID items).1.services.2).map
          Call.method =
          forwardMethods.take
              (o.ExecuteOrderSaga (traced c) sagaID orderID userID items).2.Execution.Steps.length ++
            (o.ExecuteOrderSaga (traced c) sagaID orderID userID
              items).2.Execution.Compensations.reverse.map
              (fun compensation => compensationMethod compensation.Name) := by
  cases ExecuteOrderSaga_run (traced c) o sagaID orderID userID items with
  | failCreate err s1 h1 hfin hr =>
    have hname : name = "create_order" := by
      simpa [hr, failedResult, failingStep, failedStep] using hfail.symm
    have hs : (o.ExecuteOrderSaga (traced c) sagaID orderID userID items).1.services = s1 :=
      congrArg Prod.fst hfin
    have l1 := traced_CreateOrder_log _ _ _ _ _ _ h1
    subst hname
    simp [hr, hs, failedResult, l1, callsSince, Call.method]
  | failReserve order s1 err s2 h1 h2 hfin hr =>
    have hname : name = "reserve_inventory" := by
      simpa [hr, failedResult, failingStep, failedStep] using hfail.symm
    have hs : (o.ExecuteOrderSaga (traced c) sagaID orderID userID items).1.services =
        (rollback [cancelOrderAction (traced c) order.ID] s2 o.stdout).1 :=
      congrArg Prod.fst hfin
    have l1 := traced_CreateOrder_log _ _ _ _ _ _ h1
    have l2 := traced_ReserveItems_log _ _ _ _ _ _ h2
    subst hname
    simp [hr, hs, failedResult, rollback_fst, cancelOrderAction, traced_CancelOrder, l1, l2,
      callsSince, Call.method, forwardMethods, compensationMethod]
  | failDiscount order s1 reservations s2 err s3 h1 h2 h3 hfin hr =>
    have hname : name = "apply_discount" := by
      simpa [hr, failedResult, failingStep, failedStep] using hfail.symm
    have hs : (o.ExecuteOrderSaga (traced c) sagaID orderID userID items).1.services =
        (rollback [cancelOrderAction (traced c) order.ID,
          releaseInventoryAction (traced c) order.ID] s3 o.stdout).1 :=
      congrArg Prod.fst hfin
    have l1 := traced_CreateOrder_log _ _ _ _ _ _ h1
    have l2 := traced_ReserveItems_log _ _ _ _ _ _ h2
    have l3 := traced_ApplyDiscount_log _ _ _ _ _ _ _ h3
    subst hname
    simp [hr, hs, failedResult, rollback_fst, cancelOrderAction, releaseInventoryAction,
      traced_CancelOrder, traced_ReleaseItems, l1, l2, l3, callsSince, Call.method,
      forwardMethods, compensationMethod]
  | failPayment order s1 reservations s2 discount s3 err s4 h1 h2 h3 h4 hfin hr =>
    have hname : name = "process_payment" := by
      simpa [hr, failedResult, failingStep, failedStep] using hfail.symm
    have hs : (o.ExecuteOrderSaga (traced c) sagaID orderID userID items).1.services =
        (rollback (compensationsAfterDiscount (traced c) order.ID discount) s4 o.stdout).1 :=
      congrArg Prod.fst hfin
    have l1 := traced_CreateOrder_log _ _ _ _ _ _ h1
    have l2 := traced_ReserveItems_log _ _ _ _ _ _ h2
    have l3 := traced_ApplyDiscount_log _ _ _ _ _ _ _ h3
    have l4 := traced_ProcessPayment_log _ _ _ _ _ _ _ h4
    subst hname
    cases discount <;>
      simp [hr, hs, failedResult, rollback_fst, compensationsAfterDiscount, cancelOrderAction,
        releaseInventoryAction, removeDiscountAction, traced_CancelOrder, traced_ReleaseItems,
        traced_RemoveDiscount, l1, l2, l3, l4, callsSince, Call.method, forwardMethods,
        compensationMethod]
  | failConfirm order s1 reservations s2 discount s3 payment s4 err s5 h1 h2 h3 h4 h5 hfin hr =>
    have hname : name = "confirm_order" := by
      simpa [hr, failedResult, failingStep, failedStep] using hfail.symm
    have hs : (o.ExecuteOrderSaga (traced c) sagaID orderID userID items).1.services =
        (rollback (compensationsAfterDiscount (traced c) order.ID discount ++
          [refundPaymentAction (traced c) order.ID]) s5 o.stdout).1 :=
      congrArg Prod.fst hfin
    have l1 := traced_CreateOrder_log _ _ _ _ _ _ h1
    have l2 := traced_ReserveItems_log _ _ _ _ _ _ h2
    have l3 := traced_ApplyDiscount_log _ _ _ _ _ _ _ h3
    have l4 := traced_ProcessPayment_log _ _ _ _ _ _ _ h4
    have l5 := traced_ConfirmOrder_log _ _ _ _ _ h5
    subst hname
    cases discount <;>
      simp [hr, hs, failedResult, rollback_fst, compensationsAfterDiscount, cancelOrderAction,
        releaseInventoryAction, removeDiscountAction, refundPaymentAction, traced_CancelOrder,
        traced_ReleaseItems, traced_RemoveDiscount, traced_RefundPaymentByOrderID, l1, l2, l3,
        l4, l5, callsSince, Call.method, forwardMethods, compensationMethod]
  | success order s1 reservations s2 discount s3 payment s4 s5 h1 h2 h3 h4 h5 hfin hr =>
    simp [hr, failingStep, doneStep] at hfail

/-- C7 holds of actual runs: one whose `CreateOrder` is rejected, which ends
`Failed` without compensation, and one that fails at reserve_inventory, which
ends `Compensated`. -/
theorem C7_failed_or_compensated_witness :
    (failingStep ((NewSagaOrchestrator (testServices, [])).ExecuteOrderSaga
          (traced rejectingCollaborators) "saga-7" "order-7" "user1" testItems).2.Execution =
        some "create_order" ∧
      ((NewSagaOrchestrator (testServices, [])).ExecuteOrderSaga
          (traced rejectingCollaborators) "saga-7" "order-7" "user1" testItems).2.Execution.Status =
        SagaStatus.Failed) ∧
    (failingStep ((NewSagaOrchestrator (testServices, [])).ExecuteOrderSaga
          (traced repoCollaborators) "saga-2" "order-2" "user1" partialItems).2.Execution =
        some "reserve_inventory" ∧
      ((NewSagaOrchestrator (testServices, [])).ExecuteOrderSaga
          (traced repoCollaborators) "saga-2" "order-2" "user1" partialItems).2.Execution.Status =
        SagaStatus.Compensated) :=
  ⟨⟨by decide!,
      (by
        have h := C7_failed_or_compensated rejectingCollaborators
          (NewSagaOrchestrator (testServices, [])) "saga-7" "order-7" "user1" testItems
          "create_order" (by decide!)
        rw [if_pos rfl] at h
        exact h.1)⟩,
    ⟨by decide!,
      (by
        have h := C7_failed_or_compensated repoCollaborators
          (NewSagaOrchestrator (testServices, [])) "saga-2" "order-2" "user1" partialItems
          "reserve_inventory" (by decide!)
        rw [if_neg (by decide)] at h
        exact h.1)⟩⟩

end FailureStatus

/-! ## What each method of the repository leaves unchanged -/

section Frames
variable {F : Type}

/-- After `CreateOrder` the order is stored under its identifier, which is the
identifier drawn; the other services are unchanged. -/
theorem repo_CreateOrder_facts [Float64Ops F] (userID : String) (items : List (OrderItem F))
    (w s1 : Services F) (order : Order F)
    (h : repoCollaborators.CreateOrder userID items w = (.ok order, s1)) :
    mapGet s1.orderService.orders order.ID = some order ∧
      order.ID = w.uuid.gen w.uuid.next ∧
      s1.uuid = { w.uuid with next := w.uuid.next + 1 } ∧
      s1.inventoryService = w.inventoryService ∧
      s1.discountService = w.discountService ∧
      s1.billingService = w.billingService := by
  rw [repo_CreateOrder] at h
  simp only [Prod.mk.injEq, Except.ok.injEq] at h
  obtain ⟨rfl, rfl⟩ := h
  exact ⟨mapGet_mapSet_self _ _ _, rfl, rfl, rfl, rfl, rfl⟩

theorem repo_ReserveItems_frame [Float64Ops F] (orderID : String) (items : List (OrderItem F))
    (w s : Services F) (r : Except (SagaError F) (List InventoryReservation))
    (h : repoCollaborators.ReserveItems orderID items w = (r, s)) :
    s.orderService = w.orderService ∧ s.billingService = w.billingService ∧
      s.discountService = w.discountService := by
  rw [repo_ReserveItems] at h
  obtain ⟨-, rfl⟩ := Prod.mk.inj h
  exact ⟨rfl, rfl, rfl⟩

theorem repo_ApplyDiscount_frame [Float64Ops F] (orderID userID : String) (total : F)
    (w s : Services F) (r : Except (SagaError F) (Option (Discount F)))
    (h : repoCollaborators.ApplyDiscount orderID userID total w = (r, s)) :
    s.orderService = w.orderService ∧ s.billingService = w.billingService ∧
      s.inventoryService = w.inventoryService := by
  rw [repo_ApplyDiscount] at h
  obtain ⟨-, rfl⟩ := Prod.mk.inj h
  exact ⟨rfl, rfl, rfl⟩

theorem repo_ProcessPayment_frame [Float64Ops F] (orderID userID : String) (amount : F)
    (w s : Services F) (r : Except (SagaError F) (Payment F))
    (h : repoCollaborators.ProcessPayment orderID userID amount w = (r, s)) :
    s.orderService = w.orderService ∧ s.discountService = w.discountService ∧
      s.inventoryService = w.inventoryService := by
  rw [repo_ProcessPayment] at h
  obtain ⟨-, rfl⟩ := Prod.mk.inj h
  exact ⟨rfl, rfl, rfl⟩

/-- Assigning a status to a stored order succeeds and stores the order with that status. -/
theorem setStatus_found (s : OrderService F) (orderID : String) (status : OrderStatus)
    (order : Order F) (h : mapGet s.orders orderID = some order) :
    (s.setStatus orderID status).1 = none ∧
      mapGet (s.setStatus orderID status).2.orders orderID =
        some { order with Status := status } := by
  simp [OrderService.setStatus, h, mapGet_mapSet_self]

/-- Removing a stored discount succeeds, and the discount is no longer stored. -/
theorem RemoveDiscount_found (s : DiscountService F) (discountID : String) (d : Discount F)
    (h : mapGet s.discounts discountID = some d) :
    (s.RemoveDiscount discountID).1 = none ∧
      mapGet (s.RemoveDiscount discountID).2.discounts discountID = none := by
  simp [DiscountService.RemoveDiscount, h, mapGet_mapDelete_self]

/-- A discount returned by `ApplyDiscount` is stored under its identifier. -/
theorem ApplyDiscount_stored [Float64Ops F] (s : DiscountService F) (u : UuidSource)
    (orderID userID : String) (total : F) (d : Discount F)
    (h : (s.ApplyDiscount u orderID userID total).1 = .ok (some d)) :
    mapGet (s.ApplyDiscount u orderID userID total).2.1.discounts d.ID = some d := by
  unfold DiscountService.ApplyDiscount at h ⊢
  cases hpct : mapGet s.userDiscounts userID with
  | none => simp [hpct] at h
  | some pct =>
    simp only [hpct, UuidSource.New, Except.ok.injEq, Option.some.injEq] at h
    subst h
    simp [hpct, UuidSource.New, mapGet_mapSet_self]

end Frames

/-! ## Calls recorded for the repository's collaborators -/

section TracedFst
variable {F σ : Type}

theorem traced_CreateOrder_fst (c : Collaborators F σ) (userID : String)
    (items : List (OrderItem F)) (st s1 : σ × List (CallRecord F))
    (r : Except (SagaError F) (Order F)) (h : (traced c).CreateOrder userID items st = (r, s1)) :
    c.CreateOrder userID items st.1 = (r, s1.1) := by
  rw [traced_CreateOrder] at h
  obtain ⟨rfl, rfl⟩ := Prod.mk.inj h
  rfl

theorem traced_ReserveItems_fst (c : Collaborators F σ) (orderID : String)
    (items : List (OrderItem F)) (st s1 : σ × List (CallRecord F))
    (r : Except (SagaError F) (List InventoryReservation))
    (h : (traced c).ReserveItems orderID items st = (r, s1)) :
    c.ReserveItems orderID items st.1 = (r, s1.1) := by
  rw [traced_ReserveItems] at h
  obtain ⟨rfl, rfl⟩ := Prod.mk.inj h
  rfl

theorem traced_ApplyDiscount_fst (c : Collaborators F σ) (orderID userID : String) (total : F)
    (st s1 : σ × List (CallRecord F)) (r : Except (SagaError F) (Option (Discount F)))
    (h : (traced c).ApplyDiscount orderID userID total st = (r, s1)) :
    c.ApplyDiscount orderID userID total st.1 = (r, s1.1) := by
  rw [traced_ApplyDiscount] at h
  obtain ⟨rfl, rfl⟩ := Prod.mk.inj h
  rfl

theorem traced_ProcessPayment_fst (c : Collaborators F σ) (orderID userID : String) (amount : F)
    (st s1 : σ × List (CallRecord F)) (r : Except (SagaError F) (Payment F))
    (h : (traced c).ProcessPayment orderID userID amount st = (r, s1)) :
    c.ProcessPayment orderID userID amount st.1 = (r, s1.1) := by
  rw [traced_ProcessPayment] at h
  obtain ⟨rfl, rfl⟩ := Prod.mk.inj h
  rfl

theorem traced_ConfirmOrder_fst (c : Collaborators F σ) (orderID : String)
    (st s1 : σ × List (CallRecord F)) (r : Option (SagaError F))
    (h : (traced c).ConfirmOrder orderID st = (r, s1)) :
    c.ConfirmOrder orderID st.1 = (r, s1.1) := by
  rw [traced_ConfirmOrder] at h
  obtain ⟨rfl, rfl⟩ := Prod.mk.inj h
  rfl

end TracedFst

/-! ## Errors are surfaced -/

section ErrorSurfaced
variable {F : Type}

/-- C8: in every run of `ExecuteOrderSaga` with the repository's services, every
collaborator call that returned an error `e` (forward or compensating) is such
that `Result.Error` is `e`, the last step record is `Failed` with error `e`, and
`Success` is false; and in every run `Success` is true exactly when `Result.Error`
is nil and the execution status is `Completed`. -/
theorem C8_error_surfaced [Float64Ops F]
    (o : SagaOrchestrator F (Services F × List (CallRecord F)))
    (sagaID orderID userID : String) (items : List (OrderItem F)) :
    (∀ record ∈ recordsSince o.services.2
        (o.ExecuteOrderSaga (traced repoCollaborators) sagaID orderID userID items).1.services.2,
      ∀ e, record.err = some e →
        (o.ExecuteOrderSaga (traced repoCollaborators) sagaID orderID userID items).2.Error =
            some e ∧
          (o.ExecuteOrderSaga (traced repoCollaborators) sagaID orderID userID
              items).2.Execution.Steps.getLast?.map (fun step => (step.Status, step.Error)) =
            some (StepStatus.Failed, some e) ∧
          (o.ExecuteOrderSaga (traced repoCollaborators) sagaID orderID userID items).2.Success =
            false) ∧
    ((o.ExecuteOrderSaga (traced repoCollaborators) sagaID orderID userID items).2.Success = true ↔
      (o.ExecuteOrderSaga (traced repoCollaborators) sagaID orderID userID items).2.Error = none ∧
        (o.ExecuteOrderSaga (traced repoCollaborators) sagaID orderID userID
          items).2.Execution.Status = SagaStatus.Completed) := by
  cases ExecuteOrderSaga_run (traced repoCollaborators) o sagaID orderID userID items with
  | failCreate err s1 h1 hfin hr =>
    have h1' := traced_CreateOrder_fst _ _ _ _ _ _ h1
    simp [repo_CreateOrder] at h1'
  | failReserve order s1 err s2 h1 h2 hfin hr =>
    have hs : (o.ExecuteOrderSaga (traced repoCollaborators) sagaID orderID userID
        items).1.services =
        (rollback [cancelOrderAction (traced repoCollaborators) order.ID] s2 o.stdout).1 :=
      congrArg Prod.fst hfin
    have l1 := traced_CreateOrder_log _ _ _ _ _ _ h1
    have l2 := traced_ReserveItems_log _ _ _ _ _ _ h2
    have f1 := repo_CreateOrder_facts _ _ _ _ _ (traced_CreateOrder_fst _ _ _ _ _ _ h1)
    have f2 := repo_ReserveItems_frame _ _ _ _ _ (traced_ReserveItems_fst _ _ _ _ _ _ h2)
    have hcancel : (repoCollaborators.CancelOrder order.ID s2.1).1 = none := by
      rw [repo_CancelOrder]
      exact (setStatus_found _ _ _ _ (by rw [f2.1]; exact f1.1)).1
    refine ⟨?_, by simp [hr, failedResult]⟩
    intro record hmem e herr
    rw [hs] at hmem
    simp only [recordsSince, rollback_fst, cancelOrderAction, traced_CancelOrder, l1, l2,
      List.reverse_cons, List.reverse_nil, List.nil_append, List.foldl_cons, List.foldl_nil,
      List.append_assoc, List.drop_left, errOf, hcancel, List.singleton_append,
      List.cons_append, List.append_eq, List.mem_cons, List.mem_singleton, List.not_mem_nil,
      or_false] at hmem
    rcases hmem with rfl | rfl | rfl
    · simp at herr
    · simp only [Option.some.injEq] at herr
      subst herr
      simp [hr, failedResult, failedStep]
    · simp at herr
  | failDiscount order s1 reservations s2 err s3 h1 h2 h3 hfin hr =>
    have h3' := traced_ApplyDiscount_fst _ _ _ _ _ _ _ h3
    rw [repo_ApplyDiscount] at h3'
    exact absurd (congrArg Prod.fst h3') (ApplyDiscount_no_error _ _ _ _ _ _)
  | failPayment order s1 reservations s2 discount s3 err s4 h1 h2 h3 h4 hfin hr =>
    have hs : (o.ExecuteOrderSaga (traced repoCollaborators) sagaID orderID userID
        items).1.services =
        (rollback (compensationsAfterDiscount (traced repoCollaborators) order.ID discount) s4
          o.stdout).1 := congrArg Prod.fst hfin
    have l1 := traced_CreateOrder_log _ _ _ _ _ _ h1
    have l2 := traced_ReserveItems_log _ _ _ _ _ _ h2
    have l3 := traced_ApplyDiscount_log _ _ _ _ _ _ _ h3
    have l4 := traced_ProcessPayment_log _ _ _ _ _ _ _ h4
    have f1 := repo_CreateOrder_facts _ _ _ _ _ (traced_CreateOrder_fst _ _ _ _ _ _ h1)
    have f2 := repo_ReserveItems_frame _ _ _ _ _ (traced_ReserveItems_fst _ _ _ _ _ _ h2)
    have h3' := traced_ApplyDiscount_fst _ _ _ _ _ _ _ h3
    have f3 := repo_ApplyDiscount_frame _ _ _ _ _ _ h3'
    have f4 := repo_ProcessPayment_frame _ _ _ _ _ _
      (traced_ProcessPayment_fst _ _ _ _ _ _ _ h4)
    have horder : mapGet s4.1.orderService.orders order.ID = some order := by
      rw [f4.1, f3.1, f2.1]; exact f1.1
    refine ⟨?_, by simp [hr, failedResult]⟩
    intro record hmem e herr
    rw [hs] at hmem
    cases discount with
    | none =>
      have hcancel : (repoCollaborators.CancelOrder order.ID
          (repoCollaborators.ReleaseItems order.ID s4.1).2).1 = none := by
        rw [repo_CancelOrder]
        exact (setStatus_found _ _ _ _ (by rw [repo_ReleaseItems]; exact horder)).1
      have hrelease : (repoCollaborators.ReleaseItems order.ID s4.1).1 = none := by
        rw [repo_ReleaseItems]
      simp only [recordsSince, rollback_fst, compensationsAfterDiscount, cancelOrderAction,
        releaseInventoryAction, traced_CancelOrder, traced_ReleaseItems, l1, l2, l3, l4,
        List.reverse_cons, List.reverse_nil, List.nil_append, List.foldl_cons, List.foldl_nil,
        List.append_assoc, List.drop_left, errOf, hcancel, hrelease, List.singleton_append,
        List.cons_append, List.mem_cons, List.mem_singleton, List.not_mem_nil, or_false]
        at hmem
      rcases hmem with rfl | rfl | rfl | rfl | rfl | rfl
      · simp at herr
      · simp at herr
      · simp at herr
      · simp only [Option.some.injEq] at herr
        subst herr
        simp [hr, failedResult, failedStep]
      · simp at herr
      · simp at herr
    | some d =>
      have hstored : mapGet s4.1.discountService.discounts d.ID = some d := by
        rw [f4.2.1]
        rw [repo_ApplyDiscount] at h3'
        have hres := congrArg Prod.fst h3'
        have hst := congrArg (fun p => p.2.discountService) h3'
        simp only at hres hst
        rw [← hst]
        exact ApplyDiscount_stored _ _ _ _ _ _ hres
      have hremove : (repoCollaborators.RemoveDiscount d.ID s4.1).1 = none := by
        rw [repo_RemoveDiscount]
        exact (RemoveDiscount_found _ _ _ hstored).1
      have hrelease : (repoCollaborators.ReleaseItems order.ID
          (repoCollaborators.RemoveDiscount d.ID s4.1).2).1 = none := by
        rw [repo_ReleaseItems]
      have hcancel : (repoCollaborators.CancelOrder order.ID
          (repoCollaborators.ReleaseItems order.ID
            (repoCollaborators.RemoveDiscount d.ID s4.1).2).2).1 = none := by
        rw [repo_CancelOrder]
        exact (setStatus_found _ _ _ _
          (by rw [repo_ReleaseItems, repo_RemoveDiscount]; exact horder)).1
      simp only [recordsSince, rollback_fst, compensationsAfterDiscount, cancelOrderAction,
        releaseInventoryAction, removeDiscountAction, traced_CancelOrder, traced_ReleaseItems,
        traced_RemoveDiscount, l1, l2, l3, l4,
        List.reverse_cons, List.reverse_nil, List.nil_append, List.foldl_cons, List.foldl_nil,
        List.append_assoc, List.drop_left, errOf, hcancel, hrelease, hremove,
        List.singleton_append, List.cons_append, List.mem_cons, List.mem_singleton,
        List.not_mem_nil, or_false] at hmem
      rcases hmem with rfl | rfl | rfl | rfl | rfl | rfl | rfl
      · simp at herr
      · simp at herr
      · simp at herr
      · simp only [Option.some.injEq] at herr
        subst herr
        simp [hr, failedResult, failedStep]
      · simp at herr
      · simp at herr
      · simp at herr
  | failConfirm order s1 reservations s2 discount s3 payment s4 err s5 h1 h2 h3 h4 h5 hfin hr =>
    exfalso
    have f1 := repo_CreateOrder_facts _ _ _ _ _ (traced_CreateOrder_fst _ _ _ _ _ _ h1)
    have f2 := repo_ReserveItems_frame _ _ _ _ _ (traced_ReserveItems_fst _ _ _ _ _ _ h2)
    have f3 := repo_ApplyDiscount_frame _ _ _ _ _ _
      (traced_ApplyDiscount_fst _ _ _ _ _ _ _ h3)
    have f4 := repo_ProcessPayment_frame _ _ _ _ _ _
      (traced_ProcessPayment_fst _ _ _ _ _ _ _ h4)
    have horder : mapGet s4.1.orderService.orders order.ID = some order := by
      rw [f4.1, f3.1, f2.1]; exact f1.1
    have h5' := congrArg Prod.fst (traced_ConfirmOrder_fst _ _ _ _ _ h5)
    rw [repo_ConfirmOrder] at h5'
    have := (setStatus_found _ _ OrderStatus.Confirmed _ horder).1
    simp only [OrderService.ConfirmOrder] at h5'
    rw [this] at h5'
    simp at h5'
  | success order s1 reservations s2 discount s3 payment s4 s5 h1 h2 h3 h4 h5 hfin hr =>
    have hs : (o.ExecuteOrderSaga (traced repoCollaborators) sagaID orderID userID
        items).1.services = s5 := congrArg Prod.fst hfin
    have l1 := traced_CreateOrder_log _ _ _ _ _ _ h1
    have l2 := traced_ReserveItems_log _ _ _ _ _ _ h2
    have l3 := traced_ApplyDiscount_log _ _ _ _ _ _ _ h3
    have l4 := traced_ProcessPayment_log _ _ _ _ _ _ _ h4
    have l5 := traced_ConfirmOrder_log _ _ _ _ _ h5
    refine ⟨?_, by simp [hr]⟩
    intro record hmem e herr
    rw [hs] at hmem
    simp only [recordsSince, l1, l2, l3, l4, l5, List.append_assoc, List.drop_left, errOf,
      List.singleton_append, List.cons_append, List.nil_append, List.append_eq, List.mem_cons,
      List.mem_singleton, List.not_mem_nil, or_false] at hmem
    rcases hmem with rfl | rfl | rfl | rfl | rfl <;> simp at herr

/-- C8 holds of an actual run: the `ReserveItems` call of the run on `partialItems`
returned the insufficient-stock error, which is the error of the result. -/
theorem C8_error_surfaced_witness :
    ({ call := Call.ReserveItems "u" partialItems,
       err := some (SagaError.insufficientStock "product2" 1000 100) } : CallRecord ℚ) ∈
      recordsSince ([] : List (CallRecord ℚ))
        ((NewSagaOrchestrator (testServices, [])).ExecuteOrderSaga (traced repoCollaborators)
          "saga-2" "order-2" "user1" partialItems).1.services.2 ∧
    ((NewSagaOrchestrator (testServices, [])).ExecuteOrderSaga (traced repoCollaborators)
        "saga-2" "order-2" "user1" partialItems).2.Error =
      some (SagaError.insufficientStock "product2" 1000 100) :=
  ⟨by decide!,
    ((C8_error_surfaced (NewSagaOrchestrator (testServices, [])) "saga-2" "order-2" "user1"
      partialItems).1
      { call := Call.ReserveItems "u" partialItems,
        err := some (SagaError.insufficientStock "product2" 1000 100) }
      (by decide!) _ rfl).1⟩

end ErrorSurfaced

/-! ## Stock and reservations -/

section Arithmetic

theorem wrapInt_emod (x : Int) :
    wrapInt x % 18446744073709551616 = x % 18446744073709551616 := by
  unfold wrapInt; omega

theorem wrapInt_inRange (x : Int) : InIntRange (wrapInt x) := by
  unfold wrapInt InIntRange; omega

theorem eq_of_emod_eq (a b : Int) (ha : InIntRange a) (hb : InIntRange b)
    (h : a % 18446744073709551616 = b % 18446744073709551616) : a = b := by
  unfold InIntRange at ha hb; omega

end Arithmetic

section MapMembership
variable {V : Type}

theorem mapGet_mem (m : List (String × V)) (k : String) (v : V) (h : mapGet m k = some v) :
    (k, v) ∈ m := by
  induction m with
  | nil => simp [mapGet] at h
  | cons e rest ih =>
    obtain ⟨k', v'⟩ := e
    by_cases hk : k' = k
    · subst hk
      simp only [mapGet, if_true, Option.some.injEq] at h
      subst h
      exact List.mem_cons_self _ _
    · simp only [mapGet, hk, if_false] at h
      exact List.mem_cons_of_mem _ (ih h)

theorem mem_mapSet (m : List (String × V)) (k : String) (v : V) (e : String × V)
    (h : e ∈ mapSet m k v) : e ∈ m ∨ e = (k, v) := by
  induction m with
  | nil => simpa [mapSet] using h
  | cons e' rest ih =>
    obtain ⟨k', v'⟩ := e'
    by_cases hk : k' = k
    · simp only [mapSet, hk, if_true, List.mem_cons] at h
      rcases h with h | h
      · exact Or.inr h
      · exact Or.inl (List.mem_cons_of_mem _ h)
    · simp only [mapSet, hk, if_false, List.mem_cons] at h
      rcases h with h | h
      · exact Or.inl (h ▸ List.mem_cons_self _ _)
      · rcases ih h with h' | h'
        · exact Or.inl (List.mem_cons_of_mem _ h')
        · exact Or.inr h'

theorem mapGet_mapSet_isSome (m : List (String × V)) (k k' : String) (v : V)
    (hk : (mapGet m k).isSome = true) :
    (mapGet (mapSet m k v) k').isSome = (mapGet m k').isSome := by
  by_cases h : k' = k
  · subst h; simp [mapGet_mapSet_self, hk]
  · rw [mapGet_mapSet_ne _ _ _ _ h]

end MapMembership

section Stock
variable {F : Type}

theorem GetStock_eq_stockOf (s : InventoryService F) (productID : String) :
    s.GetStock productID = stockOf s.products productID := rfl

theorem stockOf_mapSet (products : List (String × Product F)) (k productID : String)
    (p : Product F) :
    stockOf (mapSet products k p) productID =
      if productID = k then p.Stock else stockOf products productID := by
  by_cases h : productID = k
  · subst h; simp [stockOf, mapGet_mapSet_self]
  · simp [stockOf, mapGet_mapSet_ne _ _ _ _ h, h]

theorem stockOf_inRange (products : List (String × Product F)) (productID : String)
    (h : ∀ e ∈ products, InIntRange e.2.Stock) : InIntRange (stockOf products productID) := by
  unfold stockOf
  cases hget : mapGet products productID with
  | none => simp [InIntRange]
  | some p => exact h _ (mapGet_mem _ _ _ hget)

theorem reservedQty_append (orderID productID : String)
    (r₁ r₂ : List (String × InventoryReservation)) :
    reservedQty orderID productID (r₁ ++ r₂) =
      reservedQty orderID productID r₁ + reservedQty orderID productID r₂ := by
  induction r₁ with
  | nil => simp [reservedQty]
  | cons e rest ih =>
    obtain ⟨k, r⟩ := e
    show reservedQty orderID productID ((k, r) :: (rest ++ r₂)) = _
    simp only [reservedQty]
    rw [ih]
    omega

theorem reservedQty_eq_zero (orderID productID : String)
    (rs : List (String × InventoryReservation)) (h : ∀ e ∈ rs, e.2.OrderID ≠ orderID) :
    reservedQty orderID productID rs = 0 := by
  induction rs with
  | nil => rfl
  | cons e rest ih =>
    obtain ⟨k, r⟩ := e
    have hr : r.OrderID ≠ orderID := h (k, r) (List.mem_cons_self _ _)
    simp [reservedQty, hr, ih (fun e he => h e (List.mem_cons_of_mem _ he))]

end Stock

/-! ## Conservation of stock plus reserved quantity -/

section Conservation
variable {F : Type}

/-- The reservation loop, whether it succeeds or stops at an error, conserves
for every product the stock plus the quantity reserved for the order (modulo
`2^64`), provided the identifiers it draws are fresh. -/
theorem reserveLoop_conserves (orderID : String) (items : List (OrderItem F))
    (s : InventoryService F) (u : UuidSource) (acc : List InventoryReservation)
    (hinj : ∀ i j, u.next ≤ i → u.next ≤ j → u.gen i = u.gen j → i = j)
    (hkeys : ∀ i, u.next ≤ i → ∀ e ∈ s.reservations, e.1 ≠ u.gen i)
    (hlive : ReservationsLive orderID s.products s.reservations)
    (hrange : ∀ e ∈ s.products, InIntRange e.2.Stock) :
    (∀ productID,
      (stockOf (reserveLoop orderID items s u acc).2.1.products productID +
          reservedQty orderID productID (reserveLoop orderID items s u acc).2.1.reservations) %
            18446744073709551616 =
        (stockOf s.products productID + reservedQty orderID productID s.reservations) %
          18446744073709551616) ∧
      ReservationsLive orderID (reserveLoop orderID items s u acc).2.1.products
        (reserveLoop orderID items s u acc).2.1.reservations ∧
      (∀ e ∈ (reserveLoop orderID items s u acc).2.1.products, InIntRange e.2.Stock) := by
  induction items generalizing s u acc with
  | nil => exact ⟨fun _ => rfl, hlive, hrange⟩
  | cons item rest ih =>
    cases hget : mapGet s.products item.ProductID with
    | none =>
      simp only [reserveLoop, hget]
      exact ⟨fun _ => trivial, hlive, hrange⟩
    | some product =>
      by_cases hlt : product.Stock < item.Quantity
      · simp only [reserveLoop, hget, hlt, if_true]
        exact ⟨fun _ => trivial, hlive, hrange⟩
      · simp only [reserveLoop, hget, hlt, if_false, UuidSource.New]
        have hfresh : ∀ e ∈ s.reservations, e.1 ≠ u.gen u.next :=
          hkeys u.next (Nat.le_refl _)
        have hset := mapSet_fresh s.reservations (u.gen u.next)
          ({ ID := u.gen u.next, OrderID := orderID, ProductID := item.ProductID,
             Quantity := item.Quantity, Status := ReservationStatus.Reserved } :
            InventoryReservation) hfresh
        have hsome : (mapGet s.products item.ProductID).isSome = true := by simp [hget]
        obtain ⟨h1, h2, h3⟩ := ih
          { s with
            products := mapSet s.products item.ProductID
              { product with Stock := wrapInt (product.Stock - item.Quantity) },
            reservations := mapSet s.reservations (u.gen u.next)
              { ID := u.gen u.next, OrderID := orderID, ProductID := item.ProductID,
                Quantity := item.Quantity, Status := ReservationStatus.Reserved } }
          { u with next := u.next + 1 }
          (acc ++ [{ ID := u.gen u.next, OrderID := orderID, ProductID := item.ProductID,
                     Quantity := item.Quantity, Status := ReservationStatus.Reserved }])
          (fun i j hi hj h => hinj i j (Nat.le_of_succ_le hi) (Nat.le_of_succ_le hj) h)
          (by
            intro i hi e he
            rw [hset] at he
            rcases List.mem_append.mp he with he | he
            · exact hkeys i (Nat.le_of_succ_le hi) e he
            · simp only [List.mem_singleton] at he
              subst he
              intro hgen
              have := hinj u.next i (Nat.le_refl _) (Nat.le_of_succ_le hi) hgen
              simp only at hi
              omega)
          (by
            intro e he hoid
            rw [hset] at he
            rcases List.mem_append.mp he with he | he
            · obtain ⟨hst, hp⟩ := hlive e he hoid
              exact ⟨hst, by rw [mapGet_mapSet_isSome _ _ _ _ hsome]; exact hp⟩
            · simp only [List.mem_singleton] at he
              subst he
              exact ⟨rfl, by simp [mapGet_mapSet_self]⟩)
          (by
            intro e he
            rcases mem_mapSet _ _ _ _ he with he | he
            · exact hrange e he
            · subst he
              exact wrapInt_inRange _)
        refine ⟨?_, h2, h3⟩
        intro productID
        rw [h1 productID]
        simp only [hset, reservedQty_append, reservedQty, stockOf_mapSet, true_and]
        have hstock : stockOf s.products item.ProductID = product.Stock := by
          simp [stockOf, hget]
        have hw := wrapInt_emod (product.Stock - item.Quantity)
        by_cases hp : productID = item.ProductID
        · subst hp
          simp only [if_true, hstock]
          omega
        · have hp' : ¬ item.ProductID = productID := fun h => hp h.symm
          simp only [hp, hp', if_false]
          omega

end Conservation

section Release
variable {F : Type}

/-- One round of the release loop on a `Reserved` reservation of the order. -/
theorem releaseLoop_cons_release (orderID k : String) (r : InventoryReservation)
    (rest : List (String × InventoryReservation)) (products : List (String × Product F))
    (p : Product F) (hr : r.OrderID = orderID ∧ r.Status = ReservationStatus.Reserved)
    (hp : mapGet products r.ProductID = some p) :
    releaseLoop orderID ((k, r) :: rest) products =
      ((releaseLoop orderID rest
          (mapSet products r.ProductID { p with Stock := wrapInt (p.Stock + r.Quantity) })).1,
        (k, { r with Status := ReservationStatus.Released }) ::
          (releaseLoop orderID rest
            (mapSet products r.ProductID
              { p with Stock := wrapInt (p.Stock + r.Quantity) })).2) := by
  rw [releaseLoop]
  simp only [hr, and_self, if_true, hp]

/-- One round of the release loop on any other reservation. -/
theorem releaseLoop_cons_skip (orderID k : String) (r : InventoryReservation)
    (rest : List (String × InventoryReservation)) (products : List (String × Product F))
    (hr : ¬(r.OrderID = orderID ∧ r.Status = ReservationStatus.Reserved)) :
    releaseLoop orderID ((k, r) :: rest) products =
      ((releaseLoop orderID rest products).1, (k, r) :: (releaseLoop orderID rest products).2) := by
  rw [releaseLoop]
  simp only [hr, if_false]

/-- The release loop adds to every stock the quantity reserved for the order
(modulo `2^64`) and leaves every reservation of the order `Released`. -/
theorem releaseLoop_conserves (orderID : String) (rs : List (String × InventoryReservation))
    (products : List (String × Product F))
    (hlive : ReservationsLive orderID products rs)
    (hrange : ∀ e ∈ products, InIntRange e.2.Stock) :
    (∀ productID,
      stockOf (releaseLoop orderID rs products).1 productID % 18446744073709551616 =
        (stockOf products productID + reservedQty orderID productID rs) %
          18446744073709551616) ∧
      (∀ e ∈ (releaseLoop orderID rs products).2, e.2.OrderID = orderID →
        e.2.Status = ReservationStatus.Released) ∧
      (∀ e ∈ (releaseLoop orderID rs products).1, InIntRange e.2.Stock) := by
  induction rs generalizing products with
  | nil =>
    refine ⟨fun productID => by simp [releaseLoop, reservedQty], ?_, hrange⟩
    intro e he
    simp [releaseLoop] at he
  | cons e rest ih =>
    obtain ⟨k, r⟩ := e
    have hrest : ∀ ps : List (String × Product F),
        (∀ pid, (mapGet ps pid).isSome = (mapGet products pid).isSome) →
        ReservationsLive orderID ps rest := by
      intro ps hps e he hoid
      obtain ⟨hst, hp⟩ := hlive e (List.mem_cons_of_mem _ he) hoid
      exact ⟨hst, by rw [hps]; exact hp⟩
    by_cases hr : r.OrderID = orderID ∧ r.Status = ReservationStatus.Reserved
    · obtain ⟨-, hsome⟩ := hlive (k, r) (List.mem_cons_self _ _) hr.1
      obtain ⟨p, hp⟩ := Option.isSome_iff_exists.mp hsome
      simp only at hp
      rw [releaseLoop_cons_release orderID k r rest products p hr hp]
      obtain ⟨h1, h2, h3⟩ := ih
        (mapSet products r.ProductID { p with Stock := wrapInt (p.Stock + r.Quantity) })
        (hrest _ (fun pid => mapGet_mapSet_isSome _ _ _ _ hsome))
        (by
          intro e he
          rcases mem_mapSet _ _ _ _ he with he | he
          · exact hrange e he
          · subst he
            exact wrapInt_inRange _)
      refine ⟨?_, ?_, h3⟩
      · intro productID
        simp only
        rw [h1 productID]
        simp only [reservedQty, stockOf_mapSet, hr, true_and]
        have hstock : stockOf products r.ProductID = p.Stock := by simp [stockOf, hp]
        have hw := wrapInt_emod (p.Stock + r.Quantity)
        by_cases hpid : productID = r.ProductID
        · subst hpid
          simp only [if_true, hstock]
          omega
        · have hpid' : ¬ r.ProductID = productID := fun h => hpid h.symm
          simp only [hpid, hpid', if_false]
          omega
      · intro e he hoid
        simp only [List.mem_cons] at he
        rcases he with he | he
        · subst he; rfl
        · exact h2 e he hoid
    · rw [releaseLoop_cons_skip orderID k r rest products hr]
      obtain ⟨h1, h2, h3⟩ := ih products (hrest _ (fun _ => rfl)) hrange
      refine ⟨?_, ?_, h3⟩
      · intro productID
        simp only
        rw [h1 productID]
        have hzero : (if r.OrderID = orderID ∧ r.Status = ReservationStatus.Reserved ∧
            r.ProductID = productID then r.Quantity else 0) = 0 := by
          rw [if_neg]
          intro h
          exact hr ⟨h.1, h.2.1⟩
        simp only [reservedQty, hzero]
        omega
      · intro e he hoid
        simp only [List.mem_cons] at he
        rcases he with he | he
        · subst he
          exact absurd ⟨hoid, (hlive (k, r) (List.mem_cons_self _ _) hoid).1⟩ hr
        · exact h2 e he hoid

end Release

section ReserveRelease
variable {F : Type}

theorem ReleaseItems_products (s : InventoryService F) (orderID : String) :
    (s.ReleaseItems orderID).2.products = (releaseLoop orderID s.reservations s.products).1 :=
  rfl

theorem ReleaseItems_reservations (s : InventoryService F) (orderID : String) :
    (s.ReleaseItems orderID).2.reservations =
      (releaseLoop orderID s.reservations s.products).2 := rfl

/-- Releasing the reservations of an order after `ReserveItems` for that order,
whether it succeeded or stopped at an error, restores every stock and leaves
every reservation of the order `Released`, provided the identifiers drawn are
fresh and the order had no reservation before. -/
theorem ReserveItems_ReleaseItems (s : InventoryService F) (u : UuidSource) (orderID : String)
    (items : List (OrderItem F))
    (hinj : ∀ i j, u.next ≤ i → u.next ≤ j → u.gen i = u.gen j → i = j)
    (hkeys : ∀ i, u.next ≤ i → ∀ e ∈ s.reservations, e.1 ≠ u.gen i)
    (hnew : ∀ e ∈ s.reservations, e.2.OrderID ≠ orderID)
    (hrange : StocksInRange s) :
    (∀ productID,
      ((s.ReserveItems u orderID items).2.1.ReleaseItems orderID).2.GetStock productID =
        s.GetStock productID) ∧
    ∀ e ∈ ((s.ReserveItems u orderID items).2.1.ReleaseItems orderID).2.reservations,
      e.2.OrderID = orderID → e.2.Status = ReservationStatus.Released := by
  have hlive : ReservationsLive orderID s.products s.reservations :=
    fun e he hoid => absurd hoid (hnew e he)
  have hzero : ∀ productID, reservedQty orderID productID s.reservations = 0 :=
    fun productID => reservedQty_eq_zero _ _ _ hnew
  have key : ∀ s2 : InventoryService F,
      (∀ productID,
        (stockOf s2.products productID + reservedQty orderID productID s2.reservations) %
            18446744073709551616 =
          (stockOf s.products productID + reservedQty orderID productID s.reservations) %
            18446744073709551616) →
      ReservationsLive orderID s2.products s2.reservations →
      (∀ e ∈ s2.products, InIntRange e.2.Stock) →
      (∀ productID, (s2.ReleaseItems orderID).2.GetStock productID = s.GetStock productID) ∧
        ∀ e ∈ (s2.ReleaseItems orderID).2.reservations,
          e.2.OrderID = orderID → e.2.Status = ReservationStatus.Released := by
    intro s2 h1 h2 h3
    obtain ⟨r1, r2, r3⟩ := releaseLoop_conserves orderID s2.reservations s2.products h2 h3
    refine ⟨?_, by rw [ReleaseItems_reservations]; exact r2⟩
    intro productID
    rw [GetStock_eq_stockOf, GetStock_eq_stockOf, ReleaseItems_products]
    apply eq_of_emod_eq _ _ (stockOf_inRange _ _ r3) (stockOf_inRange _ _ hrange)
    rw [r1 productID, h1 productID, hzero productID]
    simp
  unfold InventoryService.ReserveItems
  by_cases hfail : s.shouldFail = true
  · simp only [hfail, if_true]
    exact key s (fun _ => rfl) hlive hrange
  · simp only [hfail, if_false]
    obtain ⟨c1, c2, c3⟩ := reserveLoop_conserves orderID items s u [] hinj hkeys hlive hrange
    exact key _ c1 c2 c3

/-- The state after rolling back the compensations registered before
process_payment, with the repository's services. -/
theorem rollback_afterDiscount_repo [Float64Ops F] (orderID : String)
    (discount : Option (Discount F)) (s : Services F) (out : List (String × SagaError F)) :
    (rollback (compensationsAfterDiscount repoCollaborators orderID discount) s
        out).1.inventoryService = (s.inventoryService.ReleaseItems orderID).2 ∧
      (rollback (compensationsAfterDiscount repoCollaborators orderID discount) s
        out).1.orderService = (s.orderService.CancelOrder orderID).2 ∧
      (rollback (compensationsAfterDiscount repoCollaborators orderID discount) s
        out).1.discountService =
        match discount with
        | some d => (s.discountService.RemoveDiscount d.ID).2
        | none => s.discountService := by
  cases discount <;>
    simp [rollback_fst, compensationsAfterDiscount, cancelOrderAction, releaseInventoryAction,
      removeDiscountAction, repo_CancelOrder, repo_ReleaseItems, repo_RemoveDiscount]

end ReserveRelease

/-! ## Payment failure undoes the forward effects -/

section PaymentFailureUndone
variable {F : Type}

/-- C4: for every run of `ExecuteOrderSaga` with the repository's services that
fails at process_payment, with fresh identifiers and stocks that are values of
`int`: the stock of every product equals its stock before the saga, every
reservation of the saga's order is `Released`, the order is stored with status
`Cancelled`, and the discount created for the order, if any, is no longer
stored in the Discount service. -/
theorem C4_payment_failure_undone [Float64Ops F] (o : SagaOrchestrator F (Services F))
    (sagaID orderID userID : String) (items : List (OrderItem F))
    (hfail :
      failingStep (o.ExecuteOrderSaga repoCollaborators sagaID orderID userID items).2.Execution
        = some "process_payment")
    (hfresh : UuidFresh o.services)
    (hrange : StocksInRange o.services.inventoryService) :
    (∀ productID,
      (o.ExecuteOrderSaga repoCollaborators sagaID orderID userID
          items).1.services.inventoryService.GetStock productID =
        o.services.inventoryService.GetStock productID) ∧
    (∀ e ∈ (o.ExecuteOrderSaga repoCollaborators sagaID orderID userID
          items).1.services.inventoryService.reservations,
      e.2.OrderID =
          (o.ExecuteOrderSaga repoCollaborators sagaID orderID userID items).2.Execution.OrderID →
        e.2.Status = ReservationStatus.Released) ∧
    (∃ order,
      (o.ExecuteOrderSaga repoCollaborators sagaID orderID userID items).1.GetOrder
          (o.ExecuteOrderSaga repoCollaborators sagaID orderID userID items).2.Execution.OrderID =
        .ok order ∧
      order.Status = OrderStatus.Cancelled) ∧
    ∀ d,
      (o.ExecuteOrderSaga repoCollaborators sagaID orderID userID items).2.Execution.Steps[2]?.map
          (fun step => step.Result) = some (StepResult.discount (some d)) →
        (o.ExecuteOrderSaga repoCollaborators sagaID orderID userID
            items).1.services.discountService.GetDiscount d.ID =
          .error (SagaError.discountNotFound d.ID) := by
  cases ExecuteOrderSaga_run repoCollaborators o sagaID orderID userID items with
  | failCreate err s1 h1 hfin hr =>
    simp [hr, failedResult, failingStep, failedStep] at hfail
  | failReserve order s1 err s2 h1 h2 hfin hr =>
    simp [hr, failedResult, failingStep, failedStep] at hfail
  | failDiscount order s1 reservations s2 err s3 h1 h2 h3 hfin hr =>
    simp [hr, failedResult, failingStep, failedStep] at hfail
  | failPayment order s1 reservations s2 discount s3 err s4 h1 h2 h3 h4 hfin hr =>
    have hs : (o.ExecuteOrderSaga repoCollaborators sagaID orderID userID items).1.services =
        (rollback (compensationsAfterDiscount repoCollaborators order.ID discount) s4
          o.stdout).1 := congrArg Prod.fst hfin
    obtain ⟨rInv, rOrd, rDisc⟩ :=
      rollback_afterDiscount_repo order.ID discount s4 o.stdout
    obtain ⟨horder1, hid, huuid, i1, d1, -⟩ := repo_CreateOrder_facts _ _ _ _ _ h1
    have f2 := repo_ReserveItems_frame _ _ _ _ _ h2
    have f3 := repo_ApplyDiscount_frame _ _ _ _ _ _ h3
    have f4 := repo_ProcessPayment_frame _ _ _ _ _ _ h4
    have horder : mapGet s4.orderService.orders order.ID = some order := by
      rw [f4.1, f3.1, f2.1]; exact horder1
    have hinv : s4.inventoryService =
        (o.services.inventoryService.ReserveItems s1.uuid order.ID items).2.1 := by
      rw [f4.2.2, f3.2.2, ← i1]
      rw [repo_ReserveItems] at h2
      exact (congrArg (fun p => p.2.inventoryService) h2).symm
    obtain ⟨hinj, hkeys⟩ := hfresh
    have hrestore := ReserveItems_ReleaseItems o.services.inventoryService s1.uuid order.ID items
      (by
        rw [huuid]
        intro i j hi hj h
        exact hinj i j (Nat.le_of_succ_le hi) (Nat.le_of_succ_le hj) h)
      (by
        rw [huuid]
        intro i hi e he
        exact (hkeys i (Nat.le_of_succ_le hi) e he).1)
      (by
        intro e he
        rw [hid]
        exact (hkeys _ (Nat.le_refl _) e he).2)
      hrange
    rw [← hinv] at hrestore
    refine ⟨?_, ?_, ?_, ?_⟩
    · intro productID
      rw [hs, rInv]
      exact hrestore.1 productID
    · intro e he hoid
      rw [hs, rInv] at he
      rw [hr] at hoid
      exact hrestore.2 e he hoid
    · refine ⟨{ order with Status := OrderStatus.Cancelled }, ?_, rfl⟩
      simp only [SagaOrchestrator.GetOrder, hs, rOrd, hr, failedResult, OrderService.GetOrder,
        OrderService.CancelOrder]
      rw [(setStatus_found _ _ OrderStatus.Cancelled _ horder).2]
    · intro d hd
      have hdisc : discount = some d := by
        simpa [hr, failedResult, doneStep] using hd
      subst hdisc
      have hstored : mapGet s4.discountService.discounts d.ID = some d := by
        rw [f4.2.1]
        rw [repo_ApplyDiscount] at h3
        have hres := congrArg Prod.fst h3
        have hst := congrArg (fun p => p.2.discountService) h3
        simp only at hres hst
        rw [← hst]
        exact ApplyDiscount_stored _ _ _ _ _ _ hres
      rw [hs, rDisc]
      simp only [DiscountService.GetDiscount]
      rw [(RemoveDiscount_found _ _ _ hstored).2]
  | failConfirm order s1 reservations s2 discount s3 payment s4 err s5 h1 h2 h3 h4 h5 hfin hr =>
    simp [hr, failedResult, failingStep, failedStep] at hfail
  | success order s1 reservations s2 discount s3 payment s4 s5 h1 h2 h3 h4 h5 hfin hr =>
    simp [hr, failingStep, doneStep] at hfail

/-- The identifiers of `exampleUuid` are pairwise distinct. -/
theorem exampleUuid_injective (i j : Nat) (h : exampleUuid.gen i = exampleUuid.gen j) :
    i = j := by
  have hlen := congrArg String.length h
  simpa [exampleUuid, String.length] using hlen

/-- C4 holds of an actual run: the run of `TestSagaOrchestrator_CompensationOrder`
fails at process_payment, and the stock of product1 is 100 before and after. -/
theorem C4_payment_failure_undone_witness :
    failingStep ((NewSagaOrchestrator failingBillingServices).ExecuteOrderSaga repoCollaborators
        "saga-6" "order-6" "user1" oneItem).2.Execution = some "process_payment" ∧
    UuidFresh failingBillingServices ∧
    StocksInRange failingBillingServices.inventoryService ∧
    ((NewSagaOrchestrator failingBillingServices).ExecuteOrderSaga repoCollaborators
        "saga-6" "order-6" "user1" oneItem).1.services.inventoryService.GetStock "product1" =
      failingBillingServices.inventoryService.GetStock "product1" ∧
    failingBillingServices.inventoryService.GetStock "product1" = 100 :=
  have hfresh : UuidFresh failingBillingServices :=
    ⟨fun i j _ _ h => exampleUuid_injective i j h, fun _ _ e he => by
      simp [failingBillingServices, NewInventoryService, InventoryService.SetStock, mapGet] at he⟩
  have hrange : StocksInRange failingBillingServices.inventoryService := by
    intro e he
    simp [failingBillingServices, NewInventoryService, InventoryService.SetStock, mapGet,
      mapSet] at he
    subst he
    simp [InIntRange]
  ⟨by decide!, hfresh, hrange,
    (C4_payment_failure_undone (NewSagaOrchestrator failingBillingServices)
      "saga-6" "order-6" "user1" oneItem (by decide!) hfresh hrange).1 "product1",
    by decide!⟩

end PaymentFailureUndone

/-! ## Recording calls does not change the run -/

section Adequacy
variable {F σ : Type}

/-- The compensations of the recording collaborators act on the service state and
print as the compensations of the collaborators themselves. -/
theorem foldl_invoke_traced (actions : List (CompensationAction F σ))
    (actions' : List (CompensationAction F (σ × List (CallRecord F))))
    (hrel : List.Forall₂ SameAction actions actions')
    (s : σ) (log : List (CallRecord F)) (out : List (String × SagaError F)) :
    ((actions'.foldl invoke ((s, log), out)).1.1, (actions'.foldl invoke ((s, log), out)).2) =
      actions.foldl invoke (s, out) := by
  induction hrel generalizing s log out with
  | nil => rfl
  | @cons a a' rest rest' h _ ih =>
    obtain ⟨hname, hact⟩ := h
    obtain ⟨h1, h2⟩ := hact (s, log)
    simp only [List.foldl_cons]
    have hstep : invoke ((s, log), out) a' =
        (((invoke (s, out) a).1, (a'.Action (s, log)).2.2), (invoke (s, out) a).2) := by
      simp only [invoke]
      rcases hres : a.Action s with ⟨_ | err, s'⟩
      · rcases hres' : a'.Action (s, log) with ⟨e', s'', log'⟩
        simp only [hres, hres'] at h1 h2
        subst h1 h2
        rfl
      · rcases hres' : a'.Action (s, log) with ⟨e', s'', log'⟩
        simp only [hres, hres'] at h1 h2
        subst h1 h2
        simp [hname]
    rw [hstep]
    exact ih _ _ _

end Adequacy

section Determinism
variable {F σ : Type}

/-- A run is determined by the collaborators and the initial state. -/
theorem Run_unique [Float64Ops F] (c : Collaborators F σ) (s0 : σ)
    (out0 : List (String × SagaError F)) (sagaID orderID userID : String)
    (items : List (OrderItem F)) (fin fin' : σ × List (String × SagaError F))
    (r r' : SagaResult F σ)
    (h : Run c s0 out0 sagaID orderID userID items fin r)
    (h' : Run c s0 out0 sagaID orderID userID items fin' r') : fin = fin' ∧ r = r' := by
  cases h <;> cases h' <;> simp_all

end Determinism

section AdequacyRun
variable {F σ : Type}

/-- A rollback with recording collaborators acts on the service state and prints
as the rollback with the collaborators themselves. -/
theorem rollback_traced (actions : List (CompensationAction F σ))
    (actions' : List (CompensationAction F (σ × List (CallRecord F))))
    (hrel : List.Forall₂ SameAction actions actions')
    (s : σ × List (CallRecord F)) (out : List (String × SagaError F)) :
    ((rollback actions' s out).1.1, (rollback actions' s out).2) = rollback actions s.1 out := by
  rw [rollback_eq_foldl, rollback_eq_foldl]
  exact foldl_invoke_traced _ _ (List.forall₂_reverse_iff.mpr hrel) s.1 s.2 out

theorem sameAction_cancelOrder (c : Collaborators F σ) (orderID : String) :
    SameAction (cancelOrderAction c orderID) (cancelOrderAction (traced c) orderID) :=
  ⟨rfl, fun _ => ⟨rfl, rfl⟩⟩

theorem sameAction_releaseInventory (c : Collaborators F σ) (orderID : String) :
    SameAction (releaseInventoryAction c orderID) (releaseInventoryAction (traced c) orderID) :=
  ⟨rfl, fun _ => ⟨rfl, rfl⟩⟩

theorem sameAction_removeDiscount (c : Collaborators F σ) (discountID : String) :
    SameAction (removeDiscountAction c discountID) (removeDiscountAction (traced c) discountID) :=
  ⟨rfl, fun _ => ⟨rfl, rfl⟩⟩

theorem sameAction_refundPayment (c : Collaborators F σ) (orderID : String) :
    SameAction (refundPaymentAction c orderID) (refundPaymentAction (traced c) orderID) :=
  ⟨rfl, fun _ => ⟨rfl, rfl⟩⟩

theorem sameAction_afterDiscount (c : Collaborators F σ) (orderID : String)
    (discount : Option (Discount F)) :
    List.Forall₂ SameAction (compensationsAfterDiscount c orderID discount)
      (compensationsAfterDiscount (traced c) orderID discount) := by
  cases discount
  · exact .cons (sameAction_cancelOrder c orderID)
      (.cons (sameAction_releaseInventory c orderID) .nil)
  · exact .cons (sameAction_cancelOrder c orderID)
      (.cons (sameAction_releaseInventory c orderID)
        (.cons (sameAction_removeDiscount c _) .nil))

/-- Recording the calls changes neither the result of `ExecuteOrderSaga` nor the
service state and standard output it leaves: the run with the recording
collaborators and the run with the collaborators themselves agree. -/
theorem ExecuteOrderSaga_traced [Float64Ops F] (c : Collaborators F σ)
    (o : SagaOrchestrator F σ) (o' : SagaOrchestrator F (σ × List (CallRecord F)))
    (hservices : o'.services.1 = o.services) (hstdout : o'.stdout = o.stdout)
    (sagaID orderID userID : String) (items : List (OrderItem F)) :
    (o'.ExecuteOrderSaga (traced c) sagaID orderID userID items).1.services.1 =
        (o.ExecuteOrderSaga c sagaID orderID userID items).1.services ∧
      (o'.ExecuteOrderSaga (traced c) sagaID orderID userID items).1.stdout =
        (o.ExecuteOrderSaga c sagaID orderID userID items).1.stdout ∧
      (o'.ExecuteOrderSaga (traced c) sagaID orderID userID items).2.Success =
        (o.ExecuteOrderSaga c sagaID orderID userID items).2.Success ∧
      (o'.ExecuteOrderSaga (traced c) sagaID orderID userID items).2.Error =
        (o.ExecuteOrderSaga c sagaID orderID userID items).2.Error ∧
      (o'.ExecuteOrderSaga (traced c) sagaID orderID userID items).2.Execution.summary =
        (o.ExecuteOrderSaga c sagaID orderID userID items).2.Execution.summary := by
  have hplain := ExecuteOrderSaga_run c o sagaID orderID userID items
  have key : ∀ (fin : σ × List (String × SagaError F)) (r : SagaResult F σ),
      Run c o.services o.stdout sagaID orderID userID items fin r →
      fin = ((o.ExecuteOrderSaga c sagaID orderID userID items).1.services,
          (o.ExecuteOrderSaga c sagaID orderID userID items).1.stdout) ∧
        r = (o.ExecuteOrderSaga c sagaID orderID userID items).2 :=
    fun fin r h => Run_unique c _ _ _ _ _ _ _ _ _ _ h hplain
  cases ExecuteOrderSaga_run (traced c) o' sagaID orderID userID items with
  | failCreate err s1 h1 hfin hr =>
    have h1' := traced_CreateOrder_fst _ _ _ _ _ _ h1
    rw [hservices] at h1'
    obtain ⟨kfin, kr⟩ := key _ _ (Run.failCreate err s1.1 h1' rfl rfl)
    have e1 := congrArg Prod.fst kfin
    have e2 := congrArg Prod.snd kfin
    have f1 := congrArg (fun p => p.1.1) hfin
    have f2 := congrArg Prod.snd hfin
    simp only at e1 e2 f1 f2
    rw [hr, ← kr, f1, f2, ← e1, ← e2, hstdout]
    simp [failedResult, SagaExecution.summary]
  | failReserve order s1 err s2 h1 h2 hfin hr =>
    have h1' := traced_CreateOrder_fst _ _ _ _ _ _ h1
    have h2' := traced_ReserveItems_fst _ _ _ _ _ _ h2
    rw [hservices] at h1'
    obtain ⟨kfin, kr⟩ := key _ _ (Run.failReserve order s1.1 err s2.1 h1' h2' rfl rfl)
    have hroll := rollback_traced [cancelOrderAction c order.ID]
      [cancelOrderAction (traced c) order.ID]
      (.cons (sameAction_cancelOrder c order.ID) .nil) s2 o.stdout
    have e1 := congrArg Prod.fst kfin
    have e2 := congrArg Prod.snd kfin
    have f1 := congrArg (fun p => p.1.1) hfin
    have f2 := congrArg Prod.snd hfin
    have g1 := congrArg Prod.fst hroll
    have g2 := congrArg Prod.snd hroll
    simp only [hstdout] at e1 e2 f1 f2 g1 g2
    rw [hr, ← kr, f1, f2, ← e1, ← e2, g1, g2]
    simp [failedResult, SagaExecution.summary, cancelOrderAction]
  | failDiscount order s1 reservations s2 err s3 h1 h2 h3 hfin hr =>
    have h1' := traced_CreateOrder_fst _ _ _ _ _ _ h1
    have h2' := traced_ReserveItems_fst _ _ _ _ _ _ h2
    have h3' := traced_ApplyDiscount_fst _ _ _ _ _ _ _ h3
    rw [hservices] at h1'
    obtain ⟨kfin, kr⟩ := key _ _
      (Run.failDiscount order s1.1 reservations s2.1 err s3.1 h1' h2' h3' rfl rfl)
    have hroll := rollback_traced
      [cancelOrderAction c order.ID, releaseInventoryAction c order.ID]
      [cancelOrderAction (traced c) order.ID, releaseInventoryAction (traced c) order.ID]
      (.cons (sameAction_cancelOrder c order.ID)
        (.cons (sameAction_releaseInventory c order.ID) .nil)) s3 o.stdout
    have e1 := congrArg Prod.fst kfin
    have e2 := congrArg Prod.snd kfin
    have f1 := congrArg (fun p => p.1.1) hfin
    have f2 := congrArg Prod.snd hfin
    have g1 := congrArg Prod.fst hroll
    have g2 := congrArg Prod.snd hroll
    simp only [hstdout] at e1 e2 f1 f2 g1 g2
    rw [hr, ← kr, f1, f2, ← e1, ← e2, g1, g2]
    simp [failedResult, SagaExecution.summary, cancelOrderAction, releaseInventoryAction]
  | failPayment order s1 reservations s2 discount s3 err s4 h1 h2 h3 h4 hfin hr =>
    have h1' := traced_CreateOrder_fst _ _ _ _ _ _ h1
    have h2' := traced_ReserveItems_fst _ _ _ _ _ _ h2
    have h3' := traced_ApplyDiscount_fst _ _ _ _ _ _ _ h3
    have h4' := traced_ProcessPayment_fst _ _ _ _ _ _ _ h4
    rw [hservices] at h1'
    obtain ⟨kfin, kr⟩ := key _ _
      (Run.failPayment order s1.1 reservations s2.1 discount s3.1 err s4.1 h1' h2' h3' h4'
        rfl rfl)
    have hroll := rollback_traced _ _ (sameAction_afterDiscount c order.ID discount) s4 o.stdout
    have e1 := congrArg Prod.fst kfin
    have e2 := congrArg Prod.snd kfin
    have f1 := congrArg (fun p => p.1.1) hfin
    have f2 := congrArg Prod.snd hfin
    have g1 := congrArg Prod.fst hroll
    have g2 := congrArg Prod.snd hroll
    simp only [hstdout] at e1 e2 f1 f2 g1 g2
    rw [hr, ← kr, f1, f2, ← e1, ← e2, g1, g2]
    cases discount <;>
      simp [failedResult, SagaExecution.summary, compensationsAfterDiscount, cancelOrderAction,
        releaseInventoryAction, removeDiscountAction]
  | failConfirm order s1 reservations s2 discount s3 payment s4 err s5 h1 h2 h3 h4 h5 hfin hr =>
    have h1' := traced_CreateOrder_fst _ _ _ _ _ _ h1
    have h2' := traced_ReserveItems_fst _ _ _ _ _ _ h2
    have h3' := traced_ApplyDiscount_fst _ _ _ _ _ _ _ h3
    have h4' := traced_ProcessPayment_fst _ _ _ _ _ _ _ h4
    have h5' := traced_ConfirmOrder_fst _ _ _ _ _ h5
    rw [hservices] at h1'
    obtain ⟨kfin, kr⟩ := key _ _
      (Run.failConfirm order s1.1 reservations s2.1 discount s3.1 payment s4.1 err s5.1
        h1' h2' h3' h4' h5' rfl rfl)
    have hrel : List.Forall₂ SameAction
        (compensationsAfterDiscount c order.ID discount ++ [refundPaymentAction c order.ID])
        (compensationsAfterDiscount (traced c) order.ID discount ++
          [refundPaymentAction (traced c) order.ID]) :=
      List.rel_append (sameAction_afterDiscount c order.ID discount)
        (.cons (sameAction_refundPayment c order.ID) .nil)
    have hroll := rollback_traced _ _ hrel s5 o.stdout
    have e1 := congrArg Prod.fst kfin
    have e2 := congrArg Prod.snd kfin
    have f1 := congrArg (fun p => p.1.1) hfin
    have f2 := congrArg Prod.snd hfin
    have g1 := congrArg Prod.fst hroll
    have g2 := congrArg Prod.snd hroll
    simp only [hstdout] at e1 e2 f1 f2 g1 g2
    rw [hr, ← kr, f1, f2, ← e1, ← e2, g1, g2]
    cases discount <;>
      simp [failedResult, SagaExecution.summary, compensationsAfterDiscount, cancelOrderAction,
        releaseInventoryAction, removeDiscountAction, refundPaymentAction]
  | success order s1 reservations s2 discount s3 payment s4 s5 h1 h2 h3 h4 h5 hfin hr =>
    have h1' := traced_CreateOrder_fst _ _ _ _ _ _ h1
    have h2' := traced_ReserveItems_fst _ _ _ _ _ _ h2
    have h3' := traced_ApplyDiscount_fst _ _ _ _ _ _ _ h3
    have h4' := traced_ProcessPayment_fst _ _ _ _ _ _ _ h4
    have h5' := traced_ConfirmOrder_fst _ _ _ _ _ h5
    rw [hservices] at h1'
    obtain ⟨kfin, kr⟩ := key _ _
      (Run.success order s1.1 reservations s2.1 discount s3.1 payment s4.1 s5.1
        h1' h2' h3' h4' h5' rfl rfl)
    have e1 := congrArg Prod.fst kfin
    have e2 := congrArg Prod.snd kfin
    have f1 := congrArg (fun p => p.1.1) hfin
    have f2 := congrArg Prod.snd hfin
    simp only [hstdout] at e1 e2 f1 f2
    rw [hr, ← kr, f1, f2, ← e1, ← e2]
    cases discount <;>
      simp [SagaExecution.summary, compensationsAfterDiscount, cancelOrderAction,
        releaseInventoryAction, removeDiscountAction, refundPaymentAction]

end AdequacyRun

/-! ## Step records and registered compensations -/

section Records
variable {F σ : Type}

/-- C12: for every run of `ExecuteOrderSaga`, whatever the collaborators, the
names of the returned steps are a non-empty prefix, of length 1 to 5, of
create_order, reserve_inventory, apply_discount, process_payment,
confirm_order; every step but the last is `Completed`; and the last step is
`Failed` exactly when the saga did not succeed (it is `Completed` otherwise). -/
theorem C12_step_records [Float64Ops F] (c : Collaborators F σ) (o : SagaOrchestrator F σ)
    (sagaID orderID userID : String) (items : List (OrderItem F)) :
    (o.ExecuteOrderSaga c sagaID orderID userID items).2.Execution.Steps.map
        (fun step => step.Name) =
      stepNames.take (o.ExecuteOrderSaga c sagaID orderID userID items).2.Execution.Steps.length ∧
    1 ≤ (o.ExecuteOrderSaga c sagaID orderID userID items).2.Execution.Steps.length ∧
    (o.ExecuteOrderSaga c sagaID orderID userID items).2.Execution.Steps.length ≤ 5 ∧
    (∀ step ∈ (o.ExecuteOrderSaga c sagaID orderID userID items).2.Execution.Steps.dropLast,
      step.Status = StepStatus.Completed) ∧
    ((o.ExecuteOrderSaga c sagaID orderID userID items).2.Execution.Steps.getLast?.map
        (fun step => step.Status) = some StepStatus.Failed ↔
      (o.ExecuteOrderSaga c sagaID orderID userID items).2.Success = false) ∧
    ((o.ExecuteOrderSaga c sagaID orderID userID items).2.Execution.Steps.getLast?.map
        (fun step => step.Status) = some StepStatus.Completed ↔
      (o.ExecuteOrderSaga c sagaID orderID userID items).2.Success = true) := by
  cases ExecuteOrderSaga_run c o sagaID orderID userID items with
  | failCreate err s1 h1 hfin hr =>
    simp [hr, failedResult, failedStep, doneStep, stepNames]
  | failReserve order s1 err s2 h1 h2 hfin hr =>
    simp [hr, failedResult, failedStep, doneStep, stepNames]
  | failDiscount order s1 reservations s2 err s3 h1 h2 h3 hfin hr =>
    simp [hr, failedResult, failedStep, doneStep, stepNames]
  | failPayment order s1 reservations s2 discount s3 err s4 h1 h2 h3 h4 hfin hr =>
    simp [hr, failedResult, failedStep, doneStep, stepNames]
  | failConfirm order s1 reservations s2 discount s3 payment s4 err s5 h1 h2 h3 h4 h5 hfin hr =>
    simp [hr, failedResult, failedStep, doneStep, stepNames]
  | success order s1 reservations s2 discount s3 payment s4 s5 h1 h2 h3 h4 h5 hfin hr =>
    simp [hr, doneStep, stepNames]

/-- C13: for every run of `ExecuteOrderSaga`, whatever the collaborators, the
names of the returned compensations are, in this order: cancel_order when
create_order completed, release_inventory when reserve_inventory completed,
remove_discount exactly when apply_discount completed with a non-null
discount, refund_payment exactly when process_payment completed; nothing else,
so nothing for confirm_order or for a step that failed. -/
theorem C13_compensations_registered [Float64Ops F] (c : Collaborators F σ)
    (o : SagaOrchestrator F σ) (sagaID orderID userID : String) (items : List (OrderItem F)) :
    (o.ExecuteOrderSaga c sagaID orderID userID items).2.Execution.Compensations.map
        (fun compensation => compensation.Name) =
      expectedCompensations (o.ExecuteOrderSaga c sagaID orderID userID items).2.Execution.Steps := by
  cases ExecuteOrderSaga_run c o sagaID orderID userID items with
  | failCreate err s1 h1 hfin hr =>
    simp [hr, failedResult, failedStep, doneStep, expectedCompensations, stepCompleted,
      discountGranted]
  | failReserve order s1 err s2 h1 h2 hfin hr =>
    simp [hr, failedResult, failedStep, doneStep, expectedCompensations, stepCompleted,
      discountGranted, cancelOrderAction]
  | failDiscount order s1 reservations s2 err s3 h1 h2 h3 hfin hr =>
    simp [hr, failedResult, failedStep, doneStep, expectedCompensations, stepCompleted,
      discountGranted, cancelOrderAction, releaseInventoryAction]
  | failPayment order s1 reservations s2 discount s3 err s4 h1 h2 h3 h4 hfin hr =>
    cases discount <;>
      simp [hr, failedResult, failedStep, doneStep, expectedCompensations, stepCompleted,
        discountGranted, compensationsAfterDiscount, cancelOrderAction, releaseInventoryAction,
        removeDiscountAction]
  | failConfirm order s1 reservations s2 discount s3 payment s4 err s5 h1 h2 h3 h4 h5 hfin hr =>
    cases discount <;>
      simp [hr, failedResult, failedStep, doneStep, expectedCompensations, stepCompleted,
        discountGranted, compensationsAfterDiscount, cancelOrderAction, releaseInventoryAction,
        removeDiscountAction, refundPaymentAction]
  | success order s1 reservations s2 discount s3 payment s4 s5 h1 h2 h3 h4 h5 hfin hr =>
    cases discount <;>
      simp [hr, doneStep, expectedCompensations, stepCompleted, discountGranted,
        compensationsAfterDiscount, cancelOrderAction, releaseInventoryAction,
        removeDiscountAction, refundPaymentAction]

end Records

/-! ## `CreateOrder` -/

section CreateOrderFacts

/-- Over the rationals the total of the order loop is the sum of price times quantity. -/
theorem orderTotal_eq_sum (items : List (OrderItem ℚ)) :
    orderTotal items = (items.map (fun item => item.Price * (item.Quantity : ℚ))).sum := by
  have h : ∀ (items : List (OrderItem ℚ)) (acc : ℚ),
      items.foldl (fun total item =>
          Float64Ops.add total (Float64Ops.mul item.Price (Float64Ops.ofInt item.Quantity))) acc =
        acc + (items.map (fun item => item.Price * (item.Quantity : ℚ))).sum := by
    intro items
    induction items with
    | nil => intro acc; simp
    | cons item rest ih =>
      intro acc
      rw [List.foldl_cons, ih]
      simp only [List.map_cons, List.sum_cons]
      show acc + item.Price * (item.Quantity : ℚ) + _ = _
      ring
  have h0 := h items 0
  simpa [orderTotal] using h0

/-- C20: for every user ID and every item list, `CreateOrder` returns no error
and an order with the given user ID and items, status `Pending` and total the
sum of price times quantity accumulated over the items in order (the zero value
for the empty list; over the rationals, the sum `Σ price × quantity`), and a
following `GetOrder` with the returned ID returns that order. -/
theorem C20_CreateOrder {F : Type} [Float64Ops F] (s : OrderService F) (u : UuidSource)
    (userID : String) (items : List (OrderItem F)) :
    (∃ order,
      (s.CreateOrder u userID items).1 = .ok order ∧
      order.UserID = userID ∧
      order.Items = items ∧
      order.Status = OrderStatus.Pending ∧
      order.Total = orderTotal items ∧
      (s.CreateOrder u userID items).2.1.GetOrder order.ID = .ok order) ∧
    orderTotal ([] : List (OrderItem F)) = Float64Ops.zero ∧
    ∀ rationalItems : List (OrderItem ℚ),
      orderTotal rationalItems =
        (rationalItems.map (fun item => item.Price * (item.Quantity : ℚ))).sum := by
  refine ⟨⟨_, rfl, rfl, rfl, rfl, rfl, ?_⟩, rfl, orderTotal_eq_sum⟩
  simp [OrderService.CreateOrder, UuidSource.New, OrderService.GetOrder, mapGet_mapSet_self]

end CreateOrderFacts

/-! ## The registry -/

section Registry
variable {F σ : Type}

theorem mapGet_mapSet {V : Type} (m : List (String × V)) (k k' : String) (v : V) :
    mapGet (mapSet m k v) k' = if k' = k then some v else mapGet m k' := by
  by_cases h : k' = k
  · subst h; simp [mapGet_mapSet_self]
  · simp [h, mapGet_mapSet_ne _ _ _ _ h]

theorem compensate_sagas (o : SagaOrchestrator F σ) (execution : SagaExecution F σ) :
    (o.compensate execution).1.sagas = o.sagas := rfl

theorem compensate_execution (o : SagaOrchestrator F σ) (execution : SagaExecution F σ) :
    (o.compensate execution).2 = { execution with Status := SagaStatus.Compensated } := rfl

/-- After `ExecuteOrderSaga` the registry holds the returned execution under
the saga ID of the call, and what it held before under every other ID. -/
theorem ExecuteOrderSaga_registry [Float64Ops F] (c : Collaborators F σ)
    (o : SagaOrchestrator F σ) (sagaID orderID userID : String) (items : List (OrderItem F))
    (id : String) :
    mapGet (o.ExecuteOrderSaga c sagaID orderID userID items).1.sagas id =
      if id = sagaID then some (o.ExecuteOrderSaga c sagaID orderID userID items).2.Execution
      else mapGet o.sagas id := by
  rcases h1 : c.CreateOrder userID items o.services with ⟨err | order, s1⟩
  · by_cases hid : id = sagaID <;>
      simp [SagaOrchestrator.ExecuteOrderSaga, SagaOrchestrator.executeSaga, h1, failStep,
        SagaOrchestrator.updateExecution, mapGet_mapSet, hid]
  · rcases h2 : c.ReserveItems order.ID items s1 with ⟨err | reservations, s2⟩
    · by_cases hid : id = sagaID <;>
        simp [SagaOrchestrator.ExecuteOrderSaga, SagaOrchestrator.executeSaga, h1, h2, failStep,
          completeStep, compensate_sagas, compensate_execution,
          SagaOrchestrator.updateExecution, mapGet_mapSet, hid]
    · rcases h3 : c.ApplyDiscount order.ID userID order.Total s2 with ⟨err | discount, s3⟩
      · by_cases hid : id = sagaID <;>
          simp [SagaOrchestrator.ExecuteOrderSaga, SagaOrchestrator.executeSaga, h1, h2, h3,
            failStep, completeStep, compensate_sagas, compensate_execution,
            SagaOrchestrator.updateExecution, mapGet_mapSet, hid]
      · rcases h4 : c.ProcessPayment order.ID userID (finalAmount order discount) s3 with
          ⟨err | payment, s4⟩
        · by_cases hid : id = sagaID <;>
          cases discount <;>
          simp only [finalAmount] at h4 <;>
          simp [SagaOrchestrator.ExecuteOrderSaga, SagaOrchestrator.executeSaga, h1, h2, h3, h4,
            failStep, completeStep, compensate_sagas, compensate_execution,
            SagaOrchestrator.updateExecution, mapGet_mapSet, hid]
        · rcases h5 : c.ConfirmOrder order.ID s4 with ⟨err | _, s5⟩ <;>
          by_cases hid : id = sagaID <;>
          cases discount <;>
          simp only [finalAmount] at h4 <;>
          simp [SagaOrchestrator.ExecuteOrderSaga, SagaOrchestrator.executeSaga, h1, h2, h3, h4,
            h5, failStep, completeStep, compensate_sagas, compensate_execution,
            SagaOrchestrator.updateExecution, mapGet_mapSet, hid]

/-- `GetSagaExecution` after `ExecuteOrderSaga`. -/
theorem GetSagaExecution_ExecuteOrderSaga [Float64Ops F] (c : Collaborators F σ)
    (o : SagaOrchestrator F σ) (sagaID orderID userID : String) (items : List (OrderItem F))
    (id : String) :
    (o.ExecuteOrderSaga c sagaID orderID userID items).1.GetSagaExecution id =
      if id = sagaID then .ok (o.ExecuteOrderSaga c sagaID orderID userID items).2.Execution
      else o.GetSagaExecution id := by
  simp only [SagaOrchestrator.GetSagaExecution, ExecuteOrderSaga_registry]
  by_cases hid : id = sagaID <;> simp [hid]

theorem runSagas_nil [Float64Ops F] (c : Collaborators F σ) (o : SagaOrchestrator F σ) :
    o.runSagas c [] = (o, []) := rfl

theorem runSagas_cons [Float64Ops F] (c : Collaborators F σ) (o : SagaOrchestrator F σ)
    (request : SagaRequest F) (rest : List (SagaRequest F)) :
    o.runSagas c (request :: rest) =
      (((o.ExecuteOrderSaga c request.sagaID request.orderID request.userID
            request.items).1.runSagas c rest).1,
        (o.ExecuteOrderSaga c request.sagaID request.orderID request.userID request.items).2 ::
          ((o.ExecuteOrderSaga c request.sagaID request.orderID request.userID
            request.items).1.runSagas c rest).2) := rfl

/-- `GetSagaExecution` after a sequence of calls: the execution of the most
recent call with the ID, or what the registry held before. -/
theorem GetSagaExecution_runSagas [Float64Ops F] (c : Collaborators F σ)
    (o : SagaOrchestrator F σ) (requests : List (SagaRequest F)) (id : String) :
    (o.runSagas c requests).1.GetSagaExecution id =
      match lastResultFor id requests (o.runSagas c requests).2 with
      | some result => .ok result.Execution
      | none => o.GetSagaExecution id := by
  induction requests generalizing o with
  | nil => simp [runSagas_nil, lastResultFor]
  | cons request rest ih =>
    rw [runSagas_cons]
    simp only [lastResultFor]
    rw [ih]
    cases hlast : lastResultFor id rest
        ((o.ExecuteOrderSaga c request.sagaID request.orderID request.userID
          request.items).1.runSagas c rest).2 with
    | some later => rfl
    | none =>
      simp only [GetSagaExecution_ExecuteOrderSaga]
      by_cases hid : id = request.sagaID
      · simp [hid]
      · have hid' : ¬ request.sagaID = id := fun h => hid h.symm
        simp [hid, hid']

/-- There is a most recent result for an ID exactly when a request used it. -/
theorem lastResultFor_eq_none [Float64Ops F] (c : Collaborators F σ)
    (o : SagaOrchestrator F σ) (requests : List (SagaRequest F)) (id : String) :
    lastResultFor id requests (o.runSagas c requests).2 = none ↔
      id ∉ requests.map (fun request => request.sagaID) := by
  induction requests generalizing o with
  | nil => simp [runSagas_nil, lastResultFor]
  | cons request rest ih =>
    rw [runSagas_cons]
    simp only [lastResultFor, List.map_cons, List.mem_cons, not_or]
    cases hlast : lastResultFor id rest
        ((o.ExecuteOrderSaga c request.sagaID request.orderID request.userID
          request.items).1.runSagas c rest).2 with
    | some later =>
      have := (ih _).not.mp (by rw [hlast]; simp)
      simp only [reduceCtorEq, false_iff, not_and]
      intro _
      exact this
    | none =>
      have hrest := (ih _).mp hlast
      by_cases hid : request.sagaID = id
      · simp [hid]
      · have hid' : ¬ id = request.sagaID := fun h => hid h.symm
        simp [hid, hid', hrest]

/-- C19: after any sequence of `ExecuteOrderSaga` calls on a new orchestrator,
whatever the collaborators, `GetSagaExecution(id)` returns the not-found error
if and only if no call used that saga ID, and otherwise returns the execution
of the most recent call with that ID. -/
theorem C19_GetSagaExecution [Float64Ops F] (c : Collaborators F σ) (services : σ)
    (requests : List (SagaRequest F)) (id : String) :
    (((NewSagaOrchestrator services).runSagas c requests).1.GetSagaExecution id =
        .error (SagaError.sagaNotFound id) ↔
      id ∉ requests.map (fun request => request.sagaID)) ∧
    (((NewSagaOrchestrator services).runSagas c requests).1.GetSagaExecution id =
      match lastResultFor id requests ((NewSagaOrchestrator services).runSagas c requests).2 with
      | some result => .ok result.Execution
      | none => .error (SagaError.sagaNotFound id)) ∧
    (lastResultFor id requests ((NewSagaOrchestrator services).runSagas c requests).2 = none ↔
      id ∉ requests.map (fun request => request.sagaID)) := by
  have hget := GetSagaExecution_runSagas c (NewSagaOrchestrator services) requests id
  have hnone := lastResultFor_eq_none c (NewSagaOrchestrator services) requests id
  have hnew : (NewSagaOrchestrator services : SagaOrchestrator F σ).GetSagaExecution id =
      .error (SagaError.sagaNotFound id) := rfl
  refine ⟨?_, ?_, hnone⟩
  · rw [hget, ← hnone]
    cases lastResultFor id requests ((NewSagaOrchestrator services).runSagas c requests).2 with
    | some result => simp
    | none => simp [hnew]
  · rw [hget]
    cases lastResultFor id requests ((NewSagaOrchestrator services).runSagas c requests).2 with
    | some result => rfl
    | none => exact hnew

end Registry

/-! ## Waiting for a saga -/

section Waiting
variable {F σ : Type}

/-- Waiting for an ID the registry does not hold returns the not-found error at
the first evaluation of the loop condition, whatever the clock and the timeout. -/
theorem WaitForSagaCompletion_unknown (o : SagaOrchestrator F σ) (clock : Nat → Int)
    (sagaID : String) (timeout : Int) (fuel : Nat)
    (h : o.GetSagaExecution sagaID = .error (SagaError.sagaNotFound sagaID)) :
    o.WaitForSagaCompletion clock sagaID timeout (fuel + 1) =
      some (none, some (SagaError.sagaNotFound sagaID)) := by
  simp only [SagaOrchestrator.WaitForSagaCompletion, waitLoop, h]
  split <;> rfl

/-- Waiting for a registered saga whose status is terminal returns it without
error when the first reading of the clock in the loop is before the deadline. -/
theorem WaitForSagaCompletion_terminal_in_time (o : SagaOrchestrator F σ) (clock : Nat → Int)
    (sagaID : String) (timeout : Int) (fuel : Nat) (execution : SagaExecution F σ)
    (h : o.GetSagaExecution sagaID = .ok execution)
    (hterminal : execution.Status = SagaStatus.Completed ∨
      execution.Status = SagaStatus.Failed ∨ execution.Status = SagaStatus.Compensated)
    (htime : clock 1 < clock 0 + timeout) :
    o.WaitForSagaCompletion clock sagaID timeout (fuel + 1) = some (some execution, none) := by
  simp only [SagaOrchestrator.WaitForSagaCompletion, waitLoop, h, htime, hterminal, if_true]

/-- Waiting for a registered saga returns the timeout error, whatever its
status, when the first reading of the clock in the loop is not before the
deadline; with a clock that never goes back this is the case of every timeout
that is zero or negative. -/
theorem WaitForSagaCompletion_late (o : SagaOrchestrator F σ) (clock : Nat → Int)
    (sagaID : String) (timeout : Int) (fuel : Nat) (execution : SagaExecution F σ)
    (h : o.GetSagaExecution sagaID = .ok execution)
    (htime : ¬ clock 1 < clock 0 + timeout) :
    o.WaitForSagaCompletion clock sagaID timeout (fuel + 1) =
      some (some execution, some (SagaError.sagaTimeout execution.Status.value)) := by
  simp only [SagaOrchestrator.WaitForSagaCompletion, waitLoop, h, htime, if_false]

/-- C17, at a failing input: the saga of `TestSagaOrchestrator_SuccessfulOrder`
has run and is registered with status `Completed`; `WaitForSagaCompletion` with
timeout 0, even with a clock that does not advance at all, returns that
execution together with the timeout error. -/
theorem C17_wait_zero_timeout_reports_timeout :
    (((NewSagaOrchestrator testServices).runSagas repoCollaborators
        [testRequest]).1.GetSagaExecution "saga-1").toOption.map
        (fun execution => execution.Status) = some SagaStatus.Completed ∧
    ((((NewSagaOrchestrator testServices).runSagas repoCollaborators
        [testRequest]).1.WaitForSagaCompletion frozenClock "saga-1" 0 1).map
        (fun r => (r.1.map (fun execution => execution.Status), r.2))) =
      some (some SagaStatus.Completed, some (SagaError.sagaTimeout "completed")) := by
  decide!

/-- C18: for every saga ID that no call of `ExecuteOrderSaga` on the
orchestrator used, every timeout (positive, zero or negative) and every clock,
`WaitForSagaCompletion` returns, at the first evaluation of its loop condition,
a nil execution and the not-found error (not a timeout error). -/
theorem C18_wait_unknown_saga [Float64Ops F] (c : Collaborators F σ) (services : σ)
    (requests : List (SagaRequest F)) (sagaID : String) (clock : Nat → Int) (timeout : Int)
    (fuel : Nat) (hnever : sagaID ∉ requests.map (fun request => request.sagaID)) :
    ((NewSagaOrchestrator services).runSagas c requests).1.WaitForSagaCompletion clock sagaID
        timeout (fuel + 1) =
      some (none, some (SagaError.sagaNotFound sagaID)) := by
  apply WaitForSagaCompletion_unknown
  rw [GetSagaExecution_runSagas,
    (lastResultFor_eq_none c (NewSagaOrchestrator services) requests sagaID).mpr hnever]
  rfl

/-- C18 holds of an actual run: after the saga "saga-1", waiting for "saga-9". -/
theorem C18_wait_unknown_saga_witness :
    "saga-9" ∉ [testRequest].map (fun request => request.sagaID) ∧
    ((NewSagaOrchestrator testServices).runSagas repoCollaborators
        [testRequest]).1.WaitForSagaCompletion frozenClock "saga-9" 0 1 =
      some (none, some (SagaError.sagaNotFound "saga-9")) :=
  ⟨by decide,
    C18_wait_unknown_saga repoCollaborators testServices [testRequest] "saga-9" frozenClock 0 0
      (by decide)⟩

end Waiting

/-! ## The execution as seen during a run -/

section ObservedRuns
variable {F σ : Type}

/-- Looking at the execution does not change what `executeSaga` does. -/
theorem executeSagaObserved_fst [Float64Ops F] (c : Collaborators F σ)
    (o : SagaOrchestrator F σ) (execution : SagaExecution F σ) (userID : String)
    (items : List (OrderItem F)) (async : Bool) :
    (o.executeSagaObserved c execution userID items async).1 =
      o.executeSaga c execution userID items async := by
  rcases h1 : c.CreateOrder userID items o.services with ⟨err | order, s1⟩
  · simp [SagaOrchestrator.executeSagaObserved, SagaOrchestrator.executeSaga,
      SagaOrchestrator.updateExecution, h1]
  · rcases h2 : c.ReserveItems order.ID items s1 with ⟨err | reservations, s2⟩
    · simp [SagaOrchestrator.executeSagaObserved, SagaOrchestrator.executeSaga,
        SagaOrchestrator.updateExecution, completeStep, h1, h2]
    · rcases h3 : c.ApplyDiscount order.ID userID order.Total s2 with ⟨err | discount, s3⟩
      · simp [SagaOrchestrator.executeSagaObserved, SagaOrchestrator.executeSaga,
          SagaOrchestrator.updateExecution, completeStep, h1, h2, h3]
      · rcases h4 : c.ProcessPayment order.ID userID (finalAmount order discount) s3 with
          ⟨err | payment, s4⟩
        · cases discount <;>
          simp only [finalAmount] at h4 <;>
          simp [SagaOrchestrator.executeSagaObserved, SagaOrchestrator.executeSaga,
            SagaOrchestrator.updateExecution, completeStep, h1, h2, h3, h4]
        · rcases h5 : c.ConfirmOrder order.ID s4 with ⟨err | _, s5⟩ <;>
          cases discount <;>
          simp only [finalAmount] at h4 <;>
          simp [SagaOrchestrator.executeSagaObserved, SagaOrchestrator.executeSaga,
            SagaOrchestrator.updateExecution, completeStep, h1, h2, h3, h4, h5]

/-- Looking at the execution does not change what `ExecuteOrderSaga` does. -/
theorem ExecuteOrderSagaObserved_fst [Float64Ops F] (c : Collaborators F σ)
    (o : SagaOrchestrator F σ) (sagaID orderID userID : String) (items : List (OrderItem F)) :
    (o.ExecuteOrderSagaObserved c sagaID orderID userID items).1 =
      o.ExecuteOrderSaga c sagaID orderID userID items := by
  simp only [SagaOrchestrator.ExecuteOrderSagaObserved, SagaOrchestrator.ExecuteOrderSaga]
  rw [← executeSagaObserved_fst]

end ObservedRuns

section ObservedClaims
variable {F σ : Type}

/-- C11 (amended): in every run of `ExecuteOrderSaga`, over any collaborators,
the status at every moment is the one `statusHistory` gives for the step that
fails: it starts at `InProgress` and stays there until a step fails or
confirm_order has been recorded; it becomes `Completed` after confirm_order
when no step fails; it becomes `Failed` when the failing step is recorded, and
then `Compensated` after `compensate`, exactly when the failing step is not
create_order. So the only assignments that change the value are `InProgress`
to `Completed`, `InProgress` to `Failed` and `Failed` to `Compensated`;
`Completed` and `Compensated` are never left; the returned status is the last
value, and it is `Failed` exactly when create_order failed, `Compensated`
exactly when a later step failed, and `Completed` exactly when the saga
succeeded. -/
theorem C11_status_transitions [Float64Ops F] (c : Collaborators F σ)
    (o : SagaOrchestrator F σ) (sagaID orderID userID : String) (items : List (OrderItem F)) :
    StatusTransitionsOfCode
        ((o.observations c sagaID orderID userID items).map (fun seen => seen.status)) ∧
      ((o.observations c sagaID orderID userID items).map (fun seen => seen.status)).getLast? =
        some (o.ExecuteOrderSaga c sagaID orderID userID items).2.Execution.Status ∧
      (o.observations c sagaID orderID userID items).map
          (fun seen => (seen.moment, seen.status)) =
        statusHistory (failingStep (o.ExecuteOrderSaga c sagaID orderID userID items).2.Execution) ∧
      FinalStatusKept
        ((o.observations c sagaID orderID userID items).map (fun seen => seen.status)) ∧
      ((o.ExecuteOrderSaga c sagaID orderID userID items).2.Execution.Status =
          SagaStatus.Failed ↔
        failingStep (o.ExecuteOrderSaga c sagaID orderID userID items).2.Execution =
          some "create_order") ∧
      ((o.ExecuteOrderSaga c sagaID orderID userID items).2.Execution.Status =
          SagaStatus.Compensated ↔
        ∃ name, failingStep (o.ExecuteOrderSaga c sagaID orderID userID items).2.Execution =
          some name ∧ name ≠ "create_order") ∧
      ((o.ExecuteOrderSaga c sagaID orderID userID items).2.Execution.Status =
          SagaStatus.Completed ↔
        (o.ExecuteOrderSaga c sagaID orderID userID items).2.Success = true) := by
  rw [← ExecuteOrderSagaObserved_fst]
  rcases h1 : c.CreateOrder userID items o.services with ⟨err | order, s1⟩
  · simp [StatusTransitionsOfCode, FinalStatusKept, statusHistory, attemptedSteps, stepNames,
      failingStep, newStep, Stepwise, SagaOrchestrator.observations, observe,
      SagaOrchestrator.ExecuteOrderSagaObserved, SagaOrchestrator.executeSagaObserved,
      SagaOrchestrator.updateExecution, completeStep, failStep, SagaOrchestrator.compensate, h1]
  · rcases h2 : c.ReserveItems order.ID items s1 with ⟨err | reservations, s2⟩
    · simp [StatusTransitionsOfCode, FinalStatusKept, statusHistory, attemptedSteps, stepNames,
        failingStep, newStep, Stepwise, SagaOrchestrator.observations, observe,
        SagaOrchestrator.ExecuteOrderSagaObserved, SagaOrchestrator.executeSagaObserved,
        SagaOrchestrator.updateExecution, completeStep, failStep, SagaOrchestrator.compensate,
        h1, h2]
    · rcases h3 : c.ApplyDiscount order.ID userID order.Total s2 with ⟨err | discount, s3⟩
      · simp [StatusTransitionsOfCode, FinalStatusKept, statusHistory, attemptedSteps,
          stepNames, failingStep, newStep, Stepwise, SagaOrchestrator.observations, observe,
          SagaOrchestrator.ExecuteOrderSagaObserved, SagaOrchestrator.executeSagaObserved,
          SagaOrchestrator.updateExecution, completeStep, failStep,
          SagaOrchestrator.compensate, h1, h2, h3]
      · rcases h4 : c.ProcessPayment order.ID userID (finalAmount order discount) s3 with
          ⟨err | payment, s4⟩
        · cases discount <;>
          simp only [finalAmount] at h4 <;>
          simp [StatusTransitionsOfCode, FinalStatusKept, statusHistory, attemptedSteps,
            stepNames, failingStep, newStep, Stepwise, SagaOrchestrator.observations, observe,
            SagaOrchestrator.ExecuteOrderSagaObserved, SagaOrchestrator.executeSagaObserved,
            SagaOrchestrator.updateExecution, completeStep, failStep,
            SagaOrchestrator.compensate, h1, h2, h3, h4]
        · rcases h5 : c.ConfirmOrder order.ID s4 with ⟨err | _, s5⟩ <;>
          cases discount <;>
          simp only [finalAmount] at h4 <;>
          simp [StatusTransitionsOfCode, FinalStatusKept, statusHistory, attemptedSteps,
            stepNames, failingStep, newStep, Stepwise, SagaOrchestrator.observations, observe,
            SagaOrchestrator.ExecuteOrderSagaObserved, SagaOrchestrator.executeSagaObserved,
            SagaOrchestrator.updateExecution, completeStep, failStep,
            SagaOrchestrator.compensate, h1, h2, h3, h4, h5]

/-- C11 (as stated, refuted): in the run in which user3, with balance 50, orders
one unit at price 100, the payment is rejected; the status is `InProgress` at
the first eight moments, then `Failed`, then `Compensated`: the value `Failed`
is left. -/
theorem C11_terminal_status_left :
    ((NewSagaOrchestrator poorUserServices).observations repoCollaborators
        "saga-3" "order-3" "user3" oneItem).map (fun seen => seen.status) =
      List.replicate 8 SagaStatus.InProgress ++ [SagaStatus.Failed, SagaStatus.Compensated] ∧
    ¬ TerminalStatusKept
      (((NewSagaOrchestrator poorUserServices).observations repoCollaborators
        "saga-3" "order-3" "user3" oneItem).map (fun seen => seen.status)) := by
  decide!

/-- C14 (amended): in every run of `ExecuteOrderSaga`, over any collaborators,
the order ID of the execution is the argument `orderID` of the call at every
moment before the record of create_order is `Completed`, and the ID of the
order created by the Order collaborator at every moment from then on; the last
value is the order ID of the returned execution. -/
theorem C14_orderID_follows_creation [Float64Ops F] (c : Collaborators F σ)
    (o : SagaOrchestrator F σ) (sagaID orderID userID : String) (items : List (OrderItem F)) :
    OrderIDFollowsCreation orderID (createdBy c o userID items)
        (o.observations c sagaID orderID userID items) ∧
      ((o.observations c sagaID orderID userID items).map (fun seen => seen.orderID)).getLast? =
        some (o.ExecuteOrderSaga c sagaID orderID userID items).2.Execution.OrderID := by
  rw [← ExecuteOrderSagaObserved_fst]
  rcases h1 : c.CreateOrder userID items o.services with ⟨err | order, s1⟩
  · simp [OrderIDFollowsCreation, createdBy, stepCompleted, newStep,
      SagaOrchestrator.observations, observe,
      SagaOrchestrator.ExecuteOrderSagaObserved, SagaOrchestrator.executeSagaObserved,
      SagaOrchestrator.updateExecution, completeStep, failStep, SagaOrchestrator.compensate, h1]
  · rcases h2 : c.ReserveItems order.ID items s1 with ⟨err | reservations, s2⟩
    · simp [OrderIDFollowsCreation, createdBy, stepCompleted, newStep,
        SagaOrchestrator.observations, observe,
        SagaOrchestrator.ExecuteOrderSagaObserved, SagaOrchestrator.executeSagaObserved,
        SagaOrchestrator.updateExecution, completeStep, failStep, SagaOrchestrator.compensate,
        h1, h2]
    · rcases h3 : c.ApplyDiscount order.ID userID order.Total s2 with ⟨err | discount, s3⟩
      · simp [OrderIDFollowsCreation, createdBy, stepCompleted, newStep,
          SagaOrchestrator.observations, observe,
          SagaOrchestrator.ExecuteOrderSagaObserved, SagaOrchestrator.executeSagaObserved,
          SagaOrchestrator.updateExecution, completeStep, failStep,
          SagaOrchestrator.compensate, h1, h2, h3]
      · rcases h4 : c.ProcessPayment order.ID userID (finalAmount order discount) s3 with
          ⟨err | payment, s4⟩
        · cases discount <;>
          simp only [finalAmount] at h4 <;>
          simp [OrderIDFollowsCreation, createdBy, stepCompleted, newStep,
            SagaOrchestrator.observations, observe,
            SagaOrchestrator.ExecuteOrderSagaObserved, SagaOrchestrator.executeSagaObserved,
            SagaOrchestrator.updateExecution, completeStep, failStep,
            SagaOrchestrator.compensate, h1, h2, h3, h4]
        · rcases h5 : c.ConfirmOrder order.ID s4 with ⟨err | _, s5⟩ <;>
          cases discount <;>
          simp only [finalAmount] at h4 <;>
          simp [OrderIDFollowsCreation, createdBy, stepCompleted, newStep,
            SagaOrchestrator.observations, observe,
            SagaOrchestrator.ExecuteOrderSagaObserved, SagaOrchestrator.executeSagaObserved,
            SagaOrchestrator.updateExecution, completeStep, failStep,
            SagaOrchestrator.compensate, h1, h2, h3, h4, h5]

/-- C14 (as stated, refuted): in the run of the test of a successful order,
called with the order ID "order-1", the order ID of the execution when it is
registered is "order-1", not the empty string; the order created has the ID
"u". -/
theorem C14_orderID_not_empty_at_registration :
    ((NewSagaOrchestrator testServices).observations repoCollaborators
        "saga-1" "order-1" "user1" testItems).head?.map
          (fun seen => (seen.moment, seen.orderID, seen.steps)) =
      some (Moment.registered, "order-1", []) ∧
    createdBy repoCollaborators (NewSagaOrchestrator testServices) "user1" testItems =
      some "u" ∧
    ¬ OrderIDFollowsCreation "" (some "u")
      ((NewSagaOrchestrator testServices).observations repoCollaborators
        "saga-1" "order-1" "user1" testItems) := by
  decide!

end ObservedClaims

section ObservedSteps
variable {F σ : Type}

/-- C15 (amended): in every run of `ExecuteOrderSaga`, over any collaborators,
at the moment the operation of a step is called the step records are those of
the earlier steps, all `Completed`, and there is none for the step itself; at
the next moment one record has been appended, that of the step, `Completed` or
`Failed`; and no record is `Pending` at any moment. -/
theorem C15_record_appended_after_call [Float64Ops F] (c : Collaborators F σ)
    (o : SagaOrchestrator F σ) (sagaID orderID userID : String) (items : List (OrderItem F)) :
    RecordAppendedAfterCall (o.observations c sagaID orderID userID items) := by
  rcases h1 : c.CreateOrder userID items o.services with ⟨err | order, s1⟩
  · simp [RecordAppendedAfterCall, Stepwise, whenCall, stepNames, newStep,
      SagaOrchestrator.observations, observe,
      SagaOrchestrator.ExecuteOrderSagaObserved, SagaOrchestrator.executeSagaObserved,
      SagaOrchestrator.updateExecution, completeStep, failStep, SagaOrchestrator.compensate, h1]
  · rcases h2 : c.ReserveItems order.ID items s1 with ⟨err | reservations, s2⟩
    · simp [RecordAppendedAfterCall, Stepwise, whenCall, stepNames, newStep,
        SagaOrchestrator.observations, observe,
        SagaOrchestrator.ExecuteOrderSagaObserved, SagaOrchestrator.executeSagaObserved,
        SagaOrchestrator.updateExecution, completeStep, failStep, SagaOrchestrator.compensate,
        h1, h2]
    · rcases h3 : c.ApplyDiscount order.ID userID order.Total s2 with ⟨err | discount, s3⟩
      · simp [RecordAppendedAfterCall, Stepwise, whenCall, stepNames, newStep,
          SagaOrchestrator.observations, observe,
          SagaOrchestrator.ExecuteOrderSagaObserved, SagaOrchestrator.executeSagaObserved,
          SagaOrchestrator.updateExecution, completeStep, failStep,
          SagaOrchestrator.compensate, h1, h2, h3]
      · rcases h4 : c.ProcessPayment order.ID userID (finalAmount order discount) s3 with
          ⟨err | payment, s4⟩
        · cases discount <;>
          simp only [finalAmount] at h4 <;>
          simp [RecordAppendedAfterCall, Stepwise, whenCall, stepNames, newStep,
            SagaOrchestrator.observations, observe,
            SagaOrchestrator.ExecuteOrderSagaObserved, SagaOrchestrator.executeSagaObserved,
            SagaOrchestrator.updateExecution, completeStep, failStep,
            SagaOrchestrator.compensate, h1, h2, h3, h4]
        · rcases h5 : c.ConfirmOrder order.ID s4 with ⟨err | _, s5⟩ <;>
          cases discount <;>
          simp only [finalAmount] at h4 <;>
          simp [RecordAppendedAfterCall, Stepwise, whenCall, stepNames, newStep,
            SagaOrchestrator.observations, observe,
            SagaOrchestrator.ExecuteOrderSagaObserved, SagaOrchestrator.executeSagaObserved,
            SagaOrchestrator.updateExecution, completeStep, failStep,
            SagaOrchestrator.compensate, h1, h2, h3, h4, h5]

/-- C15 (as stated, refuted): in the run of the test of a successful order, at
the moment `CreateOrder` is called the execution has no step record, and at the
next moment it has one, the `Completed` record of create_order: no `Pending`
record is stored, and the number of records goes from 0 to 1 during the step. -/
theorem C15_no_pending_record_at_call :
    (((NewSagaOrchestrator testServices).observations repoCollaborators
        "saga-1" "order-1" "user1" testItems).take 3).map
          (fun seen => (seen.moment,
            seen.steps.map (fun record => (record.Name, record.Status)))) =
      [(Moment.registered, []), (Moment.call "create_order", []),
       (Moment.recorded "create_order", [("create_order", StepStatus.Completed)])] ∧
    ¬ PendingRecordAtCall
      ((NewSagaOrchestrator testServices).observations repoCollaborators
        "saga-1" "order-1" "user1" testItems) := by
  decide!

end ObservedSteps

/-! ## Sagas for one unit of one product -/

section UnitOrderRuns
variable {F : Type}

/-- A value in the range of `int` decremented by one, when it is at least 1,
does not wrap. -/
theorem wrapInt_pred (x : Int) (h : InIntRange x) (h1 : 1 ≤ x) : wrapInt (x - 1) = x - 1 := by
  unfold InIntRange at h
  unfold wrapInt
  omega

/-- A saga for one unit of a product that is out of stock fails at
reserve_inventory with the insufficient-stock error and leaves the inventory
and the billing service as they were. -/
theorem saga_out_of_stock [Float64Ops F] (o : SagaOrchestrator F (Services F))
    (sagaID orderID userID productID : String) (product : Product F) (item : OrderItem F)
    (hinventory : o.services.inventoryService.shouldFail = false)
    (hproduct : mapGet o.services.inventoryService.products productID = some product)
    (hstock : product.Stock = 0)
    (hid : item.ProductID = productID) (hquantity : item.Quantity = 1) :
    (o.ExecuteOrderSaga repoCollaborators sagaID orderID userID [item]).2.Success = false ∧
      failingStep (o.ExecuteOrderSaga repoCollaborators sagaID orderID userID [item]).2.Execution
        = some "reserve_inventory" ∧
      (o.ExecuteOrderSaga repoCollaborators sagaID orderID userID [item]).2.Error =
        some (SagaError.insufficientStock productID 1 0) ∧
      (o.ExecuteOrderSaga repoCollaborators sagaID orderID userID
        [item]).1.services.inventoryService = o.services.inventoryService ∧
      (o.ExecuteOrderSaga repoCollaborators sagaID orderID userID
        [item]).1.services.billingService = o.services.billingService := by
  have hreserve : ∀ (id : String) (u : UuidSource),
      o.services.inventoryService.ReserveItems u id [item] =
        (.error (SagaError.insufficientStock productID 1 0), o.services.inventoryService, u) := by
    intro id u
    simp [InventoryService.ReserveItems, reserveLoop, hinventory, hid, hproduct, hstock,
      hquantity]
  cases ExecuteOrderSaga_run repoCollaborators o sagaID orderID userID [item] with
  | failCreate err s1 h1 hfin hr => simp [repo_CreateOrder] at h1
  | failReserve order s1 err s2 h1 h2 hfin hr =>
    have f1 := repo_CreateOrder_facts _ _ _ _ _ h1
    rw [repo_ReserveItems, f1.2.2.2.1, hreserve] at h2
    simp only [Prod.mk.injEq, Except.error.injEq] at h2
    obtain ⟨rfl, rfl⟩ := h2
    have hs := congrArg Prod.fst hfin
    simp only at hs
    refine ⟨by simp [hr, failedResult], by simp [hr, failedResult, failingStep, failedStep],
      by simp [hr, failedResult], ?_, ?_⟩
    · rw [hs]
      simp [rollback_fst, cancelOrderAction, repo_CancelOrder, f1.2.2.2.1]
    · rw [hs]
      simp [rollback_fst, cancelOrderAction, repo_CancelOrder, f1.2.2.2.2.2]
  | failDiscount order s1 reservations s2 err s3 h1 h2 h3 hfin hr =>
    have f1 := repo_CreateOrder_facts _ _ _ _ _ h1
    rw [repo_ReserveItems, f1.2.2.2.1, hreserve] at h2
    simp at h2
  | failPayment order s1 reservations s2 discount s3 err s4 h1 h2 h3 h4 hfin hr =>
    have f1 := repo_CreateOrder_facts _ _ _ _ _ h1
    rw [repo_ReserveItems, f1.2.2.2.1, hreserve] at h2
    simp at h2
  | failConfirm order s1 reservations s2 discount s3 payment s4 err s5 h1 h2 h3 h4 h5 hfin hr =>
    have f1 := repo_CreateOrder_facts _ _ _ _ _ h1
    rw [repo_ReserveItems, f1.2.2.2.1, hreserve] at h2
    simp at h2
  | success order s1 reservations s2 discount s3 payment s4 s5 h1 h2 h3 h4 h5 hfin hr =>
    have f1 := repo_CreateOrder_facts _ _ _ _ _ h1
    rw [repo_ReserveItems, f1.2.2.2.1, hreserve] at h2
    simp at h2

/-- A saga for one unit of a product that is in stock, of a user whose balance
covers the charge, succeeds: the stock of the product goes down by one and the
balance of the user is debited by the expected charge. -/
theorem saga_in_stock [Float64Ops F] (o : SagaOrchestrator F (Services F))
    (sagaID orderID userID productID : String) (product : Product F) (item : OrderItem F)
    (hinventory : o.services.inventoryService.shouldFail = false)
    (hbilling : o.services.billingService.shouldFail = false)
    (hproduct : mapGet o.services.inventoryService.products productID = some product)
    (hstock : 1 ≤ product.Stock) (hrange : InIntRange product.Stock)
    (hid : item.ProductID = productID) (hquantity : item.Quantity = 1)
    (hfunds : Float64Ops.lt
        ((mapGet o.services.billingService.userBalances userID).getD Float64Ops.zero)
        (expectedCharge o.services.discountService.userDiscounts userID [item]) = false) :
    (o.ExecuteOrderSaga repoCollaborators sagaID orderID userID [item]).2.Success = true ∧
      (o.ExecuteOrderSaga repoCollaborators sagaID orderID userID
        [item]).1.services.inventoryService.shouldFail = false ∧
      (o.ExecuteOrderSaga repoCollaborators sagaID orderID userID
        [item]).1.services.billingService.shouldFail = false ∧
      mapGet (o.ExecuteOrderSaga repoCollaborators sagaID orderID userID
        [item]).1.services.inventoryService.products productID =
          some { product with Stock := product.Stock - 1 } ∧
      (o.ExecuteOrderSaga repoCollaborators sagaID orderID userID
        [item]).1.services.billingService.userBalances =
          mapSet o.services.billingService.userBalances userID
            (Float64Ops.sub
              ((mapGet o.services.billingService.userBalances userID).getD Float64Ops.zero)
              (expectedCharge o.services.discountService.userDiscounts userID [item])) ∧
      (o.ExecuteOrderSaga repoCollaborators sagaID orderID userID
        [item]).1.services.discountService.userDiscounts =
          o.services.discountService.userDiscounts := by
  have hnot : ¬ product.Stock < 1 := not_lt.mpr hstock
  have hwrap := wrapInt_pred product.Stock hrange hstock
  cases hpct : mapGet o.services.discountService.userDiscounts userID with
  | none =>
    simp only [expectedCharge, hpct] at hfunds
    simp [SagaOrchestrator.ExecuteOrderSaga, SagaOrchestrator.executeSaga,
      SagaOrchestrator.updateExecution, completeStep, failStep, repoCollaborators,
      OrderService.CreateOrder, InventoryService.ReserveItems, reserveLoop,
      DiscountService.ApplyDiscount, BillingService.ProcessPayment, OrderService.ConfirmOrder,
      OrderService.setStatus, UuidSource.New, mapGet_mapSet_self, hinventory, hbilling,
      hproduct, hid, hquantity, hnot, hwrap, hpct, hfunds, expectedCharge]
  | some pct =>
    simp only [expectedCharge, hpct] at hfunds
    simp [SagaOrchestrator.ExecuteOrderSaga, SagaOrchestrator.executeSaga,
      SagaOrchestrator.updateExecution, completeStep, failStep, repoCollaborators,
      OrderService.CreateOrder, InventoryService.ReserveItems, reserveLoop,
      DiscountService.ApplyDiscount, BillingService.ProcessPayment, OrderService.ConfirmOrder,
      OrderService.setStatus, UuidSource.New, mapGet_mapSet_self, hinventory, hbilling,
      hproduct, hid, hquantity, hnot, hwrap, hpct, hfunds, expectedCharge]

end UnitOrderRuns

section SerialUnitOrders
variable {F : Type}

/-- A request whose items are one unit of the product has exactly one item. -/
theorem unit_items (items : List (OrderItem F)) (productID : String)
    (h : items.map (fun item => (item.ProductID, item.Quantity)) = [(productID, 1)]) :
    ∃ item, items = [item] ∧ item.ProductID = productID ∧ item.Quantity = 1 := by
  cases items with
  | nil => simp at h
  | cons item rest =>
    cases rest with
    | nil =>
      simp only [List.map_cons, List.map_nil, List.cons.injEq, Prod.mk.injEq, and_true] at h
      exact ⟨item, rfl, h.1, h.2⟩
    | cons next rest => simp at h

/-- The sagas run one after another for one unit of a product each, from stock
`S`: the first `min N S` succeed, the others fail at reserve_inventory with the
insufficient-stock error, and the product is left with `S - min N S` units. -/
theorem runSagas_unit_orders [Float64Ops F] (requests : List (SagaRequest F)) :
    ∀ (o : SagaOrchestrator F (Services F)) (productID : String) (product : Product F) (S : Nat),
      o.services.inventoryService.shouldFail = false →
      o.services.billingService.shouldFail = false →
      mapGet o.services.inventoryService.products productID = some product →
      product.Stock = (S : Int) →
      InIntRange product.Stock →
      (∀ request ∈ requests,
        request.items.map (fun item => (item.ProductID, item.Quantity)) = [(productID, 1)]) →
      Funded o.services.discountService.userDiscounts o.services.billingService.userBalances
        (requests.take S) →
      (o.runSagas repoCollaborators requests).2.map (fun result => result.Success) =
          List.replicate (min requests.length S) true ++
            List.replicate (requests.length - min requests.length S) false ∧
        (∀ result ∈ (o.runSagas repoCollaborators requests).2, result.Success = false →
          failingStep result.Execution = some "reserve_inventory" ∧
            result.Error = some (SagaError.insufficientStock productID 1 0)) ∧
        (o.runSagas repoCollaborators requests).1.services.inventoryService.GetStock productID =
          (S : Int) - (min requests.length S : Nat) := by
  induction requests with
  | nil =>
    intro o productID product S _ _ hproduct hstock _ _ _
    simp [runSagas_nil, InventoryService.GetStock, hproduct, hstock]
  | cons request rest ih =>
    intro o productID product S hinventory hbilling hproduct hstock hrange hitems hfunded
    obtain ⟨item, hitem, hid, hquantity⟩ :=
      unit_items request.items productID (hitems request (List.mem_cons_self _ _))
    have hrest : ∀ r ∈ rest,
        r.items.map (fun item => (item.ProductID, item.Quantity)) = [(productID, 1)] :=
      fun r hr => hitems r (List.mem_cons_of_mem _ hr)
    rw [runSagas_cons, hitem]
    cases S with
    | zero =>
      have hzero : product.Stock = 0 := by simpa using hstock
      obtain ⟨a1, a2, a3, a4, a5⟩ := saga_out_of_stock o request.sagaID request.orderID
        request.userID productID product item hinventory hproduct hzero hid hquantity
      obtain ⟨i1, i2, i3⟩ := ih
        (o.ExecuteOrderSaga repoCollaborators request.sagaID request.orderID request.userID
          [item]).1 productID product 0
        (by rw [a4]; exact hinventory) (by rw [a5]; exact hbilling)
        (by rw [a4]; exact hproduct) hstock hrange hrest (by simp [Funded])
      refine ⟨?_, ?_, ?_⟩
      · simp only [List.map_cons, a1, i1]
        simp [List.replicate_succ]
      · intro result hmem hfail
        rcases List.mem_cons.mp hmem with rfl | hmem
        · exact ⟨a2, a3⟩
        · exact i2 result hmem hfail
      · simpa using i3
    | succ k =>
      have hpos : 1 ≤ product.Stock := by rw [hstock]; push_cast; omega
      simp only [List.take_succ_cons, Funded, hitem] at hfunded
      obtain ⟨a1, a2, a3, a4, a5, a6⟩ := saga_in_stock o request.sagaID request.orderID
        request.userID productID product item hinventory hbilling hproduct hpos hrange hid
        hquantity hfunded.1
      have hrange' : InIntRange (product.Stock - 1) := by
        unfold InIntRange at hrange ⊢
        omega
      obtain ⟨i1, i2, i3⟩ := ih
        (o.ExecuteOrderSaga repoCollaborators request.sagaID request.orderID request.userID
          [item]).1 productID { product with Stock := product.Stock - 1 } k
        a2 a3 a4 (by simp only [hstock]; push_cast; omega) hrange' hrest
        (by rw [a5, a6]; exact hfunded.2)
      refine ⟨?_, ?_, ?_⟩
      · simp only [List.map_cons, a1, i1, List.length_cons, Nat.succ_min_succ,
          Nat.succ_sub_succ, List.replicate_succ, List.cons_append]
      · intro result hmem hfail
        rcases List.mem_cons.mp hmem with rfl | hmem
        · rw [a1] at hfail
          cases hfail
        · exact i2 result hmem hfail
      · rw [i3]
        simp only [List.length_cons, Nat.succ_min_succ]
        push_cast
        omega

end SerialUnitOrders

section SerialClaim
variable {F : Type}

/-- The number of results with `Success = b`, from the list of the `Success` flags. -/
theorem length_filter_success {σ : Type} (results : List (SagaResult F σ)) (b : Bool) :
    (results.filter (fun result => result.Success == b)).length =
      (results.map (fun result => result.Success)).count b := by
  induction results with
  | nil => rfl
  | cons result rest ih =>
    cases hb : result.Success == b <;>
    simp [List.filter_cons, List.count_cons, hb, ih]

/-- C16: for every `N` and `S`, when `N` sagas, each ordering one unit of the
same product, whose stock is `S`, are executed one after another with the
repository's services, neither the inventory nor the billing service being
configured to fail and every payment being covered by the balance of its user
when the sagas pay in turn, exactly `min N S` sagas succeed, the other
`N - min N S` fail, each of the failed ones at reserve_inventory with the
insufficient-stock error, and the final stock of the product is
`S - min N S`. -/
theorem C16_serial_unit_orders [Float64Ops F] (o : SagaOrchestrator F (Services F))
    (productID : String) (product : Product F) (S : Nat) (requests : List (SagaRequest F))
    (hinventory : o.services.inventoryService.shouldFail = false)
    (hbilling : o.services.billingService.shouldFail = false)
    (hproduct : mapGet o.services.inventoryService.products productID = some product)
    (hstock : product.Stock = (S : Int))
    (hrange : InIntRange product.Stock)
    (hitems : ∀ request ∈ requests,
      request.items.map (fun item => (item.ProductID, item.Quantity)) = [(productID, 1)])
    (hfunded : Funded o.services.discountService.userDiscounts
      o.services.billingService.userBalances (requests.take S)) :
    (o.runSagas repoCollaborators requests).2.length = requests.length ∧
      ((o.runSagas repoCollaborators requests).2.filter
        (fun result => result.Success == true)).length = min requests.length S ∧
      ((o.runSagas repoCollaborators requests).2.filter
        (fun result => result.Success == false)).length =
          requests.length - min requests.length S ∧
      (∀ result ∈ (o.runSagas repoCollaborators requests).2, result.Success = false →
        failingStep result.Execution = some "reserve_inventory" ∧
          result.Error = some (SagaError.insufficientStock productID 1 0)) ∧
      (o.runSagas repoCollaborators requests).1.services.inventoryService.GetStock productID =
        (S : Int) - (min requests.length S : Nat) := by
  obtain ⟨h1, h2, h3⟩ := runSagas_unit_orders requests o productID product S hinventory
    hbilling hproduct hstock hrange hitems hfunded
  have hlen := congrArg List.length h1
  simp only [List.length_map, List.length_append, List.length_replicate] at hlen
  refine ⟨by omega, ?_, ?_, h2, h3⟩
  · rw [length_filter_success, h1]
    simp [List.count_append, List.count_replicate]
  · rw [length_filter_success, h1]
    simp [List.count_append, List.count_replicate]

/-- C16 holds of an actual run: of three sagas of user1 for one unit of product1
each, run one after another with 2 units in stock, two succeed, one fails, and
no unit is left. -/
theorem C16_serial_unit_orders_witness :
    ((NewSagaOrchestrator lowStockServices).runSagas repoCollaborators unitRequests).2.length
        = 3 ∧
      (((NewSagaOrchestrator lowStockServices).runSagas repoCollaborators unitRequests).2.filter
        (fun result => result.Success == true)).length = 2 ∧
      (((NewSagaOrchestrator lowStockServices).runSagas repoCollaborators unitRequests).2.filter
        (fun result => result.Success == false)).length = 1 ∧
      (∀ result ∈ ((NewSagaOrchestrator lowStockServices).runSagas repoCollaborators
          unitRequests).2, result.Success = false →
        failingStep result.Execution = some "reserve_inventory" ∧
          result.Error = some (SagaError.insufficientStock "product1" 1 0)) ∧
      ((NewSagaOrchestrator lowStockServices).runSagas repoCollaborators
        unitRequests).1.services.inventoryService.GetStock "product1" = 0 :=
  C16_serial_unit_orders (NewSagaOrchestrator lowStockServices) "product1"
    { ID := "product1", Price := 0, Stock := 2 } 2 unitRequests
    (by decide) (by decide) (by decide!) (by decide) (by decide) (by decide) (by decide!)

end SerialClaim

/-! ## `ReserveItems` -/

section ReserveContract
variable {F : Type}

/-- A value in the range of `int` reduced by a quantity between 0 and the
value does not wrap. -/
theorem wrapInt_sub (x q : Int) (h : InIntRange x) (hq : 0 ≤ q) (hle : ¬ x < q) :
    wrapInt (x - q) = x - q := by
  unfold InIntRange at h
  unfold wrapInt
  omega

theorem reducedStock_nil (stock : Int) (productID : String) :
    reducedStock stock productID ([] : List (OrderItem F)) = stock := rfl

theorem reducedStock_cons (stock : Int) (productID : String) (item : OrderItem F)
    (rest : List (OrderItem F)) :
    reducedStock stock productID (item :: rest) =
      reducedStock (if item.ProductID = productID then wrapInt (stock - item.Quantity) else stock)
        productID rest := rfl

/-- One round of the reservation loop on an item that is in stock. -/
theorem reserveLoop_cons_ok (orderID : String) (item : OrderItem F) (rest : List (OrderItem F))
    (s : InventoryService F) (u : UuidSource) (acc : List InventoryReservation)
    (product : Product F) (hget : mapGet s.products item.ProductID = some product)
    (hlt : ¬ product.Stock < item.Quantity) :
    reserveLoop orderID (item :: rest) s u acc =
      reserveLoop orderID rest
        { s with
          products := mapSet s.products item.ProductID
            { product with Stock := wrapInt (product.Stock - item.Quantity) },
          reservations := mapSet s.reservations (u.gen u.next)
            { ID := u.gen u.next, OrderID := orderID, ProductID := item.ProductID,
              Quantity := item.Quantity, Status := ReservationStatus.Reserved } }
        { u with next := u.next + 1 }
        (acc ++ [{ ID := u.gen u.next, OrderID := orderID, ProductID := item.ProductID,
                   Quantity := item.Quantity, Status := ReservationStatus.Reserved }]) := by
  simp only [reserveLoop, hget, hlt, if_false, UuidSource.New]

/-- The stock of every product after one round of the reservation loop. -/
theorem stockOf_reserved (products : List (String × Product F)) (item : OrderItem F)
    (product : Product F) (hget : mapGet products item.ProductID = some product)
    (productID : String) :
    stockOf (mapSet products item.ProductID
        { product with Stock := wrapInt (product.Stock - item.Quantity) }) productID =
      if item.ProductID = productID then wrapInt (stockOf products productID - item.Quantity)
      else stockOf products productID := by
  rw [stockOf_mapSet]
  by_cases h : productID = item.ProductID
  · subst h
    simp [stockOf, hget]
  · have h' : ¬ item.ProductID = productID := fun e => h e.symm
    simp [h, h']

/-- The reservation loop returns an error exactly when some item names an
unknown product or asks for more than the stock left by the earlier items. -/
theorem reserveLoop_error_iff (orderID : String) (items : List (OrderItem F)) :
    ∀ (s : InventoryService F) (u : UuidSource) (acc : List InventoryReservation),
      (∃ e, (reserveLoop orderID items s u acc).1 = .error e) ↔
        ((∃ item ∈ items, mapGet s.products item.ProductID = none) ∨
          ∃ i item, items[i]? = some item ∧
            reducedStock (stockOf s.products item.ProductID) item.ProductID (items.take i) <
              item.Quantity) := by
  induction items with
  | nil =>
    intro s u acc
    simp [reserveLoop]
  | cons item rest ih =>
    intro s u acc
    cases hget : mapGet s.products item.ProductID with
    | none =>
      simp only [reserveLoop, hget]
      exact ⟨fun _ => Or.inl ⟨item, List.mem_cons_self _ _, hget⟩, fun _ => ⟨_, rfl⟩⟩
    | some product =>
      have hstock : stockOf s.products item.ProductID = product.Stock := by
        simp [stockOf, hget]
      by_cases hlt : product.Stock < item.Quantity
      · simp only [reserveLoop, hget, hlt, if_true]
        refine ⟨fun _ => Or.inr ⟨0, item, by simp, ?_⟩, fun _ => ⟨_, rfl⟩⟩
        simpa [reducedStock_nil, hstock] using hlt
      · rw [reserveLoop_cons_ok orderID item rest s u acc product hget hlt, ih]
        have hsome : (mapGet s.products item.ProductID).isSome = true := by simp [hget]
        have hknown : ∀ productID,
            mapGet (mapSet s.products item.ProductID
              { product with Stock := wrapInt (product.Stock - item.Quantity) }) productID = none ↔
            mapGet s.products productID = none := by
          intro productID
          have := mapGet_mapSet_isSome s.products item.ProductID productID
            { product with Stock := wrapInt (product.Stock - item.Quantity) } hsome
          rw [← Option.not_isSome_iff_eq_none, ← Option.not_isSome_iff_eq_none, this]
        simp only [hknown, stockOf_reserved s.products item product hget]
        constructor
        · rintro (⟨x, hx, hnone⟩ | ⟨i, x, hx, hless⟩)
          · exact Or.inl ⟨x, List.mem_cons_of_mem _ hx, hnone⟩
          · refine Or.inr ⟨i + 1, x, by simpa using hx, ?_⟩
            rw [List.take_succ_cons, reducedStock_cons]
            exact hless
        · rintro (⟨x, hx, hnone⟩ | ⟨i, x, hx, hless⟩)
          · rcases List.mem_cons.mp hx with rfl | hx
            · rw [hget] at hnone
              cases hnone
            · exact Or.inl ⟨x, hx, hnone⟩
          · cases i with
            | zero =>
              simp only [List.getElem?_cons_zero, Option.some.injEq] at hx
              subst hx
              simp only [List.take_zero, reducedStock_nil, hstock] at hless
              exact absurd hless hlt
            | succ j =>
              refine Or.inr ⟨j, x, by simpa using hx, ?_⟩
              rw [List.take_succ_cons, reducedStock_cons] at hless
              exact hless

end ReserveContract

section ReserveSuccess
variable {F : Type}

/-- When the reservation loop succeeds, the result is the reservations built so
far followed by one `Reserved` reservation per item, in item order, and the
stock of every product has been reduced by the items. -/
theorem reserveLoop_ok (orderID : String) (items : List (OrderItem F)) :
    ∀ (s : InventoryService F) (u : UuidSource) (acc reservations : List InventoryReservation),
      (reserveLoop orderID items s u acc).1 = .ok reservations →
        reservations.map (fun r => (r.OrderID, r.ProductID, r.Quantity, r.Status)) =
            acc.map (fun r => (r.OrderID, r.ProductID, r.Quantity, r.Status)) ++
              items.map (fun item =>
                (orderID, item.ProductID, item.Quantity, ReservationStatus.Reserved)) ∧
          ∀ productID,
            stockOf (reserveLoop orderID items s u acc).2.1.products productID =
              reducedStock (stockOf s.products productID) productID items := by
  induction items with
  | nil =>
    intro s u acc reservations h
    simp only [reserveLoop, Except.ok.injEq] at h
    subst h
    simp [reserveLoop, reducedStock_nil]
  | cons item rest ih =>
    intro s u acc reservations h
    cases hget : mapGet s.products item.ProductID with
    | none => simp [reserveLoop, hget] at h
    | some product =>
      by_cases hlt : product.Stock < item.Quantity
      · simp [reserveLoop, hget, hlt] at h
      · rw [reserveLoop_cons_ok orderID item rest s u acc product hget hlt] at h ⊢
        obtain ⟨h1, h2⟩ := ih _ _ _ _ h
        refine ⟨by simpa using h1, ?_⟩
        intro productID
        rw [h2 productID, reducedStock_cons]
        simp only [stockOf_reserved s.products item product hget]

/-- When the reservation loop succeeds on items of non-negative quantity, from
stocks in the range of `int`, no subtraction wraps: the stock of every product
has gone down by the sum of the quantities requested for it. -/
theorem reserveLoop_ok_exact (orderID : String) (items : List (OrderItem F)) :
    ∀ (s : InventoryService F) (u : UuidSource) (acc reservations : List InventoryReservation),
      (reserveLoop orderID items s u acc).1 = .ok reservations →
      (∀ e ∈ s.products, InIntRange e.2.Stock) →
      (∀ item ∈ items, 0 ≤ item.Quantity) →
        ∀ productID,
          stockOf (reserveLoop orderID items s u acc).2.1.products productID =
            stockOf s.products productID - requestedQty productID items := by
  induction items with
  | nil =>
    intro s u acc reservations _ _ _ productID
    simp [reserveLoop, requestedQty]
  | cons item rest ih =>
    intro s u acc reservations h hrange hquantity productID
    cases hget : mapGet s.products item.ProductID with
    | none => simp [reserveLoop, hget] at h
    | some product =>
      by_cases hlt : product.Stock < item.Quantity
      · simp [reserveLoop, hget, hlt] at h
      · rw [reserveLoop_cons_ok orderID item rest s u acc product hget hlt] at h ⊢
        have hin : InIntRange product.Stock := hrange _ (mapGet_mem _ _ _ hget)
        have hwrap := wrapInt_sub product.Stock item.Quantity hin
          (hquantity item (List.mem_cons_self _ _)) hlt
        have hstock : stockOf s.products item.ProductID = product.Stock := by
          simp [stockOf, hget]
        rw [ih _ _ _ _ h
          (by
            intro e he
            rcases mem_mapSet _ _ _ _ he with he | he
            · exact hrange e he
            · subst he
              exact wrapInt_inRange _)
          (fun x hx => hquantity x (List.mem_cons_of_mem _ hx)) productID]
        simp only [stockOf_reserved s.products item product hget, requestedQty]
        by_cases hp : item.ProductID = productID
        · subst hp
          simp only [if_true, hstock, hwrap]
          omega
        · simp only [hp, if_false]
          omega

/-- C21: `ReserveItems` returns an error if and only if the service is
configured to fail, or some item names an unknown product, or the quantity of
some item exceeds the stock of its product reduced by the earlier items of the
call; when it succeeds, the result holds one reservation per item, in item
order, with the given order ID, the product and the quantity of the item and
status `Reserved`, and the stock of every product has been reduced, in `int`
arithmetic, by the quantities requested for it — by their sum exactly when
the stocks are `int` values and no quantity is negative. -/
theorem C21_ReserveItems (s : InventoryService F) (u : UuidSource) (orderID : String)
    (items : List (OrderItem F)) :
    ((∃ e, (s.ReserveItems u orderID items).1 = .error e) ↔ ReserveRejected s items) ∧
      ∀ reservations, (s.ReserveItems u orderID items).1 = .ok reservations →
        reservations.map (fun r => (r.OrderID, r.ProductID, r.Quantity, r.Status)) =
            items.map (fun item =>
              (orderID, item.ProductID, item.Quantity, ReservationStatus.Reserved)) ∧
          (∀ productID,
            (s.ReserveItems u orderID items).2.1.GetStock productID =
              reducedStock (s.GetStock productID) productID items) ∧
          (StocksInRange s → (∀ item ∈ items, 0 ≤ item.Quantity) →
            ∀ productID,
              (s.ReserveItems u orderID items).2.1.GetStock productID =
                s.GetStock productID - requestedQty productID items) := by
  cases hfail : s.shouldFail with
  | true =>
    refine ⟨⟨fun _ => Or.inl hfail, fun _ => ⟨SagaError.inventoryFailed, ?_⟩⟩, ?_⟩
    · simp [InventoryService.ReserveItems, hfail]
    · intro reservations h
      simp [InventoryService.ReserveItems, hfail] at h
  | false =>
    have hloop : s.ReserveItems u orderID items = reserveLoop orderID items s u [] := by
      simp [InventoryService.ReserveItems, hfail]
    rw [hloop]
    refine ⟨?_, ?_⟩
    · rw [reserveLoop_error_iff]
      simp only [ReserveRejected, hfail, Bool.false_eq_true, false_or, GetStock_eq_stockOf]
    · intro reservations h
      obtain ⟨h1, h2⟩ := reserveLoop_ok orderID items s u [] reservations h
      refine ⟨by simpa using h1, fun productID => ?_, fun hrange hquantity productID => ?_⟩
      · rw [GetStock_eq_stockOf, GetStock_eq_stockOf]
        exact h2 productID
      · rw [GetStock_eq_stockOf, GetStock_eq_stockOf]
        exact reserveLoop_ok_exact orderID items s u [] reservations h hrange hquantity productID

/-- C21 holds of an actual call: reserving 2 and then 3 units of product1, of
which 100 are in stock, succeeds with two reservations and leaves 95; asking
for 1000 units of product2 is rejected. -/
theorem C21_ReserveItems_witness :
    (testServices.inventoryService.ReserveItems exampleUuid "order-1" repeatedItems).1 =
        .ok [{ ID := "u", OrderID := "order-1", ProductID := "product1", Quantity := 2,
               Status := ReservationStatus.Reserved },
             { ID := "uu", OrderID := "order-1", ProductID := "product1", Quantity := 3,
               Status := ReservationStatus.Reserved }] ∧
      (testServices.inventoryService.ReserveItems exampleUuid "order-1"
        repeatedItems).2.1.GetStock "product1" = 100 - 5 ∧
      ((∃ e, (testServices.inventoryService.ReserveItems exampleUuid "order-2"
          partialItems).1 = .error e) ↔
        ReserveRejected testServices.inventoryService partialItems) :=
  ⟨rfl,
    ((C21_ReserveItems testServices.inventoryService exampleUuid "order-1" repeatedItems).2
      _ rfl).2.2
        (by intro e he; revert e; decide!) (by decide) "product1",
    (C21_ReserveItems testServices.inventoryService exampleUuid "order-2" partialItems).1⟩

end ReserveSuccess

/-! ## `ReleaseItems` -/

section ReleaseContract
variable {F : Type}

/-- The reservations after the release loop: those of the order that were
`Reserved` are `Released`, and every other one is as it was, whatever the
products. -/
theorem releaseLoop_snd (orderID : String) (rs : List (String × InventoryReservation)) :
    ∀ products : List (String × Product F),
      (releaseLoop orderID rs products).2 =
        rs.map (fun e =>
          if e.2.OrderID = orderID ∧ e.2.Status = ReservationStatus.Reserved then
            (e.1, { e.2 with Status := ReservationStatus.Released })
          else e) := by
  induction rs with
  | nil => intro products; rfl
  | cons e rest ih =>
    intro products
    obtain ⟨k, r⟩ := e
    by_cases hr : r.OrderID = orderID ∧ r.Status = ReservationStatus.Reserved
    · rw [releaseLoop]
      simp only [hr, and_self, if_true, List.map_cons, ih]
    · rw [releaseLoop_cons_skip orderID k r rest products hr]
      simp only [hr, if_false, List.map_cons, ih]

/-- The release loop changes nothing when the order has no `Reserved` reservation. -/
theorem releaseLoop_noop (orderID : String) (rs : List (String × InventoryReservation)) :
    ∀ products : List (String × Product F),
      ¬ HasReserved orderID rs → releaseLoop orderID rs products = (products, rs) := by
  induction rs with
  | nil => intro products _; rfl
  | cons e rest ih =>
    intro products hnone
    obtain ⟨k, r⟩ := e
    have hr : ¬(r.OrderID = orderID ∧ r.Status = ReservationStatus.Reserved) :=
      fun h => hnone ⟨(k, r), List.mem_cons_self _ _, h⟩
    have hrest : ¬ HasReserved orderID rest :=
      fun ⟨e, he, h⟩ => hnone ⟨e, List.mem_cons_of_mem _ he, h⟩
    rw [releaseLoop_cons_skip orderID k r rest products hr, ih products hrest]

/-- After the release loop the order has no `Reserved` reservation. -/
theorem releaseLoop_released (orderID : String) (rs : List (String × InventoryReservation))
    (products : List (String × Product F)) :
    ¬ HasReserved orderID (releaseLoop orderID rs products).2 := by
  rw [releaseLoop_snd]
  rintro ⟨e, he, h1, h2⟩
  obtain ⟨e0, -, rfl⟩ := List.mem_map.mp he
  by_cases hr : e0.2.OrderID = orderID ∧ e0.2.Status = ReservationStatus.Reserved
  · simp only [hr, and_self, if_true] at h2
    cases h2
  · simp only [hr, if_false] at h1 h2
    exact hr ⟨h1, h2⟩

/-- The release loop leaves the reservations of the other orders as they are. -/
theorem releaseLoop_others (orderID : String) (rs : List (String × InventoryReservation))
    (products : List (String × Product F)) :
    otherReservations orderID (releaseLoop orderID rs products).2 =
      otherReservations orderID rs := by
  rw [releaseLoop_snd]
  induction rs with
  | nil => rfl
  | cons e rest ih =>
    by_cases hr : e.2.OrderID = orderID ∧ e.2.Status = ReservationStatus.Reserved
    · have h1 : e.2.OrderID = orderID := hr.1
      simp only [otherReservations] at ih
      simp only [otherReservations, List.map_cons, hr, and_self, if_true, List.filter_cons, h1,
        ne_eq, not_true_eq_false, decide_False, Bool.false_eq_true, if_false, ih]
    · simp only [otherReservations] at ih
      simp only [otherReservations, List.map_cons, hr, if_false, List.filter_cons, ih]

/-- C23: `ReleaseItems` never returns an error; calling it twice in a row for
an order leaves the inventory (stocks and reservations) as calling it once;
when the order has no `Reserved` reservation the call changes nothing; and the
reservations of the other orders, and the keys of all, are as before. -/
theorem C23_ReleaseItems_idempotent (s : InventoryService F) (orderID : String) :
    (s.ReleaseItems orderID).1 = none ∧
      ((s.ReleaseItems orderID).2.ReleaseItems orderID).2 = (s.ReleaseItems orderID).2 ∧
      (¬ HasReserved orderID s.reservations → (s.ReleaseItems orderID).2 = s) ∧
      ¬ HasReserved orderID (s.ReleaseItems orderID).2.reservations ∧
      otherReservations orderID (s.ReleaseItems orderID).2.reservations =
        otherReservations orderID s.reservations ∧
      (s.ReleaseItems orderID).2.reservations.map (fun e => e.1) =
        s.reservations.map (fun e => e.1) := by
  have hnoop : ∀ t : InventoryService F, ¬ HasReserved orderID t.reservations →
      (t.ReleaseItems orderID).2 = t := by
    intro t h
    simp only [InventoryService.ReleaseItems, releaseLoop_noop orderID t.reservations t.products h]
  have hreleased : ¬ HasReserved orderID (s.ReleaseItems orderID).2.reservations := by
    rw [ReleaseItems_reservations]
    exact releaseLoop_released orderID s.reservations s.products
  refine ⟨rfl, hnoop _ hreleased, hnoop s, hreleased, ?_, ?_⟩
  · rw [ReleaseItems_reservations]
    exact releaseLoop_others orderID s.reservations s.products
  · rw [ReleaseItems_reservations, releaseLoop_snd, List.map_map]
    apply List.map_congr_left
    intro e _
    by_cases hr : e.2.OrderID = orderID ∧ e.2.Status = ReservationStatus.Reserved <;>
      simp [hr]

end ReleaseContract

/-! ## Release undoes reserve -/

section ReleaseUndoesReserve
variable {F : Type}

/-- The reserved quantity of an order with no `Reserved` reservation is zero. -/
theorem reservedQty_of_none (orderID productID : String)
    (rs : List (String × InventoryReservation)) (hnone : ¬ HasReserved orderID rs) :
    reservedQty orderID productID rs = 0 := by
  induction rs with
  | nil => rfl
  | cons e rest ih =>
    obtain ⟨k, r⟩ := e
    have hr : ¬(r.OrderID = orderID ∧ r.Status = ReservationStatus.Reserved ∧
        r.ProductID = productID) :=
      fun h => hnone ⟨(k, r), List.mem_cons_self _ _, h.1, h.2.1⟩
    have hrest : ¬ HasReserved orderID rest :=
      fun ⟨e, he, h⟩ => hnone ⟨e, List.mem_cons_of_mem _ he, h⟩
    simp only [reservedQty, hr, if_false, ih hrest, add_zero]

/-- The reservation loop, when the `Reserved` reservations of the order are for
products that exist, conserves for every product the stock plus the quantity
reserved for the order (modulo `2^64`), provided the identifiers it draws are
fresh. -/
theorem reserveLoop_conserves_reserved (orderID : String) (items : List (OrderItem F))
    (s : InventoryService F) (u : UuidSource) (acc : List InventoryReservation)
    (hinj : ∀ i j, u.next ≤ i → u.next ≤ j → u.gen i = u.gen j → i = j)
    (hkeys : ∀ i, u.next ≤ i → ∀ e ∈ s.reservations, e.1 ≠ u.gen i)
    (hlive : ReservedHaveProduct orderID s.products s.reservations)
    (hrange : ∀ e ∈ s.products, InIntRange e.2.Stock) :
    (∀ productID,
      (stockOf (reserveLoop orderID items s u acc).2.1.products productID +
          reservedQty orderID productID (reserveLoop orderID items s u acc).2.1.reservations) %
            18446744073709551616 =
        (stockOf s.products productID + reservedQty orderID productID s.reservations) %
          18446744073709551616) ∧
      ReservedHaveProduct orderID (reserveLoop orderID items s u acc).2.1.products
        (reserveLoop orderID items s u acc).2.1.reservations ∧
      (∀ e ∈ (reserveLoop orderID items s u acc).2.1.products, InIntRange e.2.Stock) := by
  induction items generalizing s u acc with
  | nil => exact ⟨fun _ => rfl, hlive, hrange⟩
  | cons item rest ih =>
    cases hget : mapGet s.products item.ProductID with
    | none =>
      simp only [reserveLoop, hget]
      exact ⟨fun _ => trivial, hlive, hrange⟩
    | some product =>
      by_cases hlt : product.Stock < item.Quantity
      · simp only [reserveLoop, hget, hlt, if_true]
        exact ⟨fun _ => trivial, hlive, hrange⟩
      · rw [reserveLoop_cons_ok orderID item rest s u acc product hget hlt]
        have hfresh : ∀ e ∈ s.reservations, e.1 ≠ u.gen u.next :=
          hkeys u.next (Nat.le_refl _)
        have hset := mapSet_fresh s.reservations (u.gen u.next)
          ({ ID := u.gen u.next, OrderID := orderID, ProductID := item.ProductID,
             Quantity := item.Quantity, Status := ReservationStatus.Reserved } :
            InventoryReservation) hfresh
        have hsome : (mapGet s.products item.ProductID).isSome = true := by simp [hget]
        obtain ⟨h1, h2, h3⟩ := ih
          { s with
            products := mapSet s.products item.ProductID
              { product with Stock := wrapInt (product.Stock - item.Quantity) },
            reservations := mapSet s.reservations (u.gen u.next)
              { ID := u.gen u.next, OrderID := orderID, ProductID := item.ProductID,
                Quantity := item.Quantity, Status := ReservationStatus.Reserved } }
          { u with next := u.next + 1 }
          (acc ++ [{ ID := u.gen u.next, OrderID := orderID, ProductID := item.ProductID,
                     Quantity := item.Quantity, Status := ReservationStatus.Reserved }])
          (fun i j hi hj h => hinj i j (Nat.le_of_succ_le hi) (Nat.le_of_succ_le hj) h)
          (by
            intro i hi e he
            rw [hset] at he
            rcases List.mem_append.mp he with he | he
            · exact hkeys i (Nat.le_of_succ_le hi) e he
            · simp only [List.mem_singleton] at he
              subst he
              intro hgen
              have := hinj u.next i (Nat.le_refl _) (Nat.le_of_succ_le hi) hgen
              simp only at hi
              omega)
          (by
            intro e he hoid hst
            rw [hset] at he
            rcases List.mem_append.mp he with he | he
            · rw [mapGet_mapSet_isSome _ _ _ _ hsome]
              exact hlive e he hoid hst
            · simp only [List.mem_singleton] at he
              subst he
              simp [mapGet_mapSet_self])
          (by
            intro e he
            rcases mem_mapSet _ _ _ _ he with he | he
            · exact hrange e he
            · subst he
              exact wrapInt_inRange _)
        refine ⟨?_, h2, h3⟩
        intro productID
        rw [h1 productID]
        simp only [hset, reservedQty_append, reservedQty, stockOf_mapSet, true_and]
        have hstock : stockOf s.products item.ProductID = product.Stock := by
          simp [stockOf, hget]
        have hw := wrapInt_emod (product.Stock - item.Quantity)
        by_cases hp : productID = item.ProductID
        · subst hp
          simp only [if_true, hstock]
          omega
        · have hp' : ¬ item.ProductID = productID := fun h => hp h.symm
          simp only [hp, hp', if_false]
          omega

/-- The release loop, when the `Reserved` reservations of the order are for
products that exist, adds to every stock the quantity reserved for the order
(modulo `2^64`). -/
theorem releaseLoop_restores (orderID : String) (rs : List (String × InventoryReservation))
    (products : List (String × Product F))
    (hlive : ReservedHaveProduct orderID products rs)
    (hrange : ∀ e ∈ products, InIntRange e.2.Stock) :
    (∀ productID,
      stockOf (releaseLoop orderID rs products).1 productID % 18446744073709551616 =
        (stockOf products productID + reservedQty orderID productID rs) %
          18446744073709551616) ∧
      (∀ e ∈ (releaseLoop orderID rs products).1, InIntRange e.2.Stock) := by
  induction rs generalizing products with
  | nil =>
    exact ⟨fun productID => by simp [releaseLoop, reservedQty], hrange⟩
  | cons e rest ih =>
    obtain ⟨k, r⟩ := e
    have hrest : ∀ ps : List (String × Product F),
        (∀ pid, (mapGet ps pid).isSome = (mapGet products pid).isSome) →
        ReservedHaveProduct orderID ps rest := by
      intro ps hps e he hoid hst
      rw [hps]
      exact hlive e (List.mem_cons_of_mem _ he) hoid hst
    by_cases hr : r.OrderID = orderID ∧ r.Status = ReservationStatus.Reserved
    · have hsome := hlive (k, r) (List.mem_cons_self _ _) hr.1 hr.2
      obtain ⟨p, hp⟩ := Option.isSome_iff_exists.mp hsome
      simp only at hp
      rw [releaseLoop_cons_release orderID k r rest products p hr hp]
      obtain ⟨h1, h3⟩ := ih
        (mapSet products r.ProductID { p with Stock := wrapInt (p.Stock + r.Quantity) })
        (hrest _ (fun pid => mapGet_mapSet_isSome _ _ _ _ hsome))
        (by
          intro e he
          rcases mem_mapSet _ _ _ _ he with he | he
          · exact hrange e he
          · subst he
            exact wrapInt_inRange _)
      refine ⟨?_, h3⟩
      intro productID
      simp only
      rw [h1 productID]
      simp only [reservedQty, stockOf_mapSet, hr, true_and]
      have hstock : stockOf products r.ProductID = p.Stock := by simp [stockOf, hp]
      have hw := wrapInt_emod (p.Stock + r.Quantity)
      by_cases hpid : productID = r.ProductID
      · subst hpid
        simp only [if_true, hstock]
        omega
      · have hpid' : ¬ r.ProductID = productID := fun h => hpid h.symm
        simp only [hpid, hpid', if_false]
        omega
    · rw [releaseLoop_cons_skip orderID k r rest products hr]
      obtain ⟨h1, h3⟩ := ih products (hrest _ (fun _ => rfl)) hrange
      refine ⟨?_, h3⟩
      intro productID
      simp only
      rw [h1 productID]
      have hzero : (if r.OrderID = orderID ∧ r.Status = ReservationStatus.Reserved ∧
          r.ProductID = productID then r.Quantity else 0) = 0 := by
        rw [if_neg]
        intro h
        exact hr ⟨h.1, h.2.1⟩
      simp only [reservedQty, hzero]
      omega

/-- C22: for every inventory state whose stocks are `int` values, every order
ID with no `Reserved` reservation yet and every item list for which
`ReserveItems` succeeds, the identifiers drawn being fresh, a following
`ReleaseItems` for the order returns no error and restores the stock of every
product to its value before the reservation, and leaves the order without a
`Reserved` reservation. -/
theorem C22_release_undoes_reserve (s : InventoryService F) (u : UuidSource)
    (orderID : String) (items : List (OrderItem F)) (reservations : List InventoryReservation)
    (hinj : ∀ i j, u.next ≤ i → u.next ≤ j → u.gen i = u.gen j → i = j)
    (hkeys : ∀ i, u.next ≤ i → ∀ e ∈ s.reservations, e.1 ≠ u.gen i)
    (hnone : ¬ HasReserved orderID s.reservations)
    (hrange : StocksInRange s)
    (hok : (s.ReserveItems u orderID items).1 = .ok reservations) :
    ((s.ReserveItems u orderID items).2.1.ReleaseItems orderID).1 = none ∧
      (∀ productID,
        ((s.ReserveItems u orderID items).2.1.ReleaseItems orderID).2.GetStock productID =
          s.GetStock productID) ∧
      ¬ HasReserved orderID
        ((s.ReserveItems u orderID items).2.1.ReleaseItems orderID).2.reservations := by
  have hlive : ReservedHaveProduct orderID s.products s.reservations :=
    fun e he hoid hst => absurd ⟨e, he, hoid, hst⟩ hnone
  have hloop : s.ReserveItems u orderID items = reserveLoop orderID items s u [] := by
    cases hfail : s.shouldFail with
    | true => simp [InventoryService.ReserveItems, hfail] at hok
    | false => simp [InventoryService.ReserveItems, hfail]
  obtain ⟨c1, c2, c3⟩ :=
    reserveLoop_conserves_reserved orderID items s u [] hinj hkeys hlive hrange
  rw [hloop]
  obtain ⟨r1, r3⟩ := releaseLoop_restores orderID _ _ c2 c3
  refine ⟨rfl, ?_, ?_⟩
  · intro productID
    rw [GetStock_eq_stockOf, GetStock_eq_stockOf, ReleaseItems_products]
    apply eq_of_emod_eq _ _ (stockOf_inRange _ _ r3) (stockOf_inRange _ _ hrange)
    rw [r1 productID, c1 productID, reservedQty_of_none orderID productID _ hnone]
    simp
  · rw [ReleaseItems_reservations]
    exact releaseLoop_released orderID _ _

/-- C22 holds of an actual call: after reserving 2 and then 3 units of product1
for "order-1", releasing the order brings the stock of product1 back to 100. -/
theorem C22_release_undoes_reserve_witness :
    testServices.inventoryService.GetStock "product1" = 100 ∧
      (testServices.inventoryService.ReserveItems exampleUuid "order-1"
        repeatedItems).2.1.GetStock "product1" = 95 ∧
      ((testServices.inventoryService.ReserveItems exampleUuid "order-1"
        repeatedItems).2.1.ReleaseItems "order-1").2.GetStock "product1" =
          testServices.inventoryService.GetStock "product1" :=
  ⟨by decide, by decide,
    (C22_release_undoes_reserve testServices.inventoryService exampleUuid "order-1"
      repeatedItems _
      (fun i j _ _ h => exampleUuid_injective i j h)
      (fun _ _ e he => by cases he)
      (by rintro ⟨e, he, -⟩; cases he)
      (by intro e he; revert e; decide!)
      rfl).2.1 "product1"⟩

end ReleaseUndoesReserve

/-! ## `ProcessPayment` and the refunds -/

section BillingContract
variable {F : Type}

/-- The result of `ProcessPayment` when the service is not configured to fail
and the balance covers the amount. -/
theorem ProcessPayment_accepted [Float64Ops F] (s : BillingService F) (u : UuidSource)
    (orderID userID : String) (amount : F) (hfail : s.shouldFail = false)
    (hlt : Float64Ops.lt (s.GetUserBalance userID) amount = false) :
    s.ProcessPayment u orderID userID amount =
      (.ok { ID := u.gen u.next, OrderID := orderID, UserID := userID, Amount := amount,
             Status := PaymentStatus.Completed },
        { s with
          userBalances := mapSet s.userBalances userID
            (Float64Ops.sub (s.GetUserBalance userID) amount),
          payments := mapSet s.payments (u.gen u.next)
            { ID := u.gen u.next, OrderID := orderID, UserID := userID, Amount := amount,
              Status := PaymentStatus.Completed } },
        { u with next := u.next + 1 }) := by
  simp only [BillingService.GetUserBalance] at hlt
  simp [BillingService.ProcessPayment, BillingService.GetUserBalance, hfail, hlt, UuidSource.New]

/-- The result of `ProcessPayment` when the service is configured to fail or
the balance is less than the amount: an error and no change. -/
theorem ProcessPayment_rejected [Float64Ops F] (s : BillingService F) (u : UuidSource)
    (orderID userID : String) (amount : F)
    (h : s.shouldFail = true ∨ Float64Ops.lt (s.GetUserBalance userID) amount = true) :
    ∃ e, s.ProcessPayment u orderID userID amount = (.error e, s, u) := by
  cases hfail : s.shouldFail with
  | true => exact ⟨SagaError.paymentFailed, by simp [BillingService.ProcessPayment, hfail]⟩
  | false =>
    rcases h with h | h
    · rw [hfail] at h
      cases h
    · simp only [BillingService.GetUserBalance] at h
      exact ⟨SagaError.insufficientFunds ((mapGet s.userBalances userID).getD Float64Ops.zero)
        amount, by simp [BillingService.ProcessPayment, hfail, h]⟩

/-- C24: `ProcessPayment` returns an error if and only if the service is
configured to fail or the balance of the user (the zero value for an unknown
user) is less than the amount; on success the balance of the user becomes
balance minus amount, the balance of every other user is unchanged, and the
payment returned, with the given order ID, user ID and amount and status
`Completed`, is recorded under its ID; on error the service is unchanged: no
balance changes and no payment is recorded. -/
theorem C24_ProcessPayment [Float64Ops F] (s : BillingService F) (u : UuidSource)
    (orderID userID : String) (amount : F) :
    ((∃ e, (s.ProcessPayment u orderID userID amount).1 = .error e) ↔
        (s.shouldFail = true ∨ Float64Ops.lt (s.GetUserBalance userID) amount = true)) ∧
      (∀ payment, (s.ProcessPayment u orderID userID amount).1 = .ok payment →
        payment.OrderID = orderID ∧ payment.UserID = userID ∧ payment.Amount = amount ∧
          payment.Status = PaymentStatus.Completed ∧
          (s.ProcessPayment u orderID userID amount).2.1.GetUserBalance userID =
            Float64Ops.sub (s.GetUserBalance userID) amount ∧
          (∀ other, other ≠ userID →
            (s.ProcessPayment u orderID userID amount).2.1.GetUserBalance other =
              s.GetUserBalance other) ∧
          (s.ProcessPayment u orderID userID amount).2.1.GetPayment payment.ID = .ok payment) ∧
      ∀ e, (s.ProcessPayment u orderID userID amount).1 = .error e →
        (s.ProcessPayment u orderID userID amount).2 = (s, u) := by
  by_cases h : s.shouldFail = true ∨ Float64Ops.lt (s.GetUserBalance userID) amount = true
  · obtain ⟨e, he⟩ := ProcessPayment_rejected s u orderID userID amount h
    rw [he]
    refine ⟨⟨fun _ => h, fun _ => ⟨e, rfl⟩⟩, ?_, fun _ _ => rfl⟩
    intro payment hp
    cases hp
  · have hfail : s.shouldFail = false := by
      cases hs : s.shouldFail with
      | true => exact absurd (Or.inl hs) h
      | false => rfl
    have hlt : Float64Ops.lt (s.GetUserBalance userID) amount = false := by
      cases hl : Float64Ops.lt (s.GetUserBalance userID) amount with
      | true => exact absurd (Or.inr hl) h
      | false => rfl
    rw [ProcessPayment_accepted s u orderID userID amount hfail hlt]
    refine ⟨⟨?_, fun h' => absurd h' h⟩, ?_, ?_⟩
    · rintro ⟨e, he⟩
      cases he
    · intro payment hp
      simp only [Except.ok.injEq] at hp
      subst hp
      refine ⟨rfl, rfl, rfl, rfl, ?_, ?_, ?_⟩
      · simp [BillingService.GetUserBalance, mapGet_mapSet_self]
      · intro other hother
        simp [BillingService.GetUserBalance, mapGet_mapSet_ne _ _ _ _ hother]
      · simp [BillingService.GetPayment, mapGet_mapSet_self]
    · intro e he
      cases he

/-- C24 holds of an actual call: with balance 1000, a payment of 100 by user1
for "order-1" is accepted and leaves 900. -/
theorem C24_ProcessPayment_witness :
    (testBilling.ProcessPayment exampleUuid "order-1" "user1" 100).1 =
        .ok { ID := "u", OrderID := "order-1", UserID := "user1", Amount := 100,
              Status := PaymentStatus.Completed } ∧
      (testBilling.ProcessPayment exampleUuid "order-1" "user1" 100).2.1.GetUserBalance "user1" =
        Float64Ops.sub (testBilling.GetUserBalance "user1") 100 ∧
      Float64Ops.sub (testBilling.GetUserBalance "user1") 100 = (900 : ℚ) :=
  ⟨by decide!,
    ((C24_ProcessPayment testBilling exampleUuid "order-1" "user1" 100).2.1
      { ID := "u", OrderID := "order-1", UserID := "user1", Amount := 100,
        Status := PaymentStatus.Completed }
      (by decide!)).2.2.2.2.1,
    by decide!⟩

end BillingContract

/-! ## Refunds -/

section Refunds
variable {F : Type}

/-- The order has no `Completed` payment exactly when the count is zero. -/
theorem completedCount_eq_zero (orderID : String) (payments : List (String × Payment F)) :
    completedCount orderID payments = 0 ↔
      ∀ e ∈ payments, ¬(e.2.OrderID = orderID ∧ e.2.Status = PaymentStatus.Completed) := by
  simp [completedCount, List.filter_eq_nil_iff]

/-- The search finds nothing exactly when the order has no `Completed` payment. -/
theorem findCompletedPayment_eq_none (orderID : String) (payments : List (String × Payment F)) :
    findCompletedPayment orderID payments = none ↔ completedCount orderID payments = 0 := by
  rw [completedCount_eq_zero]
  induction payments with
  | nil => simp [findCompletedPayment]
  | cons e rest ih =>
    obtain ⟨k, p⟩ := e
    by_cases hp : p.OrderID = orderID ∧ p.Status = PaymentStatus.Completed
    · simp [findCompletedPayment, hp]
    · simp only [findCompletedPayment, hp, if_false, ih, List.mem_cons, forall_eq_or_imp,
        not_false_eq_true, true_and]

/-- What the search finds is a stored `Completed` payment of the order. -/
theorem findCompletedPayment_some (orderID : String) (payments : List (String × Payment F))
    (k : String) (p : Payment F) (h : findCompletedPayment orderID payments = some (k, p)) :
    (k, p) ∈ payments ∧ p.OrderID = orderID ∧ p.Status = PaymentStatus.Completed := by
  induction payments with
  | nil => simp [findCompletedPayment] at h
  | cons e rest ih =>
    obtain ⟨k0, p0⟩ := e
    by_cases hp : p0.OrderID = orderID ∧ p0.Status = PaymentStatus.Completed
    · simp only [findCompletedPayment, hp, and_self, if_true, Option.some.injEq,
        Prod.mk.injEq] at h
      obtain ⟨rfl, rfl⟩ := h
      exact ⟨List.mem_cons_self _ _, hp⟩
    · simp only [findCompletedPayment, hp, if_false] at h
      obtain ⟨h1, h2⟩ := ih h
      exact ⟨List.mem_cons_of_mem _ h1, h2⟩

/-- After a payment has been stored for an order that had no `Completed`
payment, the search finds that payment. -/
theorem findCompletedPayment_mapSet (orderID : String) (payments : List (String × Payment F))
    (k : String) (p : Payment F) (hnone : completedCount orderID payments = 0)
    (hp : p.OrderID = orderID ∧ p.Status = PaymentStatus.Completed) :
    findCompletedPayment orderID (mapSet payments k p) = some (k, p) := by
  rw [completedCount_eq_zero] at hnone
  induction payments with
  | nil => simp [mapSet, findCompletedPayment, hp]
  | cons e rest ih =>
    obtain ⟨k0, p0⟩ := e
    have h0 : ¬(p0.OrderID = orderID ∧ p0.Status = PaymentStatus.Completed) :=
      hnone (k0, p0) (List.mem_cons_self _ _)
    by_cases hk : k0 = k
    · simp [mapSet, hk, findCompletedPayment, hp]
    · simp only [mapSet, hk, if_false, findCompletedPayment, h0]
      exact ih (fun e he => hnone e (List.mem_cons_of_mem _ he))

/-- Marking the found payment `Refunded` lowers the number of `Completed`
payments of the order by one, when the keys of the map are distinct. -/
theorem completedCount_refund (orderID : String) (payments : List (String × Payment F))
    (k : String) (p : Payment F) (hkeys : (payments.map (fun e => e.1)).Nodup)
    (h : findCompletedPayment orderID payments = some (k, p)) :
    completedCount orderID (mapSet payments k { p with Status := PaymentStatus.Refunded }) + 1 =
      completedCount orderID payments := by
  induction payments with
  | nil => simp [findCompletedPayment] at h
  | cons e rest ih =>
    obtain ⟨k0, p0⟩ := e
    by_cases hp : p0.OrderID = orderID ∧ p0.Status = PaymentStatus.Completed
    · simp only [findCompletedPayment, hp, and_self, if_true, Option.some.injEq,
        Prod.mk.injEq] at h
      obtain ⟨rfl, rfl⟩ := h
      simp [mapSet, completedCount, List.filter_cons, hp]
    · simp only [findCompletedPayment, hp, if_false] at h
      have hmem := (findCompletedPayment_some orderID rest k p h).1
      simp only [List.map_cons, List.nodup_cons, List.mem_map, not_exists, not_and] at hkeys
      have hk : k0 ≠ k := fun hk0 => hkeys.1 (k, p) hmem hk0.symm
      have ih' := ih hkeys.2 h
      simp only [completedCount] at ih' ⊢
      simp only [mapSet, hk, if_false, List.filter_cons, hp, decide_False, Bool.false_eq_true]
      exact ih'

/-- The refund that follows an accepted payment for an order that had no
`Completed` payment: no error, the payment is `Refunded`, and the balance of
the user is the debited balance plus the amount. -/
theorem refund_after_payment [Float64Ops F] (s : BillingService F) (u : UuidSource)
    (orderID userID : String) (amount : F) (payment : Payment F)
    (hnone : completedCount orderID s.payments = 0)
    (hok : (s.ProcessPayment u orderID userID amount).1 = .ok payment) :
    ((s.ProcessPayment u orderID userID amount).2.1.RefundPaymentByOrderID orderID).1 = none ∧
      ((s.ProcessPayment u orderID userID amount).2.1.RefundPaymentByOrderID
        orderID).2.GetPayment payment.ID =
          .ok { payment with Status := PaymentStatus.Refunded } ∧
      ((s.ProcessPayment u orderID userID amount).2.1.RefundPaymentByOrderID
        orderID).2.GetUserBalance userID =
          Float64Ops.add (Float64Ops.sub (s.GetUserBalance userID) amount) amount ∧
      ∀ other, other ≠ userID →
        ((s.ProcessPayment u orderID userID amount).2.1.RefundPaymentByOrderID
          orderID).2.GetUserBalance other = s.GetUserBalance other := by
  by_cases h : s.shouldFail = true ∨ Float64Ops.lt (s.GetUserBalance userID) amount = true
  · obtain ⟨e, he⟩ := ProcessPayment_rejected s u orderID userID amount h
    rw [he] at hok
    cases hok
  · have hfail : s.shouldFail = false := by
      cases hs : s.shouldFail with
      | true => exact absurd (Or.inl hs) h
      | false => rfl
    have hlt : Float64Ops.lt (s.GetUserBalance userID) amount = false := by
      cases hl : Float64Ops.lt (s.GetUserBalance userID) amount with
      | true => exact absurd (Or.inr hl) h
      | false => rfl
    rw [ProcessPayment_accepted s u orderID userID amount hfail hlt] at hok ⊢
    simp only [Except.ok.injEq] at hok
    subst hok
    have hfind := findCompletedPayment_mapSet orderID s.payments (u.gen u.next)
      { ID := u.gen u.next, OrderID := orderID, UserID := userID, Amount := amount,
        Status := PaymentStatus.Completed } hnone ⟨rfl, rfl⟩
    refine ⟨?_, ?_, ?_, ?_⟩
    · simp [BillingService.RefundPaymentByOrderID, hfind]
    · simp [BillingService.RefundPaymentByOrderID, hfind, BillingService.GetPayment,
        mapGet_mapSet_self]
    · simp [BillingService.RefundPaymentByOrderID, hfind, BillingService.GetUserBalance,
        mapGet_mapSet_self]
    · intro other hother
      simp [BillingService.RefundPaymentByOrderID, hfind, BillingService.GetUserBalance,
        mapGet_mapSet_ne _ _ _ _ hother]

/-- C25: in exact arithmetic, for every billing state in which the order has no
`Completed` payment yet and every successful `ProcessPayment` for the order, a
following `RefundPaymentByOrderID` for the order returns no error, marks that
payment `Refunded` and brings the balance of the user back to its value before
the payment, the other balances being unchanged. -/
theorem C25_refund_undoes_payment (s : BillingService ℚ) (u : UuidSource)
    (orderID userID : String) (amount : ℚ) (payment : Payment ℚ)
    (hnone : completedCount orderID s.payments = 0)
    (hok : (s.ProcessPayment u orderID userID amount).1 = .ok payment) :
    ((s.ProcessPayment u orderID userID amount).2.1.RefundPaymentByOrderID orderID).1 = none ∧
      ((s.ProcessPayment u orderID userID amount).2.1.RefundPaymentByOrderID
        orderID).2.GetPayment payment.ID =
          .ok { payment with Status := PaymentStatus.Refunded } ∧
      ∀ user,
        ((s.ProcessPayment u orderID userID amount).2.1.RefundPaymentByOrderID
          orderID).2.GetUserBalance user = s.GetUserBalance user := by
  obtain ⟨h1, h2, h3, h4⟩ := refund_after_payment s u orderID userID amount payment hnone hok
  refine ⟨h1, h2, ?_⟩
  intro user
  by_cases hu : user = userID
  · subst hu
    rw [h3]
    show s.GetUserBalance user - amount + amount = s.GetUserBalance user
    ring
  · exact h4 user hu

/-- C25 holds of an actual call: user1, with balance 1000, pays 100 for
"order-1"; the refund of the order brings the balance back to 1000. -/
theorem C25_refund_undoes_payment_witness :
    testBilling.GetUserBalance "user1" = 1000 ∧
      (testBilling.ProcessPayment exampleUuid "order-1" "user1"
        100).2.1.GetUserBalance "user1" = 900 ∧
      ((testBilling.ProcessPayment exampleUuid "order-1" "user1"
        100).2.1.RefundPaymentByOrderID "order-1").2.GetUserBalance "user1" =
          testBilling.GetUserBalance "user1" :=
  ⟨by decide!, by decide!,
    (C25_refund_undoes_payment testBilling exampleUuid "order-1" "user1" 100
      { ID := "u", OrderID := "order-1", UserID := "user1", Amount := 100,
        Status := PaymentStatus.Completed }
      (by decide) (by decide!)).2.2 "user1"⟩

end Refunds

section RefundErrors
variable {F : Type}

/-- The method `RefundPaymentByOrderID` visits the payment map in list order. -/
theorem RefundPaymentByOrderID_eq [Float64Ops F] (s : BillingService F) (orderID : String) :
    s.RefundPaymentByOrderID orderID = s.RefundPaymentByOrderIDIn s.payments orderID := rfl

/-- The number of `Completed` payments of an order does not depend on the order
in which the map is visited. -/
theorem completedCount_perm (orderID : String) (a b : List (String × Payment F))
    (h : a.Perm b) : completedCount orderID a = completedCount orderID b :=
  (h.filter _).length_eq

/-- Marking a stored `Completed` payment of the order `Refunded` lowers the
number of `Completed` payments of the order by one, when the keys of the map
are distinct. -/
theorem completedCount_mapSet_mem (orderID : String) (payments : List (String × Payment F))
    (k : String) (p : Payment F) (hkeys : (payments.map (fun e => e.1)).Nodup)
    (hmem : (k, p) ∈ payments)
    (hp : p.OrderID = orderID ∧ p.Status = PaymentStatus.Completed) :
    completedCount orderID (mapSet payments k { p with Status := PaymentStatus.Refunded }) + 1 =
      completedCount orderID payments := by
  induction payments with
  | nil => cases hmem
  | cons e rest ih =>
    obtain ⟨k0, p0⟩ := e
    simp only [List.map_cons, List.nodup_cons, List.mem_map, not_exists, not_and] at hkeys
    by_cases hk : k0 = k
    · have hhead : (k, p) = (k0, p0) := by
        rcases List.mem_cons.mp hmem with h | h
        · exact h
        · exact absurd hk.symm (hkeys.1 (k, p) h)
      simp only [Prod.mk.injEq] at hhead
      obtain ⟨-, rfl⟩ := hhead
      simp [mapSet, hk, completedCount, List.filter_cons, hp]
    · have hrest : (k, p) ∈ rest := by
        rcases List.mem_cons.mp hmem with h | h
        · simp only [Prod.mk.injEq] at h
          exact absurd h.1.symm hk
        · exact h
      have ih' := ih hkeys.2 hrest
      simp only [completedCount] at ih' ⊢
      simp only [mapSet, hk, if_false, List.filter_cons]
      by_cases h0 : p0.OrderID = orderID ∧ p0.Status = PaymentStatus.Completed
      · simp only [h0, and_self, decide_True, if_true, List.length_cons]
        omega
      · simp only [h0, decide_False, Bool.false_eq_true, if_false]
        exact ih'

/-- C26 (amended): whatever the order in which the payment map is visited,
`RefundPaymentByOrderID` returns an error if and only if no payment of the
order has status `Completed`, and in that case changes nothing; a call that
returns no error lowers the number of `Completed` payments of the order by
one; so when the order has exactly one `Completed` payment, the first call
refunds it and a second call for the same order, again whatever the order of
the visit, returns an error and changes nothing. The keys of the payment map
are distinct, as in every Go map. -/
theorem C26_refund_by_order [Float64Ops F] (s : BillingService F) (orderID : String)
    (visit : List (String × Payment F))
    (hkeys : (s.payments.map (fun e => e.1)).Nodup) (hvisit : visit.Perm s.payments) :
    ((s.RefundPaymentByOrderIDIn visit orderID).1.isSome = true ↔
        completedCount orderID s.payments = 0) ∧
      ((s.RefundPaymentByOrderIDIn visit orderID).1.isSome = true →
        (s.RefundPaymentByOrderIDIn visit orderID).2 = s) ∧
      ((s.RefundPaymentByOrderIDIn visit orderID).1 = none →
        completedCount orderID (s.RefundPaymentByOrderIDIn visit orderID).2.payments + 1 =
          completedCount orderID s.payments) ∧
      (completedCount orderID s.payments = 1 →
        (s.RefundPaymentByOrderIDIn visit orderID).1 = none ∧
          ∀ second, second.Perm (s.RefundPaymentByOrderIDIn visit orderID).2.payments →
            ((s.RefundPaymentByOrderIDIn visit orderID).2.RefundPaymentByOrderIDIn second
                orderID).1.isSome = true ∧
              ((s.RefundPaymentByOrderIDIn visit orderID).2.RefundPaymentByOrderIDIn second
                orderID).2 = (s.RefundPaymentByOrderIDIn visit orderID).2) := by
  have hiff : ∀ (t : BillingService F) (v : List (String × Payment F)), v.Perm t.payments →
      ((t.RefundPaymentByOrderIDIn v orderID).1.isSome = true ↔
        completedCount orderID t.payments = 0) ∧
      ((t.RefundPaymentByOrderIDIn v orderID).1.isSome = true →
        (t.RefundPaymentByOrderIDIn v orderID).2 = t) := by
    intro t v hv
    rw [← completedCount_perm orderID v t.payments hv]
    cases hfind : findCompletedPayment orderID v with
    | none =>
      have hzero := (findCompletedPayment_eq_none orderID v).mp hfind
      simp [BillingService.RefundPaymentByOrderIDIn, hfind, hzero]
    | some found =>
      have hne : completedCount orderID v ≠ 0 := by
        intro hzero
        rw [(findCompletedPayment_eq_none orderID v).mpr hzero] at hfind
        cases hfind
      simp [BillingService.RefundPaymentByOrderIDIn, hfind, hne]
  have hcount : (s.RefundPaymentByOrderIDIn visit orderID).1 = none →
      completedCount orderID (s.RefundPaymentByOrderIDIn visit orderID).2.payments + 1 =
        completedCount orderID s.payments := by
    intro hnone
    cases hfind : findCompletedPayment orderID visit with
    | none => simp [BillingService.RefundPaymentByOrderIDIn, hfind] at hnone
    | some found =>
      obtain ⟨k, p⟩ := found
      obtain ⟨hmem, hp⟩ := findCompletedPayment_some orderID visit k p hfind
      have := completedCount_mapSet_mem orderID s.payments k p hkeys (hvisit.subset hmem) hp
      simpa [BillingService.RefundPaymentByOrderIDIn, hfind] using this
  refine ⟨(hiff s visit hvisit).1, (hiff s visit hvisit).2, hcount, ?_⟩
  intro hone
  have hfirst : (s.RefundPaymentByOrderIDIn visit orderID).1 = none := by
    cases h : (s.RefundPaymentByOrderIDIn visit orderID).1 with
    | none => rfl
    | some e =>
      have := (hiff s visit hvisit).1.mp (by rw [h]; rfl)
      omega
  have hzero : completedCount orderID (s.RefundPaymentByOrderIDIn visit orderID).2.payments
      = 0 := by
    have := hcount hfirst
    omega
  refine ⟨hfirst, fun second hsecond => ?_⟩
  have hsome := (hiff (s.RefundPaymentByOrderIDIn visit orderID).2 second hsecond).1.mpr hzero
  exact ⟨hsome, (hiff (s.RefundPaymentByOrderIDIn visit orderID).2 second hsecond).2 hsome⟩

/-- C26 (amended) holds of an actual call: after the one payment of "order-1"
has been refunded, a second refund of the order fails and changes nothing. -/
theorem C26_refund_by_order_witness :
    completedCount "order-1" onePaymentBilling.payments = 1 ∧
      (onePaymentBilling.RefundPaymentByOrderID "order-1").1 = none ∧
      ((onePaymentBilling.RefundPaymentByOrderID "order-1").2.RefundPaymentByOrderID
        "order-1").1.isSome = true ∧
      ((onePaymentBilling.RefundPaymentByOrderID "order-1").2.RefundPaymentByOrderID
        "order-1").2 = (onePaymentBilling.RefundPaymentByOrderID "order-1").2 :=
  have h := (C26_refund_by_order onePaymentBilling "order-1" onePaymentBilling.payments
    (by decide!) (List.Perm.refl _)).2.2.2 (by decide!)
  ⟨by decide!, h.1, (h.2 _ (List.Perm.refl _)).1, (h.2 _ (List.Perm.refl _)).2⟩

/-- C26 (as stated, refuted): user1, with balance 1000, has paid 100 and then
50 for the same order "order-1", which leaves 850. Whichever of the two
payments the first `RefundPaymentByOrderID` finds first (the balance is then
950 or 900), and in whichever order the second call for the same order visits
the map, the second call returns no error and credits the other payment: the
balance ends at 1000. -/
theorem C26_second_refund_succeeds :
    twoPaymentsBilling.payments.map (fun e => (e.1, e.2.OrderID, e.2.Amount, e.2.Status)) =
        [("u", "order-1", 100, PaymentStatus.Completed),
         ("uu", "order-1", 50, PaymentStatus.Completed)] ∧
      twoPaymentsBilling.GetUserBalance "user1" = 850 ∧
      refundTwice twoPaymentsBilling "order-1" "user1" false false = (none, 950, none, 1000) ∧
      refundTwice twoPaymentsBilling "order-1" "user1" false true = (none, 950, none, 1000) ∧
      refundTwice twoPaymentsBilling "order-1" "user1" true false = (none, 900, none, 1000) ∧
      refundTwice twoPaymentsBilling "order-1" "user1" true true = (none, 900, none, 1000) ∧
      ¬ NoSecondRefund twoPaymentsBilling "order-1" :=
  ⟨by decide!, by decide!, by decide!, by decide!, by decide!, by decide!,
    fun h =>
      absurd
        (h twoPaymentsBilling.payments (List.Perm.refl _) (by decide!)
          (twoPaymentsBilling.RefundPaymentByOrderIDIn twoPaymentsBilling.payments
            "order-1").2.payments (List.Perm.refl _)).1
        (by decide!)⟩

/-- C28: `RefundPayment` returns an error if and only if no payment with the ID
exists, and then changes nothing; on success the status of the payment, as
`GetPayment` reports it, is `Refunded`, whatever it was before, the other
payments are as before, and in every case the balance of every user is left
unchanged. -/
theorem C28_RefundPayment [Float64Ops F] (s : BillingService F) (paymentID : String) :
    ((s.RefundPayment paymentID).1.isSome = true ↔
        ∃ e, s.GetPayment paymentID = .error e) ∧
      ((s.RefundPayment paymentID).1.isSome = true → (s.RefundPayment paymentID).2 = s) ∧
      (∀ payment, s.GetPayment paymentID = .ok payment →
        (s.RefundPayment paymentID).1 = none ∧
          (s.RefundPayment paymentID).2.GetPayment paymentID =
            .ok { payment with Status := PaymentStatus.Refunded }) ∧
      (∀ other, other ≠ paymentID →
        (s.RefundPayment paymentID).2.GetPayment other = s.GetPayment other) ∧
      ∀ user, (s.RefundPayment paymentID).2.GetUserBalance user = s.GetUserBalance user := by
  cases hget : mapGet s.payments paymentID with
  | none =>
    simp [BillingService.RefundPayment, BillingService.GetPayment,
      BillingService.GetUserBalance, hget]
  | some payment =>
    refine ⟨?_, ?_, ?_, ?_, ?_⟩
    · simp [BillingService.RefundPayment, BillingService.GetPayment, hget]
    · simp [BillingService.RefundPayment, hget]
    · intro p hp
      simp only [BillingService.GetPayment, hget, Except.ok.injEq] at hp
      subst hp
      simp [BillingService.RefundPayment, BillingService.GetPayment, hget, mapGet_mapSet_self]
    · intro other hother
      simp [BillingService.RefundPayment, BillingService.GetPayment, hget,
        mapGet_mapSet_ne _ _ _ _ hother]
    · intro user
      simp [BillingService.RefundPayment, BillingService.GetUserBalance, hget]

/-- C28 holds of an actual call: after the payment of 100, `RefundPayment` of
that payment leaves the balance at 900, while `RefundPaymentByOrderID` of its
order brings it to 1000. -/
theorem C28_RefundPayment_witness :
    onePaymentBilling.GetPayment "u" =
        .ok { ID := "u", OrderID := "order-1", UserID := "user1", Amount := 100,
              Status := PaymentStatus.Completed } ∧
      (onePaymentBilling.RefundPayment "u").2.GetPayment "u" =
        .ok { ID := "u", OrderID := "order-1", UserID := "user1", Amount := 100,
              Status := PaymentStatus.Refunded } ∧
      (onePaymentBilling.RefundPayment "u").2.GetUserBalance "user1" =
        onePaymentBilling.GetUserBalance "user1" ∧
      onePaymentBilling.GetUserBalance "user1" = 900 ∧
      (onePaymentBilling.RefundPaymentByOrderID "order-1").2.GetUserBalance "user1" = 1000 :=
  ⟨by decide!,
    ((C28_RefundPayment onePaymentBilling "u").2.2.1
      { ID := "u", OrderID := "order-1", UserID := "user1", Amount := 100,
        Status := PaymentStatus.Completed } (by decide!)).2,
    (C28_RefundPayment onePaymentBilling "u").2.2.2.2 "user1",
    by decide!, by decide!⟩

end RefundErrors

/-! ## `ApplyDiscount` -/

section DiscountContract
variable {F : Type}

/-- C27: `ApplyDiscount` never returns an error; it returns a null discount if
and only if the user has no configured percentage, and then records nothing
and draws no identifier; otherwise it returns a discount for the given order
and user with `Percentage` the configured percentage and `Amount` the value of
`total * percentage / 100.0`, and records it under its ID. -/
theorem C27_ApplyDiscount [Float64Ops F] (s : DiscountService F) (u : UuidSource)
    (orderID userID : String) (total : F) :
    (∃ discount, (s.ApplyDiscount u orderID userID total).1 = .ok discount) ∧
      ((s.ApplyDiscount u orderID userID total).1 = .ok none ↔
        mapGet s.userDiscounts userID = none) ∧
      ((s.ApplyDiscount u orderID userID total).1 = .ok none →
        (s.ApplyDiscount u orderID userID total).2 = (s, u)) ∧
      ∀ percentage, mapGet s.userDiscounts userID = some percentage →
        ∃ discount,
          (s.ApplyDiscount u orderID userID total).1 = .ok (some discount) ∧
            discount.Percentage = percentage ∧
            discount.Amount =
              Float64Ops.div (Float64Ops.mul total percentage) (Float64Ops.ofInt 100) ∧
            discount.OrderID = orderID ∧ discount.UserID = userID ∧
            (s.ApplyDiscount u orderID userID total).2.1.GetDiscount discount.ID =
              .ok discount := by
  cases hpct : mapGet s.userDiscounts userID with
  | none =>
    simp [DiscountService.ApplyDiscount, hpct]
  | some pct =>
    simp [DiscountService.ApplyDiscount, hpct, UuidSource.New, DiscountService.GetDiscount,
      mapGet_mapSet_self]

/-- C27 holds of an actual call: for user1, whose percentage is 10, and the
total 200 the amount of the discount is 20; user3 has no percentage and gets a
null discount. -/
theorem C27_ApplyDiscount_witness :
    mapGet (NewDiscountService : DiscountService ℚ).userDiscounts "user1" = some 10 ∧
      ((NewDiscountService : DiscountService ℚ).ApplyDiscount exampleUuid "order-1" "user1"
        200).1 =
        .ok (some { ID := "u", UserID := "user1", OrderID := "order-1", Amount := 20,
                    Percentage := 10 }) ∧
      (((NewDiscountService : DiscountService ℚ).ApplyDiscount exampleUuid "order-1" "user3"
        200).1 = .ok none ↔
        mapGet (NewDiscountService : DiscountService ℚ).userDiscounts "user3" = none) :=
  ⟨by decide!, by decide!,
    (C27_ApplyDiscount (NewDiscountService : DiscountService ℚ) exampleUuid "order-1" "user3"
      200).2.1⟩

end DiscountContract

/-! ## The runs with the repository's services -/

section RepoRuns
variable {F : Type}

/-- Every run of `ExecuteOrderSaga` with the repository's services, from any
state, is of one of three kinds: every step succeeds; `ReserveItems` returns an
error and `CancelOrder` undoes the order; or `ProcessPayment` returns an error
and `RemoveDiscount` (when a discount was granted), `ReleaseItems` and
`CancelOrder` undo the first three steps. No other call returns an error, and
nothing is printed. -/
theorem repo_run_shape [Float64Ops F]
    (o : SagaOrchestrator F (Services F × List (CallRecord F)))
    (sagaID orderID userID : String) (items : List (OrderItem F)) :
    (o.ExecuteOrderSaga (traced repoCollaborators) sagaID orderID userID items).1.stdout =
        o.stdout ∧
      (((o.ExecuteOrderSaga (traced repoCollaborators) sagaID orderID userID items).2.Success =
            true ∧
          (o.ExecuteOrderSaga (traced repoCollaborators) sagaID orderID userID
            items).2.Execution.Status = SagaStatus.Completed ∧
          callShape o.services.2
            (o.ExecuteOrderSaga (traced repoCollaborators) sagaID orderID userID
              items).1.services.2 = shapeCompleted) ∨
        ((o.ExecuteOrderSaga (traced repoCollaborators) sagaID orderID userID items).2.Success =
            false ∧
          failingStep (o.ExecuteOrderSaga (traced repoCollaborators) sagaID orderID userID
            items).2.Execution = some "reserve_inventory" ∧
          (o.ExecuteOrderSaga (traced repoCollaborators) sagaID orderID userID
            items).2.Execution.Status = SagaStatus.Compensated ∧
          callShape o.services.2
            (o.ExecuteOrderSaga (traced repoCollaborators) sagaID orderID userID
              items).1.services.2 = shapeReserveFailed) ∨
        ((o.ExecuteOrderSaga (traced repoCollaborators) sagaID orderID userID items).2.Success =
            false ∧
          failingStep (o.ExecuteOrderSaga (traced repoCollaborators) sagaID orderID userID
            items).2.Execution = some "process_payment" ∧
          (o.ExecuteOrderSaga (traced repoCollaborators) sagaID orderID userID
            items).2.Execution.Status = SagaStatus.Compensated ∧
          ∃ discounted,
            callShape o.services.2
              (o.ExecuteOrderSaga (traced repoCollaborators) sagaID orderID userID
                items).1.services.2 = shapePaymentFailed discounted)) := by
  cases ExecuteOrderSaga_run (traced repoCollaborators) o sagaID orderID userID items with
  | failCreate err s1 h1 hfin hr =>
    have h1' := traced_CreateOrder_fst _ _ _ _ _ _ h1
    simp [repo_CreateOrder] at h1'
  | failReserve order s1 err s2 h1 h2 hfin hr =>
    have hs := congrArg Prod.fst hfin
    have hout := congrArg Prod.snd hfin
    simp only at hs hout
    have l1 := traced_CreateOrder_log _ _ _ _ _ _ h1
    have l2 := traced_ReserveItems_log _ _ _ _ _ _ h2
    have f1 := repo_CreateOrder_facts _ _ _ _ _ (traced_CreateOrder_fst _ _ _ _ _ _ h1)
    have f2 := repo_ReserveItems_frame _ _ _ _ _ (traced_ReserveItems_fst _ _ _ _ _ _ h2)
    have hcancel : (repoCollaborators.CancelOrder order.ID s2.1).1 = none := by
      rw [repo_CancelOrder]
      exact (setStatus_found _ _ _ _ (by rw [f2.1]; exact f1.1)).1
    refine ⟨?_, Or.inr (Or.inl ⟨by simp [hr, failedResult],
      by simp [hr, failedResult, failingStep, failedStep], by simp [hr, failedResult], ?_⟩)⟩
    · rw [hout]
      simp [rollback_eq_foldl, invoke, cancelOrderAction, traced_CancelOrder, hcancel]
    · rw [hs]
      simp [callShape, recordsSince, rollback_fst, cancelOrderAction, traced_CancelOrder, l1, l2,
        errOf, hcancel, Call.method, shapeReserveFailed]
  | failDiscount order s1 reservations s2 err s3 h1 h2 h3 hfin hr =>
    have h3' := traced_ApplyDiscount_fst _ _ _ _ _ _ _ h3
    rw [repo_ApplyDiscount] at h3'
    exact absurd (congrArg Prod.fst h3') (ApplyDiscount_no_error _ _ _ _ _ _)
  | failPayment order s1 reservations s2 discount s3 err s4 h1 h2 h3 h4 hfin hr =>
    have hs := congrArg Prod.fst hfin
    have hout := congrArg Prod.snd hfin
    simp only at hs hout
    have l1 := traced_CreateOrder_log _ _ _ _ _ _ h1
    have l2 := traced_ReserveItems_log _ _ _ _ _ _ h2
    have l3 := traced_ApplyDiscount_log _ _ _ _ _ _ _ h3
    have l4 := traced_ProcessPayment_log _ _ _ _ _ _ _ h4
    have f1 := repo_CreateOrder_facts _ _ _ _ _ (traced_CreateOrder_fst _ _ _ _ _ _ h1)
    have f2 := repo_ReserveItems_frame _ _ _ _ _ (traced_ReserveItems_fst _ _ _ _ _ _ h2)
    have h3' := traced_ApplyDiscount_fst _ _ _ _ _ _ _ h3
    have f3 := repo_ApplyDiscount_frame _ _ _ _ _ _ h3'
    have f4 := repo_ProcessPayment_frame _ _ _ _ _ _
      (traced_ProcessPayment_fst _ _ _ _ _ _ _ h4)
    have horder : mapGet s4.1.orderService.orders order.ID = some order := by
      rw [f4.1, f3.1, f2.1]; exact f1.1
    cases discount with
    | none =>
      have hcancel : (repoCollaborators.CancelOrder order.ID
          (repoCollaborators.ReleaseItems order.ID s4.1).2).1 = none := by
        rw [repo_CancelOrder]
        exact (setStatus_found _ _ _ _ (by rw [repo_ReleaseItems]; exact horder)).1
      have hrelease : (repoCollaborators.ReleaseItems order.ID s4.1).1 = none := by
        rw [repo_ReleaseItems]
      refine ⟨?_, Or.inr (Or.inr ⟨by simp [hr, failedResult],
        by simp [hr, failedResult, failingStep, failedStep], by simp [hr, failedResult],
        false, ?_⟩)⟩
      · rw [hout]
        simp [rollback_eq_foldl, invoke, compensationsAfterDiscount, cancelOrderAction,
          releaseInventoryAction, traced_CancelOrder, traced_ReleaseItems, hcancel, hrelease]
      · rw [hs]
        simp [callShape, recordsSince, rollback_fst, compensationsAfterDiscount,
          cancelOrderAction, releaseInventoryAction, traced_CancelOrder, traced_ReleaseItems,
          l1, l2, l3, l4, errOf, hcancel, hrelease, Call.method, shapePaymentFailed]
    | some d =>
      have hstored : mapGet s4.1.discountService.discounts d.ID = some d := by
        rw [f4.2.1]
        rw [repo_ApplyDiscount] at h3'
        have hres := congrArg Prod.fst h3'
        have hst := congrArg (fun p => p.2.discountService) h3'
        simp only at hres hst
        rw [← hst]
        exact ApplyDiscount_stored _ _ _ _ _ _ hres
      have hremove : (repoCollaborators.RemoveDiscount d.ID s4.1).1 = none := by
        rw [repo_RemoveDiscount]
        exact (RemoveDiscount_found _ _ _ hstored).1
      have hrelease : (repoCollaborators.ReleaseItems order.ID
          (repoCollaborators.RemoveDiscount d.ID s4.1).2).1 = none := by
        rw [repo_ReleaseItems]
      have hcancel : (repoCollaborators.CancelOrder order.ID
          (repoCollaborators.ReleaseItems order.ID
            (repoCollaborators.RemoveDiscount d.ID s4.1).2).2).1 = none := by
        rw [repo_CancelOrder]
        exact (setStatus_found _ _ _ _
          (by rw [repo_ReleaseItems, repo_RemoveDiscount]; exact horder)).1
      refine ⟨?_, Or.inr (Or.inr ⟨by simp [hr, failedResult],
        by simp [hr, failedResult, failingStep, failedStep], by simp [hr, failedResult],
        true, ?_⟩)⟩
      · rw [hout]
        simp [rollback_eq_foldl, invoke, compensationsAfterDiscount, cancelOrderAction,
          releaseInventoryAction, removeDiscountAction, traced_CancelOrder, traced_ReleaseItems,
          traced_RemoveDiscount, hcancel, hrelease, hremove]
      · rw [hs]
        simp [callShape, recordsSince, rollback_fst, compensationsAfterDiscount,
          cancelOrderAction, releaseInventoryAction, removeDiscountAction, traced_CancelOrder,
          traced_ReleaseItems, traced_RemoveDiscount, l1, l2, l3, l4, errOf, hcancel, hrelease,
          hremove, Call.method, shapePaymentFailed]
  | failConfirm order s1 reservations s2 discount s3 payment s4 err s5 h1 h2 h3 h4 h5 hfin hr =>
    exfalso
    have f1 := repo_CreateOrder_facts _ _ _ _ _ (traced_CreateOrder_fst _ _ _ _ _ _ h1)
    have f2 := repo_ReserveItems_frame _ _ _ _ _ (traced_ReserveItems_fst _ _ _ _ _ _ h2)
    have f3 := repo_ApplyDiscount_frame _ _ _ _ _ _
      (traced_ApplyDiscount_fst _ _ _ _ _ _ _ h3)
    have f4 := repo_ProcessPayment_frame _ _ _ _ _ _
      (traced_ProcessPayment_fst _ _ _ _ _ _ _ h4)
    have horder : mapGet s4.1.orderService.orders order.ID = some order := by
      rw [f4.1, f3.1, f2.1]; exact f1.1
    have h5' := congrArg Prod.fst (traced_ConfirmOrder_fst _ _ _ _ _ h5)
    rw [repo_ConfirmOrder] at h5'
    have := (setStatus_found _ _ OrderStatus.Confirmed _ horder).1
    simp only [OrderService.ConfirmOrder] at h5'
    rw [this] at h5'
    simp at h5'
  | success order s1 reservations s2 discount s3 payment s4 s5 h1 h2 h3 h4 h5 hfin hr =>
    have hs := congrArg Prod.fst hfin
    have hout := congrArg Prod.snd hfin
    simp only at hs hout
    have l1 := traced_CreateOrder_log _ _ _ _ _ _ h1
    have l2 := traced_ReserveItems_log _ _ _ _ _ _ h2
    have l3 := traced_ApplyDiscount_log _ _ _ _ _ _ _ h3
    have l4 := traced_ProcessPayment_log _ _ _ _ _ _ _ h4
    have l5 := traced_ConfirmOrder_log _ _ _ _ _ h5
    refine ⟨hout, Or.inl ⟨by simp [hr], by simp [hr], ?_⟩⟩
    rw [hs]
    simp [callShape, recordsSince, l1, l2, l3, l4, l5, errOf, Call.method, shapeCompleted]

end RepoRuns

section RepoOutcomes
variable {F : Type}

/-- The outcome of every run of `ExecuteOrderSaga` with the repository's
services, from any state: it succeeds with status `Completed`, or it fails at
reserve_inventory or at process_payment with status `Compensated`; and nothing
is printed. -/
theorem repo_run_outcome [Float64Ops F] (o : SagaOrchestrator F (Services F))
    (sagaID orderID userID : String) (items : List (OrderItem F)) :
    (o.ExecuteOrderSaga repoCollaborators sagaID orderID userID items).1.stdout = o.stdout ∧
      (((o.ExecuteOrderSaga repoCollaborators sagaID orderID userID items).2.Success = true ∧
          (o.ExecuteOrderSaga repoCollaborators sagaID orderID userID
            items).2.Execution.Status = SagaStatus.Completed) ∨
        ((o.ExecuteOrderSaga repoCollaborators sagaID orderID userID items).2.Success = false ∧
          (o.ExecuteOrderSaga repoCollaborators sagaID orderID userID
            items).2.Execution.Status = SagaStatus.Compensated ∧
          (failingStep (o.ExecuteOrderSaga repoCollaborators sagaID orderID userID
              items).2.Execution = some "reserve_inventory" ∨
            failingStep (o.ExecuteOrderSaga repoCollaborators sagaID orderID userID
              items).2.Execution = some "process_payment"))) := by
  obtain ⟨t1, t2, t3, -, t5⟩ := ExecuteOrderSaga_traced repoCollaborators o
    { services := (o.services, []), sagas := [], stdout := o.stdout } rfl rfl
    sagaID orderID userID items
  have hstatus : ((({ services := (o.services, []), sagas := [], stdout := o.stdout } :
      SagaOrchestrator F (Services F × List (CallRecord F))).ExecuteOrderSaga
        (traced repoCollaborators) sagaID orderID userID items).2.Execution.Status) =
      (o.ExecuteOrderSaga repoCollaborators sagaID orderID userID items).2.Execution.Status :=
    congrArg (fun p => p.2.2.2.1) t5
  have hsteps : ((({ services := (o.services, []), sagas := [], stdout := o.stdout } :
      SagaOrchestrator F (Services F × List (CallRecord F))).ExecuteOrderSaga
        (traced repoCollaborators) sagaID orderID userID items).2.Execution.Steps) =
      (o.ExecuteOrderSaga repoCollaborators sagaID orderID userID items).2.Execution.Steps :=
    congrArg (fun p => p.2.2.2.2.1) t5
  obtain ⟨r1, r2⟩ := repo_run_shape
    ({ services := (o.services, []), sagas := [], stdout := o.stdout } :
      SagaOrchestrator F (Services F × List (CallRecord F))) sagaID orderID userID items
  simp only [failingStep, hsteps, hstatus, t3, t2] at r1 r2
  refine ⟨r1, ?_⟩
  simp only [failingStep]
  rcases r2 with ⟨a, b, -⟩ | ⟨a, b, c, -⟩ | ⟨a, b, c, -⟩
  · exact Or.inl ⟨a, b⟩
  · exact Or.inr ⟨a, c, Or.inl b⟩
  · exact Or.inr ⟨a, c, Or.inr b⟩

/-- Every result of a sequence of sagas is the result of a call of
`ExecuteOrderSaga`, for one of the requests, on some state of the orchestrator. -/
theorem runSagas_result {σ : Type} [Float64Ops F] (c : Collaborators F σ)
    (requests : List (SagaRequest F)) :
    ∀ (o : SagaOrchestrator F σ), ∀ result ∈ (o.runSagas c requests).2,
      ∃ (p : SagaOrchestrator F σ) (request : SagaRequest F), request ∈ requests ∧
        result = (p.ExecuteOrderSaga c request.sagaID request.orderID request.userID
          request.items).2 := by
  induction requests with
  | nil =>
    intro o result h
    simp [runSagas_nil] at h
  | cons request rest ih =>
    intro o result h
    rw [runSagas_cons] at h
    rcases List.mem_cons.mp h with rfl | h
    · exact ⟨o, request, List.mem_cons_self _ _, rfl⟩
    · obtain ⟨p, r, hr, hp⟩ := ih _ result h
      exact ⟨p, r, List.mem_cons_of_mem _ hr, hp⟩

/-- A sequence of sagas with the repository's services prints nothing. -/
theorem repo_runSagas_stdout [Float64Ops F] (requests : List (SagaRequest F)) :
    ∀ (o : SagaOrchestrator F (Services F)),
      (o.runSagas repoCollaborators requests).1.stdout = o.stdout := by
  induction requests with
  | nil => intro o; rfl
  | cons request rest ih =>
    intro o
    rw [runSagas_cons]
    simp only
    rw [ih, (repo_run_outcome o _ _ _ _).1]

/-- A recorded call appears in the shape of the calls. -/
theorem mem_callShape (before after : List (CallRecord F)) (record : CallRecord F)
    (h : record ∈ recordsSince before after) :
    (record.call.method, record.err.isSome) ∈ callShape before after :=
  List.mem_map_of_mem _ h

/-- C29: with the repository's services, from any state of the orchestrator
(so also for each saga of a sequence run one at a time), every run of
`ExecuteOrderSaga` either succeeds with status `Completed` or fails at
reserve_inventory or at process_payment with status `Compensated`: the calls
`CreateOrder`, `ApplyDiscount` and `ConfirmOrder` never return an error, the
final status is never `Failed`, and `RefundPaymentByOrderID` is never called. -/
theorem C29_failures_at_reserve_or_payment [Float64Ops F]
    (o : SagaOrchestrator F (Services F × List (CallRecord F)))
    (sagaID orderID userID : String) (items : List (OrderItem F))
    (p : SagaOrchestrator F (Services F)) (requests : List (SagaRequest F)) :
    (((o.ExecuteOrderSaga (traced repoCollaborators) sagaID orderID userID items).2.Success =
          true ∧
        (o.ExecuteOrderSaga (traced repoCollaborators) sagaID orderID userID
          items).2.Execution.Status = SagaStatus.Completed) ∨
      ((o.ExecuteOrderSaga (traced repoCollaborators) sagaID orderID userID items).2.Success =
          false ∧
        (o.ExecuteOrderSaga (traced repoCollaborators) sagaID orderID userID
          items).2.Execution.Status = SagaStatus.Compensated ∧
        (failingStep (o.ExecuteOrderSaga (traced repoCollaborators) sagaID orderID userID
            items).2.Execution = some "reserve_inventory" ∨
          failingStep (o.ExecuteOrderSaga (traced repoCollaborators) sagaID orderID userID
            items).2.Execution = some "process_payment"))) ∧
    (∀ record ∈ recordsSince o.services.2
        (o.ExecuteOrderSaga (traced repoCollaborators) sagaID orderID userID items).1.services.2,
      (record.call.method ∈ ["CreateOrder", "ApplyDiscount", "ConfirmOrder"] →
        record.err = none) ∧
      record.call.method ≠ "RefundPaymentByOrderID") ∧
    ∀ result ∈ (p.runSagas repoCollaborators requests).2,
      (result.Success = true ∧ result.Execution.Status = SagaStatus.Completed) ∨
        (result.Success = false ∧ result.Execution.Status = SagaStatus.Compensated ∧
          (failingStep result.Execution = some "reserve_inventory" ∨
            failingStep result.Execution = some "process_payment")) := by
  refine ⟨?_, ?_, ?_⟩
  · rcases (repo_run_shape o sagaID orderID userID items).2 with
      ⟨a, b, -⟩ | ⟨a, b, c, -⟩ | ⟨a, b, c, -⟩
    · exact Or.inl ⟨a, b⟩
    · exact Or.inr ⟨a, c, Or.inl b⟩
    · exact Or.inr ⟨a, c, Or.inr b⟩
  · intro record hmem
    have hshape := mem_callShape _ _ record hmem
    cases herr : record.err with
    | none =>
      refine ⟨fun _ => rfl, ?_⟩
      intro hmethod
      rw [herr, hmethod] at hshape
      rcases (repo_run_shape o sagaID orderID userID items).2 with
        ⟨-, -, h⟩ | ⟨-, -, -, h⟩ | ⟨-, -, -, discounted, h⟩
      · rw [h] at hshape
        simp [shapeCompleted] at hshape
      · rw [h] at hshape
        simp [shapeReserveFailed] at hshape
      · rw [h] at hshape
        cases discounted <;> simp [shapePaymentFailed] at hshape
    | some e =>
      rw [herr] at hshape
      simp only [Option.isSome_some] at hshape
      rcases (repo_run_shape o sagaID orderID userID items).2 with
        ⟨-, -, h⟩ | ⟨-, -, -, h⟩ | ⟨-, -, -, discounted, h⟩
      · rw [h] at hshape
        simp [shapeCompleted] at hshape
      · rw [h] at hshape
        have hm : record.call.method = "ReserveItems" := by
          simpa [shapeReserveFailed] using hshape
        simp [hm]
      · rw [h] at hshape
        have hm : record.call.method = "ProcessPayment" := by
          cases discounted <;> simpa [shapePaymentFailed] using hshape
        simp [hm]
  · intro result hmem
    obtain ⟨q, request, -, rfl⟩ := runSagas_result repoCollaborators requests p result hmem
    exact (repo_run_outcome q _ _ _ _).2

/-- C30: with the repository's services, from any state of the orchestrator
(so also for each saga of a sequence run one at a time), every call that a
compensation makes during the rollback (`CancelOrder`, `ReleaseItems`,
`RemoveDiscount`; `RefundPaymentByOrderID` is never made) returns no error, and
nothing is printed: the compensation-failure branch of `compensate` is never
taken. -/
theorem C30_compensations_succeed [Float64Ops F]
    (o : SagaOrchestrator F (Services F × List (CallRecord F)))
    (sagaID orderID userID : String) (items : List (OrderItem F))
    (p : SagaOrchestrator F (Services F)) (requests : List (SagaRequest F)) :
    (∀ record ∈ recordsSince o.services.2
        (o.ExecuteOrderSaga (traced repoCollaborators) sagaID orderID userID items).1.services.2,
      record.call.method ∈ compensationMethods → record.err = none) ∧
    (o.ExecuteOrderSaga (traced repoCollaborators) sagaID orderID userID items).1.stdout =
      o.stdout ∧
    (p.runSagas repoCollaborators requests).1.stdout = p.stdout := by
  refine ⟨?_, (repo_run_shape o sagaID orderID userID items).1,
    repo_runSagas_stdout requests p⟩
  intro record hmem hmethod
  have hshape := mem_callShape _ _ record hmem
  cases herr : record.err with
  | none => rfl
  | some e =>
    exfalso
    rw [herr] at hshape
    simp only [Option.isSome_some] at hshape
    rcases (repo_run_shape o sagaID orderID userID items).2 with
      ⟨-, -, h⟩ | ⟨-, -, -, h⟩ | ⟨-, -, -, discounted, h⟩
    · rw [h] at hshape
      simp [shapeCompleted] at hshape
    · rw [h] at hshape
      have hm : record.call.method = "ReserveItems" := by
        simpa [shapeReserveFailed] using hshape
      rw [hm] at hmethod
      revert hmethod
      decide
    · rw [h] at hshape
      have hm : record.call.method = "ProcessPayment" := by
        cases discounted <;> simpa [shapePaymentFailed] using hshape
      rw [hm] at hmethod
      revert hmethod
      decide

end RepoOutcomes

section RepoOutcomeExamples

/-- C29 holds of an actual run: the saga of user3, whose balance is 50, for one
unit at price 100 fails at process_payment with status `Compensated`, and
neither `CreateOrder`, `ApplyDiscount` nor `ConfirmOrder` returned an error. -/
theorem C29_failures_at_reserve_or_payment_witness :
    failingStep ((NewSagaOrchestrator (poorUserServices, [])).ExecuteOrderSaga
        (traced repoCollaborators) "saga-3" "order-3" "user3" oneItem).2.Execution =
      some "process_payment" ∧
    ∀ record ∈ recordsSince ([] : List (CallRecord ℚ))
        ((NewSagaOrchestrator (poorUserServices, [])).ExecuteOrderSaga
          (traced repoCollaborators) "saga-3" "order-3" "user3" oneItem).1.services.2,
      (record.call.method ∈ ["CreateOrder", "ApplyDiscount", "ConfirmOrder"] →
        record.err = none) ∧
      record.call.method ≠ "RefundPaymentByOrderID" :=
  ⟨by decide!,
    (C29_failures_at_reserve_or_payment (NewSagaOrchestrator (poorUserServices, []))
      "saga-3" "order-3" "user3" oneItem (NewSagaOrchestrator poorUserServices) []).2.1⟩

/-- C30 holds of an actual run: with billing configured to fail, the saga of
user1, who has a discount, is rolled back by `RemoveDiscount`, `ReleaseItems`
and `CancelOrder`, none of which returns an error. -/
theorem C30_compensations_succeed_witness :
    callShape ([] : List (CallRecord ℚ))
        ((NewSagaOrchestrator (failingBillingServices, [])).ExecuteOrderSaga
          (traced repoCollaborators) "saga-4" "order-4" "user1" oneItem).1.services.2 =
      shapePaymentFailed true ∧
    ∀ record ∈ recordsSince ([] : List (CallRecord ℚ))
        ((NewSagaOrchestrator (failingBillingServices, [])).ExecuteOrderSaga
          (traced repoCollaborators) "saga-4" "order-4" "user1" oneItem).1.services.2,
      record.call.method ∈ compensationMethods → record.err = none :=
  ⟨by decide!,
    (C30_compensations_succeed (NewSagaOrchestrator (failingBillingServices, []))
      "saga-4" "order-4" "user1" oneItem (NewSagaOrchestrator failingBillingServices) []).1⟩

end RepoOutcomeExamples

/-! ## Stock conservation -/

section StockConservation
variable {F : Type}

theorem reservedTotal_append (productID : String) (a b : List (String × InventoryReservation)) :
    reservedTotal productID (a ++ b) = reservedTotal productID a + reservedTotal productID b := by
  induction a with
  | nil => simp [reservedTotal]
  | cons e rest ih =>
    obtain ⟨k, r⟩ := e
    show reservedTotal productID ((k, r) :: (rest ++ b)) = _
    simp only [reservedTotal]
    rw [ih]
    omega

/-- Two sums are the same value of `int` exactly when they agree modulo `2^64`. -/
theorem wrapInt_eq_iff (x y : Int) :
    wrapInt x = wrapInt y ↔ x % 18446744073709551616 = y % 18446744073709551616 := by
  unfold wrapInt
  omega

/-- One round of the release loop on a `Reserved` reservation of the order
whose product does not exist: the reservation is `Released`, no stock changes. -/
theorem releaseLoop_cons_missing (orderID k : String) (r : InventoryReservation)
    (rest : List (String × InventoryReservation)) (products : List (String × Product F))
    (hr : r.OrderID = orderID ∧ r.Status = ReservationStatus.Reserved)
    (hp : mapGet products r.ProductID = none) :
    releaseLoop orderID ((k, r) :: rest) products =
      ((releaseLoop orderID rest products).1,
        (k, { r with Status := ReservationStatus.Released }) ::
          (releaseLoop orderID rest products).2) := by
  rw [releaseLoop]
  simp only [hr, and_self, if_true, hp]

/-- The reservation loop, whether it succeeds or stops at an error, conserves
for every product the stock plus the reserved quantity (modulo `2^64`),
provided the identifiers it draws are fresh. -/
theorem reserveLoop_total (orderID : String) (items : List (OrderItem F))
    (s : InventoryService F) (u : UuidSource) (acc : List InventoryReservation)
    (hinj : ∀ i j, u.next ≤ i → u.next ≤ j → u.gen i = u.gen j → i = j)
    (hkeys : ∀ i, u.next ≤ i → ∀ e ∈ s.reservations, e.1 ≠ u.gen i) (productID : String) :
    (stockOf (reserveLoop orderID items s u acc).2.1.products productID +
        reservedTotal productID (reserveLoop orderID items s u acc).2.1.reservations) %
          18446744073709551616 =
      (stockOf s.products productID + reservedTotal productID s.reservations) %
        18446744073709551616 := by
  induction items generalizing s u acc with
  | nil => rfl
  | cons item rest ih =>
    cases hget : mapGet s.products item.ProductID with
    | none => simp only [reserveLoop, hget]
    | some product =>
      by_cases hlt : product.Stock < item.Quantity
      · simp only [reserveLoop, hget, hlt, if_true]
      · rw [reserveLoop_cons_ok orderID item rest s u acc product hget hlt]
        have hfresh : ∀ e ∈ s.reservations, e.1 ≠ u.gen u.next :=
          hkeys u.next (Nat.le_refl _)
        have hset := mapSet_fresh s.reservations (u.gen u.next)
          ({ ID := u.gen u.next, OrderID := orderID, ProductID := item.ProductID,
             Quantity := item.Quantity, Status := ReservationStatus.Reserved } :
            InventoryReservation) hfresh
        have hih := ih
          { s with
            products := mapSet s.products item.ProductID
              { product with Stock := wrapInt (product.Stock - item.Quantity) },
            reservations := mapSet s.reservations (u.gen u.next)
              { ID := u.gen u.next, OrderID := orderID, ProductID := item.ProductID,
                Quantity := item.Quantity, Status := ReservationStatus.Reserved } }
          { u with next := u.next + 1 }
          (acc ++ [{ ID := u.gen u.next, OrderID := orderID, ProductID := item.ProductID,
                     Quantity := item.Quantity, Status := ReservationStatus.Reserved }])
          (fun i j hi hj h => hinj i j (Nat.le_of_succ_le hi) (Nat.le_of_succ_le hj) h)
          (by
            intro i hi e he
            rw [hset] at he
            rcases List.mem_append.mp he with he | he
            · exact hkeys i (Nat.le_of_succ_le hi) e he
            · simp only [List.mem_singleton] at he
              subst he
              intro hgen
              have := hinj u.next i (Nat.le_refl _) (Nat.le_of_succ_le hi) hgen
              simp only at hi
              omega)
        rw [hih]
        simp only [hset, reservedTotal_append, reservedTotal, true_and,
          stockOf_reserved s.products item product hget]
        have hw := wrapInt_emod (stockOf s.products productID - item.Quantity)
        by_cases hp : item.ProductID = productID
        · simp only [hp, if_true]
          omega
        · simp only [hp, if_false]
          omega

/-- The release loop conserves, for every product that exists, the stock plus
the reserved quantity (modulo `2^64`). -/
theorem releaseLoop_total (orderID : String) (rs : List (String × InventoryReservation))
    (productID : String) :
    ∀ products : List (String × Product F), (mapGet products productID).isSome = true →
      (stockOf (releaseLoop orderID rs products).1 productID +
          reservedTotal productID (releaseLoop orderID rs products).2) %
            18446744073709551616 =
        (stockOf products productID + reservedTotal productID rs) %
          18446744073709551616 := by
  induction rs with
  | nil => intro products _; rfl
  | cons e rest ih =>
    intro products hsome
    obtain ⟨k, r⟩ := e
    by_cases hr : r.OrderID = orderID ∧ r.Status = ReservationStatus.Reserved
    · cases hp : mapGet products r.ProductID with
      | none =>
        rw [releaseLoop_cons_missing orderID k r rest products hr hp]
        have hne : ¬ r.ProductID = productID := by
          intro h
          rw [h] at hp
          rw [hp] at hsome
          cases hsome
        simp only [reservedTotal, hne, and_false, if_false]
        rw [Int.zero_add, Int.zero_add]
        exact ih products hsome
      | some p =>
        rw [releaseLoop_cons_release orderID k r rest products p hr hp]
        have hsome' : (mapGet products r.ProductID).isSome = true := by simp [hp]
        have hih := ih
          (mapSet products r.ProductID { p with Stock := wrapInt (p.Stock + r.Quantity) })
          (by rw [mapGet_mapSet_isSome _ _ _ _ hsome']; exact hsome)
        simp only [reservedTotal, hr.2, true_and] at hih ⊢
        have hst : (ReservationStatus.Released = ReservationStatus.Reserved) = False := by
          simp
        simp only [hst, false_and, if_false]
        rw [Int.zero_add, hih, stockOf_mapSet]
        have hstock : stockOf products r.ProductID = p.Stock := by simp [stockOf, hp]
        have hw := wrapInt_emod (p.Stock + r.Quantity)
        by_cases hpid : productID = r.ProductID
        · subst hpid
          simp only [if_true, hstock]
          omega
        · have hpid' : ¬ r.ProductID = productID := fun h => hpid h.symm
          simp only [hpid, hpid', if_false]
          omega
    · rw [releaseLoop_cons_skip orderID k r rest products hr]
      have hih := ih products hsome
      simp only [reservedTotal]
      omega

end StockConservation

/-! ## No overselling -/

section NoOverselling
variable {F : Type}

/-- The reserved quantity of a product is not negative when no `Reserved`
reservation has a negative quantity. -/
theorem reservedTotal_nonneg (productID : String) (rs : List (String × InventoryReservation))
    (h : ∀ e ∈ rs, e.2.Status = ReservationStatus.Reserved → 0 ≤ e.2.Quantity) :
    0 ≤ reservedTotal productID rs := by
  induction rs with
  | nil => simp [reservedTotal]
  | cons e rest ih =>
    obtain ⟨k, r⟩ := e
    have hrest := ih (fun e he => h e (List.mem_cons_of_mem _ he))
    have hr : r.Status = ReservationStatus.Reserved → 0 ≤ r.Quantity :=
      h (k, r) (List.mem_cons_self _ _)
    simp only [reservedTotal]
    by_cases hc : r.Status = ReservationStatus.Reserved ∧ r.ProductID = productID
    · have := hr hc.1
      simp only [hc, and_self, if_true]
      omega
    · simp only [hc, if_false]
      omega

/-- Storing a reservation adds at most its quantity to the reserved quantity
of a product. -/
theorem reservedTotal_mapSet_le (productID : String) (rs : List (String × InventoryReservation))
    (k : String) (r : InventoryReservation)
    (h : ∀ e ∈ rs, e.2.Status = ReservationStatus.Reserved → 0 ≤ e.2.Quantity) :
    reservedTotal productID (mapSet rs k r) ≤
      reservedTotal productID rs +
        (if r.Status = ReservationStatus.Reserved ∧ r.ProductID = productID then r.Quantity
          else 0) := by
  induction rs with
  | nil =>
    simp only [mapSet, reservedTotal]
    omega
  | cons e rest ih =>
    obtain ⟨k0, r0⟩ := e
    have hrest := ih (fun e he => h e (List.mem_cons_of_mem _ he))
    have hr0 : r0.Status = ReservationStatus.Reserved → 0 ≤ r0.Quantity :=
      h (k0, r0) (List.mem_cons_self _ _)
    by_cases hk : k0 = k
    · simp only [mapSet, hk, if_true, reservedTotal]
      by_cases hc : r0.Status = ReservationStatus.Reserved ∧ r0.ProductID = productID
      · have := hr0 hc.1
        simp only [hc, and_self, if_true]
        omega
      · simp only [hc, if_false]
        omega
    · simp only [mapSet, hk, if_false, reservedTotal]
      omega

/-- The property `SoundInventory` in terms of the two maps. -/
theorem SoundInventory_iff (s : InventoryService F) :
    SoundInventory s ↔
      (∀ e ∈ s.reservations, e.2.Status = ReservationStatus.Reserved → 0 ≤ e.2.Quantity) ∧
        ∀ productID, 0 ≤ stockOf s.products productID ∧
          stockOf s.products productID + reservedTotal productID s.reservations <
            9223372036854775808 := by
  unfold SoundInventory InventoryService.total InIntRange
  simp only [GetStock_eq_stockOf]
  constructor
  · rintro ⟨h1, h2⟩
    exact ⟨h1, fun productID => ⟨(h2 productID).1, (h2 productID).2.2⟩⟩
  · rintro ⟨h1, h2⟩
    refine ⟨h1, fun productID => ⟨(h2 productID).1, ?_, (h2 productID).2⟩⟩
    have := reservedTotal_nonneg productID s.reservations h1
    have := (h2 productID).1
    omega

/-- The reservation loop on items of non-negative quantity, whether it
succeeds or stops at an error, leaves a sound inventory sound. -/
theorem reserveLoop_sound (orderID : String) (items : List (OrderItem F)) :
    ∀ (s : InventoryService F) (u : UuidSource) (acc : List InventoryReservation),
      SoundInventory s → (∀ item ∈ items, 0 ≤ item.Quantity) →
        SoundInventory (reserveLoop orderID items s u acc).2.1 := by
  induction items with
  | nil => intro s u acc h _; exact h
  | cons item rest ih =>
    intro s u acc hsound hitems
    cases hget : mapGet s.products item.ProductID with
    | none =>
      simp only [reserveLoop, hget]
      exact hsound
    | some product =>
      by_cases hlt : product.Stock < item.Quantity
      · simp only [reserveLoop, hget, hlt, if_true]
        exact hsound
      · rw [reserveLoop_cons_ok orderID item rest s u acc product hget hlt]
        apply ih _ _ _ _ (fun x hx => hitems x (List.mem_cons_of_mem _ hx))
        obtain ⟨h1, h2⟩ := (SoundInventory_iff s).mp hsound
        have hq : 0 ≤ item.Quantity := hitems item (List.mem_cons_self _ _)
        have hstock : stockOf s.products item.ProductID = product.Stock := by
          simp [stockOf, hget]
        have hbound := h2 item.ProductID
        have hnn := reservedTotal_nonneg item.ProductID s.reservations h1
        have hwrap : wrapInt (product.Stock - item.Quantity) = product.Stock - item.Quantity := by
          apply wrapInt_sub _ _ _ hq hlt
          unfold InIntRange
          omega
        have h1' : ∀ e ∈ mapSet s.reservations (u.gen u.next)
            ({ ID := u.gen u.next, OrderID := orderID, ProductID := item.ProductID,
               Quantity := item.Quantity, Status := ReservationStatus.Reserved } :
              InventoryReservation),
            e.2.Status = ReservationStatus.Reserved → 0 ≤ e.2.Quantity := by
          intro e he hst
          rcases mem_mapSet _ _ _ _ he with he | he
          · exact h1 e he hst
          · subst he
            exact hq
        rw [SoundInventory_iff]
        refine ⟨h1', fun productID => ?_⟩
        have hle := reservedTotal_mapSet_le productID s.reservations (u.gen u.next)
          { ID := u.gen u.next, OrderID := orderID, ProductID := item.ProductID,
            Quantity := item.Quantity, Status := ReservationStatus.Reserved } h1
        have hb := h2 productID
        simp only [stockOf_reserved s.products item product hget]
        simp only [true_and] at hle
        by_cases hp : item.ProductID = productID
        · subst hp
          simp only [if_true] at hle ⊢
          rw [hstock, hwrap]
          rw [hstock] at hb
          exact ⟨by omega, by omega⟩
        · simp only [hp, if_false] at hle ⊢
          exact ⟨hb.1, by omega⟩

/-- The release loop keeps every stock non-negative and below the bound `B` on
the stock plus the reserved quantity, when no `Reserved` reservation has a
negative quantity and the bound is a value of `int`. -/
theorem releaseLoop_bound (orderID : String) (rs : List (String × InventoryReservation)) :
    ∀ (products : List (String × Product F)) (B : String → Int),
      (∀ e ∈ rs, e.2.Status = ReservationStatus.Reserved → 0 ≤ e.2.Quantity) →
      (∀ productID, 0 ≤ stockOf products productID) →
      (∀ productID, stockOf products productID + reservedTotal productID rs ≤ B productID) →
      (∀ productID, B productID < 9223372036854775808) →
        ∀ productID, 0 ≤ stockOf (releaseLoop orderID rs products).1 productID ∧
          stockOf (releaseLoop orderID rs products).1 productID +
            reservedTotal productID (releaseLoop orderID rs products).2 ≤ B productID := by
  induction rs with
  | nil =>
    intro products B _ hstock hB _ productID
    exact ⟨hstock productID, hB productID⟩
  | cons e rest ih =>
    intro products B hnn hstock hB hmax productID
    obtain ⟨k, r⟩ := e
    have hnn' : ∀ e ∈ rest, e.2.Status = ReservationStatus.Reserved → 0 ≤ e.2.Quantity :=
      fun e he => hnn e (List.mem_cons_of_mem _ he)
    have hr0 : r.Status = ReservationStatus.Reserved → 0 ≤ r.Quantity :=
      hnn (k, r) (List.mem_cons_self _ _)
    by_cases hr : r.OrderID = orderID ∧ r.Status = ReservationStatus.Reserved
    · have hq : 0 ≤ r.Quantity := hr0 hr.2
      have hst : (ReservationStatus.Released = ReservationStatus.Reserved) = False := by simp
      cases hp : mapGet products r.ProductID with
      | none =>
        rw [releaseLoop_cons_missing orderID k r rest products hr hp]
        have hih := ih products B hnn' hstock
          (by
            intro pid
            have := hB pid
            simp only [reservedTotal] at this
            by_cases hc : r.Status = ReservationStatus.Reserved ∧ r.ProductID = pid
            · simp only [hc, and_self, if_true] at this
              omega
            · simp only [hc, if_false] at this
              omega)
          hmax productID
        simp only [reservedTotal, hst, false_and, if_false]
        omega
      | some p =>
        rw [releaseLoop_cons_release orderID k r rest products p hr hp]
        have hstockp : stockOf products r.ProductID = p.Stock := by simp [stockOf, hp]
        have hBr := hB r.ProductID
        have hrestnn := reservedTotal_nonneg r.ProductID rest hnn'
        have hmaxr := hmax r.ProductID
        have hp0 := hstock r.ProductID
        simp only [reservedTotal, hr.2, true_and, if_true] at hBr
        rw [hstockp] at hBr hp0
        have hwrap : wrapInt (p.Stock + r.Quantity) = p.Stock + r.Quantity := by
          unfold wrapInt
          omega
        have hih := ih
          (mapSet products r.ProductID { p with Stock := wrapInt (p.Stock + r.Quantity) }) B hnn'
          (by
            intro pid
            rw [stockOf_mapSet]
            by_cases hpid : pid = r.ProductID
            · simp only [hpid, if_true, hwrap]
              omega
            · simp only [hpid, if_false]
              exact hstock pid)
          (by
            intro pid
            have := hB pid
            simp only [reservedTotal, hr.2, true_and] at this
            rw [stockOf_mapSet]
            by_cases hpid : pid = r.ProductID
            · subst hpid
              simp only [if_true, hwrap] at this ⊢
              rw [hstockp] at this
              omega
            · have hpid' : ¬ r.ProductID = pid := fun h => hpid h.symm
              simp only [hpid, hpid', if_false] at this ⊢
              omega)
          hmax productID
        simp only [reservedTotal, hst, false_and, if_false]
        omega
    · rw [releaseLoop_cons_skip orderID k r rest products hr]
      have hc0 : 0 ≤ (if r.Status = ReservationStatus.Reserved ∧ r.ProductID = productID
          then r.Quantity else 0) := by
        by_cases hc : r.Status = ReservationStatus.Reserved ∧ r.ProductID = productID
        · simp only [hc, and_self, if_true]
          exact hr0 hc.1
        · simp only [hc, if_false]
          exact le_refl _
      have hih := ih products
        (fun pid => B pid -
          (if r.Status = ReservationStatus.Reserved ∧ r.ProductID = pid then r.Quantity else 0))
        hnn' hstock
        (by
          intro pid
          have := hB pid
          simp only [reservedTotal] at this
          beta_reduce
          omega)
        (by
          intro pid
          have := hmax pid
          beta_reduce
          by_cases hc : r.Status = ReservationStatus.Reserved ∧ r.ProductID = pid
          · have := hr0 hc.1
            simp only [hc, and_self, if_true]
            omega
          · simp only [hc, if_false]
            omega)
        productID
      simp only [reservedTotal]
      simp only at hih
      omega

end NoOverselling

section InventoryInvariantClaims
variable {F : Type}

/-- An inventory that holds no reservation and whose stocks are non-negative
values of `int` is sound. -/
theorem SoundInventory_of_no_reservation (s : InventoryService F)
    (hnone : s.reservations = []) (hrange : StocksInRange s)
    (hstock : ∀ e ∈ s.products, 0 ≤ e.2.Stock) : SoundInventory s := by
  rw [SoundInventory_iff, hnone]
  refine ⟨fun e he => (by cases he), fun productID => ?_⟩
  simp only [reservedTotal, Int.add_zero, stockOf]
  cases hget : mapGet s.products productID with
  | none =>
    simp only
    omega
  | some product =>
    have hmem := mapGet_mem _ _ _ hget
    exact ⟨hstock _ hmem, (hrange _ hmem).2⟩

/-- The method `ReserveItems` on items of non-negative quantity, whether it
succeeds or returns an error, leaves a sound inventory sound. -/
theorem ReserveItems_sound (s : InventoryService F) (u : UuidSource) (orderID : String)
    (items : List (OrderItem F)) (hsound : SoundInventory s)
    (hitems : ∀ item ∈ items, 0 ≤ item.Quantity) :
    SoundInventory (s.ReserveItems u orderID items).2.1 := by
  cases hfail : s.shouldFail with
  | true =>
    simp only [InventoryService.ReserveItems, hfail, if_true]
    exact hsound
  | false =>
    simp only [InventoryService.ReserveItems, hfail, Bool.false_eq_true, if_false]
    exact reserveLoop_sound orderID items s u [] hsound hitems

/-- The method `ReleaseItems` leaves a sound inventory sound. -/
theorem ReleaseItems_sound (s : InventoryService F) (orderID : String)
    (hsound : SoundInventory s) : SoundInventory (s.ReleaseItems orderID).2 := by
  obtain ⟨h1, h2⟩ := (SoundInventory_iff s).mp hsound
  rw [SoundInventory_iff]
  refine ⟨?_, ?_⟩
  · rw [ReleaseItems_reservations, releaseLoop_snd]
    intro e he hst
    obtain ⟨e0, he0, rfl⟩ := List.mem_map.mp he
    by_cases hr : e0.2.OrderID = orderID ∧ e0.2.Status = ReservationStatus.Reserved
    · simp only [hr, and_self, if_true] at hst
      cases hst
    · simp only [hr, if_false] at hst ⊢
      exact h1 e0 he0 hst
  · intro productID
    rw [ReleaseItems_reservations, ReleaseItems_products]
    have hb := releaseLoop_bound orderID s.reservations s.products
      (fun pid => stockOf s.products pid + reservedTotal pid s.reservations) h1
      (fun pid => (h2 pid).1) (fun pid => le_refl _) (fun pid => (h2 pid).2) productID
    have := (h2 productID).2
    simp only at hb
    exact ⟨hb.1, by omega⟩

/-- Every sequence of calls whose items have non-negative quantities leaves a
sound inventory sound. -/
theorem runCalls_sound (calls : List (InventoryCall F)) :
    ∀ (s : InventoryService F) (u : UuidSource), SoundInventory s →
      (∀ call ∈ calls, ∀ item ∈ call.items, 0 ≤ item.Quantity) →
        SoundInventory (runCalls s u calls).1 := by
  induction calls with
  | nil => intro s u h _; exact h
  | cons call rest ih =>
    intro s u hsound hitems
    have hrest : ∀ call ∈ rest, ∀ item ∈ call.items, 0 ≤ item.Quantity :=
      fun c hc => hitems c (List.mem_cons_of_mem _ hc)
    cases call with
    | ReserveItems orderID items =>
      simp only [runCalls]
      exact ih _ _
        (ReserveItems_sound s u orderID items hsound
          (hitems (.ReserveItems orderID items) (List.mem_cons_self _ _))) hrest
    | ReleaseItems orderID =>
      simp only [runCalls]
      exact ih _ _ (ReleaseItems_sound s orderID hsound) hrest

/-- C31: for every product and every inventory state, the stock plus the sum of
the quantities of the `Reserved` reservations of the product, as a value of
`int`, is unchanged by every `ReserveItems` call, whether it succeeds or
returns an error part-way through the items (the identifiers drawn being
fresh), and, for a product that exists, by every `ReleaseItems` call; when the
inventory is sound and no item has a negative quantity, no addition wraps and
the two sums are equal as integers. -/
theorem C31_stock_conservation (s : InventoryService F) (u : UuidSource) (orderID : String)
    (items : List (OrderItem F)) (productID : String)
    (hinj : ∀ i j, u.next ≤ i → u.next ≤ j → u.gen i = u.gen j → i = j)
    (hkeys : ∀ i, u.next ≤ i → ∀ e ∈ s.reservations, e.1 ≠ u.gen i) :
    wrapInt ((s.ReserveItems u orderID items).2.1.total productID) =
        wrapInt (s.total productID) ∧
      ((mapGet s.products productID).isSome = true →
        wrapInt ((s.ReleaseItems orderID).2.total productID) = wrapInt (s.total productID)) ∧
      (SoundInventory s → (∀ item ∈ items, 0 ≤ item.Quantity) →
        (s.ReserveItems u orderID items).2.1.total productID = s.total productID ∧
          ((mapGet s.products productID).isSome = true →
            (s.ReleaseItems orderID).2.total productID = s.total productID)) := by
  have hreserve : ((s.ReserveItems u orderID items).2.1.total productID) %
      18446744073709551616 = (s.total productID) % 18446744073709551616 := by
    cases hfail : s.shouldFail with
    | true => simp only [InventoryService.ReserveItems, hfail, if_true]
    | false =>
      simp only [InventoryService.ReserveItems, hfail, Bool.false_eq_true, if_false,
        InventoryService.total, GetStock_eq_stockOf]
      exact reserveLoop_total orderID items s u [] hinj hkeys productID
  have hrelease : (mapGet s.products productID).isSome = true →
      ((s.ReleaseItems orderID).2.total productID) % 18446744073709551616 =
        (s.total productID) % 18446744073709551616 := by
    intro hsome
    simp only [InventoryService.total, GetStock_eq_stockOf, ReleaseItems_products,
      ReleaseItems_reservations]
    exact releaseLoop_total orderID s.reservations productID s.products hsome
  refine ⟨(wrapInt_eq_iff _ _).mpr hreserve, fun hsome => (wrapInt_eq_iff _ _).mpr (hrelease hsome),
    fun hsound hitems => ⟨?_, fun hsome => ?_⟩⟩
  · exact eq_of_emod_eq _ _
      ((ReserveItems_sound s u orderID items hsound hitems).2 productID).2
      (hsound.2 productID).2 hreserve
  · exact eq_of_emod_eq _ _ ((ReleaseItems_sound s orderID hsound).2 productID).2
      (hsound.2 productID).2 (hrelease hsome)

/-- C31 holds of actual calls: `ReserveItems` for 2 units of product1 and 1000
of product2 returns an error at the second item and leaves the stock of
product1 at 98 with 2 reserved, the sum being 100 as before; after
`ReleaseItems` the stock is 100 with nothing reserved. -/
theorem C31_stock_conservation_witness :
    testServices.inventoryService.total "product1" = 100 ∧
      (testServices.inventoryService.ReserveItems exampleUuid "order-2"
        partialItems).2.1.GetStock "product1" = 98 ∧
      (testServices.inventoryService.ReserveItems exampleUuid "order-2"
        partialItems).2.1.total "product1" = testServices.inventoryService.total "product1" ∧
      ((testServices.inventoryService.ReserveItems exampleUuid "order-2"
        partialItems).2.1.ReleaseItems "order-2").2.GetStock "product1" = 100 :=
  ⟨by decide, by decide,
    ((C31_stock_conservation testServices.inventoryService exampleUuid "order-2" partialItems
      "product1" (fun i j _ _ h => exampleUuid_injective i j h)
      (fun _ _ e he => by cases he)).2.2
      (SoundInventory_of_no_reservation _ rfl (by intro e he; revert e; decide!)
        (by intro e he; revert e; decide!))
      (by decide)).1,
    by decide⟩

/-- C32 (amended): starting from a sound inventory, that is one in which every
stock is non-negative, no `Reserved` reservation has a negative quantity and
for every product the stock plus the reserved quantity is a value of `int` (an
inventory that holds no reservation and whose stocks are non-negative values
of `int` is one), after any sequence of `ReserveItems` and `ReleaseItems` calls
whose item quantities are all non-negative, each call succeeding or returning
an error, the stock of every product is still non-negative, and the inventory
is still sound. -/
theorem C32_no_overselling (s : InventoryService F) (u : UuidSource)
    (calls : List (InventoryCall F)) (hsound : SoundInventory s)
    (hitems : ∀ call ∈ calls, ∀ item ∈ call.items, 0 ≤ item.Quantity) :
    (∀ productID, 0 ≤ (runCalls s u calls).1.GetStock productID) ∧
      SoundInventory (runCalls s u calls).1 :=
  ⟨fun productID => ((runCalls_sound calls s u hsound hitems).2 productID).1,
    runCalls_sound calls s u hsound hitems⟩

/-- C32 (amended) holds of an actual sequence: on the inventory of the tests, which holds
no reservation, two reservations (the second stops at an item that is out of
stock) and the releases of both orders leave no stock negative; the stock of
product1 goes from 100 to 93 and back to 100. -/
theorem C32_no_overselling_witness :
    testServices.inventoryService.reservations = [] ∧
      (runCalls testServices.inventoryService exampleUuid
        (exampleCalls.take 2)).1.GetStock "product1" = 93 ∧
      (runCalls testServices.inventoryService exampleUuid exampleCalls).1.GetStock "product1" =
        100 ∧
      ∀ productID,
        0 ≤ (runCalls testServices.inventoryService exampleUuid
          exampleCalls).1.GetStock productID :=
  ⟨rfl, by decide, by decide,
    (C32_no_overselling testServices.inventoryService exampleUuid exampleCalls
      (SoundInventory_of_no_reservation _ rfl (by intro e he; revert e; decide!)
        (by intro e he; revert e; decide!))
      (by decide)).1⟩

/-- C32 (as stated, refuted): the inventory reached by `SetStock("p", 5)` and
`ReserveItems("o1", [{p, -3}])` has no negative stock: the stock of "p" is 8,
and order "o1" holds a `Reserved` reservation of quantity -3. From it the calls
`ReserveItems("o2", [{p, 8}])` and `ReleaseItems("o1")`, whose item quantities
are all non-negative, leave the stock of "p" at -3: the first takes the stock
to 0, the second adds the reserved quantity -3 back. -/
theorem C32_release_of_negative_reservation :
    StocksNonNegative negativeReservationInventory ∧
      negativeReservationInventory.GetStock "p" = 8 ∧
      negativeReservationInventory.reservations.map
          (fun e => (e.2.OrderID, e.2.ProductID, e.2.Quantity, e.2.Status)) =
        [("o1", "p", -3, ReservationStatus.Reserved)] ∧
      (∀ call ∈ sellOutCalls, ∀ item ∈ call.items, 0 ≤ item.Quantity) ∧
      (runCalls negativeReservationInventory negativeReservationUuid
        (sellOutCalls.take 1)).1.GetStock "p" = 0 ∧
      (runCalls negativeReservationInventory negativeReservationUuid
        sellOutCalls).1.GetStock "p" = -3 ∧
      ¬ StocksNonNegative
        (runCalls negativeReservationInventory negativeReservationUuid sellOutCalls).1 := by
  decide!

end InventoryInvariantClaims

end Saga
